import Mathlib

/-!
# Gateway ECU: CAN link driver, serial transport driver and signal router

A shallow embedding of `Core/Src/can_drv.c`, `Core/Src/uart_drv.c` and
`Core/Src/pdu_router.c`.

* C `static` variables and memory-mapped registers become fields of explicit state records;
  every C function becomes a pure function from state to state (and result).
* `uint8_t`, `uint16_t`, `uint32_t` values are natural numbers; wrap-around is written out
  with `u8`, `u16`, `u32`.
* Pointers that the code compares with `NULL` are `Option` values.
* `float` is IEEE-754 binary32, modelled exactly by dyadic numbers with explicit
  round-to-nearest-even (`F32`).
* C strings are lists of characters (without the terminating NUL).
-/

namespace Gateway

/-! ## Machine integers -/

/-- Truncation to `uint8_t`. -/
def u8 (n : Nat) : Nat := n % 256

/-- Truncation to `uint16_t`. -/
def u16 (n : Nat) : Nat := n % 65536

/-- Truncation to `uint32_t`. -/
def u32 (n : Nat) : Nat := n % 4294967296

/-! ## IEEE-754 binary32 arithmetic

A finite `float` is `(-1)^neg * mant * 2^exp`.  Every operation computes the exact dyadic
result and rounds it once to 24 significant bits with the smallest exponent `-149`
(round to nearest, ties to even), which is what the FPU of the target does in its default
mode.  Infinities and NaN are not represented: the exponent is unbounded upwards, which is
exact for every magnitude below `2^128`.  The sign of a zero is not tracked. -/

/-- Finite binary floating-point value `(-1)^neg * mant * 2^exp`. -/
structure F32 where
  neg : Bool
  mant : Nat
  exp : Int
deriving DecidableEq, Repr

/-- The quotient `m / 2^k` rounded to the nearest integer, ties to the even neighbour. -/
def roundShift (m k : Nat) : Nat :=
  let q := m / 2 ^ k
  let r := m % 2 ^ k
  if 2 * r < 2 ^ k then q
  else if 2 ^ k < 2 * r then q + 1
  else if q % 2 = 0 then q else q + 1

/-- Number of significant bits of `m`, counted by halving at most `fuel` times. -/
def bitLengthAux : Nat → Nat → Nat
  | 0, _ => 0
  | fuel + 1, m => if m = 0 then 0 else bitLengthAux fuel (m / 2) + 1

/-- Number of significant bits of a natural number (`0` for `0`). -/
def bitLength (m : Nat) : Nat := bitLengthAux m m

/-- Rounding of an exact dyadic value to binary32. -/
def F32.round (x : F32) : F32 :=
  let k : Int := max ((bitLength x.mant : Int) - 24) (-149 - x.exp)
  if k ≤ 0 then x else ⟨x.neg, roundShift x.mant k.toNat, x.exp + k⟩

/-- Conversion `uint32_t -> float`. -/
def F32.ofUInt32 (n : Nat) : F32 := F32.round ⟨false, n, 0⟩

/-- The `float` product. -/
def F32.mul (a b : F32) : F32 :=
  F32.round ⟨xor a.neg b.neg, a.mant * b.mant, a.exp + b.exp⟩

/-- The signed integer `v` with `a = v * 2^e`, for an exponent `e ≤ a.exp`. -/
def F32.scaled (a : F32) (e : Int) : Int :=
  let v : Int := a.mant * 2 ^ (a.exp - e).toNat
  if a.neg then -v else v

/-- The `float` sum. -/
def F32.add (a b : F32) : F32 :=
  let e := min a.exp b.exp
  let s : Int := a.scaled e + b.scaled e
  F32.round ⟨decide (s < 0), s.natAbs, e⟩

/-- Conversion `(int32_t)x`: truncation toward zero.  C leaves the conversion undefined when
the truncated value does not fit; the conversion instruction of the target saturates, and so
does this definition.  No rule of `signal_table` reaches that case. -/
def F32.toInt32 (a : F32) : Int :=
  let t : Nat := if 0 ≤ a.exp then a.mant * 2 ^ a.exp.toNat else a.mant / 2 ^ (-a.exp).toNat
  let v : Int := if a.neg then -(t : Int) else t
  max (-2147483648) (min 2147483647 v)

/-- The literal `0.25f`. -/
def f32_0_25 : F32 := ⟨false, 1, -2⟩

/-- The literal `1.0f`. -/
def f32_1_0 : F32 := ⟨false, 1, 0⟩

/-- The literal `0.1f`: the binary32 number nearest to one tenth, `0x3DCCCCCD`. -/
def f32_0_1 : F32 := ⟨false, 13421773, -27⟩

/-- The literal `0.0f`. -/
def f32_0_0 : F32 := ⟨false, 0, 0⟩

/-- The literal `-40.0f`. -/
def f32_neg40 : F32 := ⟨true, 40, 0⟩

/-- The literal `0.5f`. -/
def f32_0_5 : F32 := ⟨false, 1, -1⟩

/-! ## C strings and `sprintf` -/

/-- Decimal digits of `n`, most significant first; `fuel` bounds the number of digits. -/
def decimalAux : Nat → Nat → List Char
  | 0, _ => []
  | fuel + 1, n =>
    if n < 10 then [Char.ofNat (48 + n)]
    else decimalAux fuel (n / 10) ++ [Char.ofNat (48 + n % 10)]

/-- Decimal representation of a natural number. -/
def decimal (n : Nat) : List Char := decimalAux (bitLength n + 1) n

/-- The conversion `%d`. -/
def fmt_d (v : Int) : List Char :=
  if v < 0 then '-' :: decimal v.natAbs else decimal v.natAbs

/-- One upper-case hexadecimal digit. -/
def hexDigitUpper (d : Nat) : Char :=
  if d < 10 then Char.ofNat (48 + d) else Char.ofNat (55 + d)

/-- Upper-case hexadecimal digits of `n`, most significant first. -/
def hexUpperAux : Nat → Nat → List Char
  | 0, _ => []
  | fuel + 1, n =>
    if n < 16 then [hexDigitUpper n]
    else hexUpperAux fuel (n / 16) ++ [hexDigitUpper (n % 16)]

/-- The conversion `%03X`: upper-case hexadecimal, padded with zeros to at least 3 digits. -/
def fmt_03X (v : Nat) : List Char :=
  let ds := hexUpperAux (bitLength v + 1) v
  List.replicate (3 - ds.length) '0' ++ ds

/-- One variadic argument of `sprintf`. -/
inductive FmtArg where
  | int (v : Int)
  | uint (v : Nat)
  | str (s : List Char)

/-- The part of `sprintf` the firmware uses: the conversions `%d`, `%03X` and `%s`, each
consuming the next argument; every other character is copied.  `fuel` bounds the number of
steps. -/
def sprintfAux : Nat → List Char → List FmtArg → List Char
  | 0, _, _ => []
  | fuel + 1, fmt, args =>
    match fmt, args with
    | [], _ => []
    | '%' :: 'd' :: rest, FmtArg.int v :: more => fmt_d v ++ sprintfAux fuel rest more
    | '%' :: '0' :: '3' :: 'X' :: rest, FmtArg.uint v :: more =>
      fmt_03X v ++ sprintfAux fuel rest more
    | '%' :: 's' :: rest, FmtArg.str s :: more => s ++ sprintfAux fuel rest more
    | c :: rest, _ => c :: sprintfAux fuel rest args

/-- The text `sprintf` writes to its buffer; its length is the value `sprintf` returns. -/
def sprintf (fmt : List Char) (args : List FmtArg) : List Char :=
  sprintfAux fmt.length fmt args

/-! ## Device register bits

The bit masks come from the device header `stm32f4xx.h`, which is not among the sources.
The values are those of the STM32F407 register map. -/

/-- Modelled from the spec: `USART_SR_PE`, parity error flag of the serial status word. -/
def USART_SR_PE : Nat := 0x01

/-- Modelled from the spec: `USART_SR_FE`, framing error flag of the serial status word. -/
def USART_SR_FE : Nat := 0x02

/-- Modelled from the spec: `USART_SR_ORE`, hardware overrun flag of the serial status word. -/
def USART_SR_ORE : Nat := 0x08

/-- Modelled from the spec: `USART_SR_RXNE`, receive-not-empty flag. -/
def USART_SR_RXNE : Nat := 0x20

/-- Modelled from the spec: `USART_SR_TC`, transmission-complete flag. -/
def USART_SR_TC : Nat := 0x40

/-- Modelled from the spec: `USART_SR_TXE`, transmit-empty flag. -/
def USART_SR_TXE : Nat := 0x80

/-- Modelled from the spec: `USART_CR1_TXEIE`, transmit-empty interrupt enable. -/
def USART_CR1_TXEIE : Nat := 0x80

/-- Modelled from the spec: `CAN_RF0R_FMP0`, the "frame pending" count field of FIFO 0. -/
def CAN_RF0R_FMP0 : Nat := 0x03

/-- Modelled from the spec: `CAN_RF0R_FOVR0`, hardware overrun flag of FIFO 0. -/
def CAN_RF0R_FOVR0 : Nat := 0x10

/-- Modelled from the spec: `CAN_RF0R_RFOM0`, release-output-mailbox request of FIFO 0. -/
def CAN_RF0R_RFOM0 : Nat := 0x20

/-- Modelled from the spec: `CAN_MSR_ERRI`, the error-interrupt flag. -/
def CAN_MSR_ERRI : Nat := 0x04

/-- Modelled from the spec: `CAN_ESR_EWGF`, the error-warning flag. -/
def CAN_ESR_EWGF : Nat := 0x01

/-- Modelled from the spec: `CAN_ESR_EPVF`, the error-passive flag. -/
def CAN_ESR_EPVF : Nat := 0x02

/-- Modelled from the spec: `CAN_ESR_BOFF`, the bus-off flag. -/
def CAN_ESR_BOFF : Nat := 0x04

/-- Modelled from the spec: `CAN_RI0R_STID_Pos`, bit position of the standard identifier
("identifier (masked to 11 bits)" of the receive identifier register). -/
def CAN_RI0R_STID_Pos : Nat := 21

/-- Modelled from the spec: `CAN_RDT0R_DLC`, the data-length field of the receive length
register. -/
def CAN_RDT0R_DLC : Nat := 0x0F

/-- The 32-bit complement `~mask`. -/
def not32 (mask : Nat) : Nat := 0xFFFFFFFF - mask

/-! ## Serial transport driver (`uart_drv.c`) -/

/-- The constant `UART_TX_BUFFER_SIZE`. -/
def UART_TX_BUFFER_SIZE : Nat := 256

/-- The constant `UART_RX_BUFFER_SIZE`. -/
def UART_RX_BUFFER_SIZE : Nat := 128

/-- The enumeration `UartError_t`. -/
inductive UartError where
  | NONE | OVERRUN | FRAMING | PARITY | BUFFER_FULL
deriving DecidableEq, Repr

/-- The registers of USART3 the driver touches after initialisation.  `SR` and `DR` hold what
a read of the status and data register returns; `tx_line` lists every byte the driver has
written to the data register, oldest first. -/
structure UartRegs where
  SR : Nat
  DR : Nat
  CR1 : Nat
  tx_line : List Nat

/-- The static variables of `uart_drv.c` together with the peripheral. -/
structure UartState where
  tx_buffer : Nat → Nat
  tx_head : Nat
  tx_tail : Nat
  tx_count : Nat
  rx_buffer : Nat → Nat
  rx_head : Nat
  rx_tail : Nat
  rx_count : Nat
  last_error : UartError
  tx_in_progress : Bool
  hw : UartRegs

/-- The function `UART_StartTransmission`. -/
def UART_StartTransmission (s : UartState) : UartState :=
  if 0 < s.tx_count ∧ s.tx_in_progress = false then
    { s with
      tx_in_progress := true
      hw := { s.hw with
        tx_line := s.hw.tx_line ++ [s.tx_buffer s.tx_tail]
        CR1 := s.hw.CR1 ||| USART_CR1_TXEIE }
      tx_tail := (s.tx_tail + 1) % UART_TX_BUFFER_SIZE
      tx_count := s.tx_count - 1 }
  else s

/-- One iteration of the copy loop of `UART_WriteData`. -/
def UART_WriteData_copy (data : Nat → Nat) (s : UartState) (i : Nat) : UartState :=
  { s with
    tx_buffer := Function.update s.tx_buffer s.tx_head (data i)
    tx_head := (s.tx_head + 1) % UART_TX_BUFFER_SIZE
    tx_count := u16 (s.tx_count + 1) }

/-- The function `UART_WriteData`; `data i` is the byte `data[i]`, `none` the null pointer. -/
def UART_WriteData (s : UartState) (data : Option (Nat → Nat)) (length : Nat) :
    Bool × UartState :=
  match data with
  | none => (false, s)
  | some d =>
    if length = 0 then (false, s)
    else if (UART_TX_BUFFER_SIZE : Int) - (s.tx_count : Int) < (length : Int) then
      (false, { s with last_error := UartError.BUFFER_FULL })
    else
      let s1 := (List.range length).foldl (UART_WriteData_copy d) s
      let s2 := if s1.tx_in_progress = false then UART_StartTransmission s1 else s1
      (true, s2)

/-- The function `UART_Write`; the length is `strlen(str)` stored in a `uint16_t`. -/
def UART_Write (s : UartState) (str : Option (List Char)) : Bool × UartState :=
  match str with
  | none => (false, s)
  | some cs => UART_WriteData s (some (fun i => (cs.getD i (Char.ofNat 0)).toNat)) (u16 cs.length)

/-- One iteration of the copy loop of `UART_Read`, on the driver state and the caller's
buffer. -/
def UART_Read_copy (p : UartState × (Nat → Nat)) (i : Nat) : UartState × (Nat → Nat) :=
  ({ p.1 with
      rx_tail := (p.1.rx_tail + 1) % UART_RX_BUFFER_SIZE
      rx_count := p.1.rx_count - 1 },
   Function.update p.2 i (p.1.rx_buffer p.1.rx_tail))

/-- The function `UART_Read`; the result carries the caller's buffer and `*length` after the
call. -/
def UART_Read (s : UartState) (data : Option (Nat → Nat)) (length : Option Nat) :
    Bool × UartState × Option (Nat → Nat) × Option Nat :=
  match data, length with
  | some d, some len =>
    if s.rx_count = 0 then (false, s, some d, some 0)
    else
      let bytes_to_read := if len < s.rx_count then len else s.rx_count
      let r := (List.range bytes_to_read).foldl UART_Read_copy (s, d)
      (true, r.1, some r.2, some bytes_to_read)
  | _, _ => (false, s, data, length.map (fun _ => 0))

/-- The function `UART_GetTxFreeSpace`. -/
def UART_GetTxFreeSpace (s : UartState) : Nat :=
  (((UART_TX_BUFFER_SIZE : Int) - (s.tx_count : Int)) % 65536).toNat

/-- The function `UART_GetRxCount`. -/
def UART_GetRxCount (s : UartState) : Nat := s.rx_count

/-- The function `UART_GetLastError`: the value returned and the state after the call. -/
def UART_GetLastError (s : UartState) : UartError × UartState := (s.last_error, s)

/-- The function `UART_ClearError`. -/
def UART_ClearError (s : UartState) : UartState :=
  { s with last_error := UartError.NONE }

/-- The function `UART_IRQHandler`. -/
def UART_IRQHandler (s : UartState) : UartState :=
  let sr := s.hw.SR
  let s1 :=
    if sr &&& USART_SR_RXNE ≠ 0 then
      let data := u8 s.hw.DR
      if s.rx_count < UART_RX_BUFFER_SIZE then
        { s with
          rx_buffer := Function.update s.rx_buffer s.rx_head data
          rx_head := (s.rx_head + 1) % UART_RX_BUFFER_SIZE
          rx_count := u16 (s.rx_count + 1) }
      else { s with last_error := UartError.OVERRUN }
    else s
  let s2 :=
    if sr &&& USART_SR_TXE ≠ 0 ∧ s1.hw.CR1 &&& USART_CR1_TXEIE ≠ 0 then
      if 0 < s1.tx_count then
        { s1 with
          hw := { s1.hw with tx_line := s1.hw.tx_line ++ [s1.tx_buffer s1.tx_tail] }
          tx_tail := (s1.tx_tail + 1) % UART_TX_BUFFER_SIZE
          tx_count := s1.tx_count - 1 }
      else
        { s1 with
          hw := { s1.hw with CR1 := s1.hw.CR1 &&& not32 USART_CR1_TXEIE }
          tx_in_progress := false }
    else s1
  let s3 :=
    if sr &&& USART_SR_TC ≠ 0 then
      { s2 with hw := { s2.hw with SR := s2.hw.SR &&& not32 USART_SR_TC } }
    else s2
  let s4 := if sr &&& USART_SR_ORE ≠ 0 then { s3 with last_error := UartError.OVERRUN } else s3
  let s5 := if sr &&& USART_SR_FE ≠ 0 then { s4 with last_error := UartError.FRAMING } else s4
  if sr &&& USART_SR_PE ≠ 0 then { s5 with last_error := UartError.PARITY } else s5

/-! ## CAN link driver (`can_drv.c`) -/

/-- The constant `CAN_RX_BUFFER_SIZE`. -/
def CAN_RX_BUFFER_SIZE : Nat := 16

/-- The enumeration `CanError_t`. -/
inductive CanError where
  | NONE | BUS_OFF | ERROR_PASSIVE | WARNING | OVERRUN | TIMEOUT
deriving DecidableEq, Repr

/-- The structure `CanFrame_t`; `data i` is `data[i]`. -/
structure CanFrame where
  id : Nat
  dlc : Nat
  data : Nat → Nat
  timestamp : Nat

/-- What the receive path and the error path of the driver read from the CAN peripheral: the
FIFO 0 register, the master status and error status registers, the four registers of the
receive mailbox, and `tick`, the value `HAL_GetTick()` returns. -/
structure CanRegs where
  RF0R : Nat
  MSR : Nat
  ESR : Nat
  RIR : Nat
  RDTR : Nat
  RDLR : Nat
  RDHR : Nat
  tick : Nat

/-- The static variables of `can_drv.c` together with the peripheral. -/
structure CanState where
  rx_buffer : Nat → CanFrame
  rx_head : Nat
  rx_tail : Nat
  rx_count : Nat
  last_error : CanError
  hw : CanRegs

/-- The function `CAN_Receive`; `none` is the null pointer, and the last component is the
caller's frame after the call. -/
def CAN_Receive (s : CanState) (frame : Option CanFrame) : Bool × CanState × Option CanFrame :=
  match frame with
  | none => (false, s, none)
  | some old =>
    if s.rx_count = 0 then (false, s, some old)
    else
      (true,
       { s with
         rx_tail := (s.rx_tail + 1) % CAN_RX_BUFFER_SIZE
         rx_count := s.rx_count - 1 },
       some (s.rx_buffer s.rx_tail))

/-- The function `CAN_GetRxCount`. -/
def CAN_GetRxCount (s : CanState) : Nat := s.rx_count

/-- The function `CAN_GetLastError`: the value returned and the state after the call. -/
def CAN_GetLastError (s : CanState) : CanError × CanState := (s.last_error, s)

/-- The function `CAN_ClearError`. -/
def CAN_ClearError (s : CanState) : CanState :=
  { s with last_error := CanError.NONE, hw := { s.hw with ESR := 0 } }

/-- The payload loops of `CAN_IRQHandler`: byte `i` of the slot is overwritten for
`i < 4 && i < dlc` from the low data register and for `4 <= i < 8 && i < dlc` from the high
one; the other bytes of the slot keep their old value. -/
def CAN_IRQHandler_payload (old : Nat → Nat) (dlc data_low data_high : Nat) : Nat → Nat :=
  let d1 := [0, 1, 2, 3].foldl
    (fun d i => if i < dlc then Function.update d i ((data_low >>> (i * 8)) &&& 0xFF) else d) old
  [4, 5, 6, 7].foldl
    (fun d i => if i < dlc then Function.update d i ((data_high >>> ((i - 4) * 8)) &&& 0xFF)
      else d) d1

/-- The frame `CAN_IRQHandler` builds in the slot at `rx_head` from the receive mailbox. -/
def CAN_IRQHandler_frame (s : CanState) : CanFrame :=
  let dlc := u8 (s.hw.RDTR &&& CAN_RDT0R_DLC)
  { id := (s.hw.RIR >>> CAN_RI0R_STID_Pos) &&& 0x7FF
    dlc := dlc
    data := CAN_IRQHandler_payload (s.rx_buffer s.rx_head).data dlc s.hw.RDLR s.hw.RDHR
    timestamp := s.hw.tick }

/-- The branch of `CAN_IRQHandler` that reads the pending frame into the slot at `rx_head`,
advances the head and releases the hardware FIFO. -/
def CAN_IRQHandler_store (s : CanState) : CanState :=
  { s with
    rx_buffer := Function.update s.rx_buffer s.rx_head (CAN_IRQHandler_frame s)
    rx_head := (s.rx_head + 1) % CAN_RX_BUFFER_SIZE
    rx_count := u16 (s.rx_count + 1)
    hw := { s.hw with RF0R := s.hw.RF0R ||| CAN_RF0R_RFOM0 } }

/-- The part of `CAN_IRQHandler` after the "message pending" block: hardware overrun and
bus-health flags. -/
def CAN_IRQHandler_flags (s : CanState) : CanState :=
  let s1 :=
    if s.hw.RF0R &&& CAN_RF0R_FOVR0 ≠ 0 then
      { s with
        last_error := CanError.OVERRUN
        hw := { s.hw with RF0R := s.hw.RF0R ||| CAN_RF0R_FOVR0 } }
    else s
  if s1.hw.MSR &&& CAN_MSR_ERRI ≠ 0 then
    let s2 :=
      if s1.hw.ESR &&& CAN_ESR_BOFF ≠ 0 then { s1 with last_error := CanError.BUS_OFF }
      else if s1.hw.ESR &&& CAN_ESR_EPVF ≠ 0 then
        { s1 with last_error := CanError.ERROR_PASSIVE }
      else if s1.hw.ESR &&& CAN_ESR_EWGF ≠ 0 then { s1 with last_error := CanError.WARNING }
      else s1
    { s2 with hw := { s2.hw with MSR := s2.hw.MSR ||| CAN_MSR_ERRI } }
  else s1

/-- The function `CAN_IRQHandler`. -/
def CAN_IRQHandler (s : CanState) : CanState :=
  if s.hw.RF0R &&& CAN_RF0R_FMP0 ≠ 0 then
    if CAN_RX_BUFFER_SIZE ≤ s.rx_count then
      { s with
        last_error := CanError.OVERRUN
        hw := { s.hw with RF0R := s.hw.RF0R ||| CAN_RF0R_RFOM0 } }
    else CAN_IRQHandler_flags (CAN_IRQHandler_store s)
  else CAN_IRQHandler_flags s

/-! ## Signal routing engine (`pdu_router.c`) -/

/-- The constant `MAX_OUTPUT_LENGTH`. -/
def MAX_OUTPUT_LENGTH : Nat := 64

/-- The structure `SignalConfig_t`. -/
structure SignalConfig where
  can_id : Nat
  start_byte : Nat
  length : Nat
  scale : F32
  offset : F32
  format_string : List Char
  signal_name : List Char
deriving DecidableEq

/-- The structure `RouterStats_t`. -/
structure RouterStats where
  frames_processed : Nat
  frames_routed : Nat
  frames_dropped : Nat
  uart_errors : Nat
  can_errors : Nat
deriving DecidableEq, Repr

/-- The first entry of `signal_table`: engine speed. -/
def rule_rpm : SignalConfig :=
  { can_id := 0x100, start_byte := 0, length := 2, scale := f32_0_25, offset := f32_0_0,
    format_string := "RPM,%d\r\n".toList, signal_name := "Engine_RPM".toList }

/-- The second entry of `signal_table`: engine temperature. -/
def rule_temp : SignalConfig :=
  { can_id := 0x101, start_byte := 2, length := 1, scale := f32_1_0, offset := f32_neg40,
    format_string := "TEMP,%d\r\n".toList, signal_name := "Engine_Temp".toList }

/-- The third entry of `signal_table`: vehicle speed. -/
def rule_speed : SignalConfig :=
  { can_id := 0x102, start_byte := 4, length := 2, scale := f32_0_1, offset := f32_0_0,
    format_string := "SPEED,%d\r\n".toList, signal_name := "Vehicle_Speed".toList }

/-- The table `signal_table`. -/
def signal_table : List SignalConfig := [rule_rpm, rule_temp, rule_speed]

/-- The whole program state: the router statistics, the two drivers, and `serial_calls`, the
record of every string the router has handed to `UART_Write`, oldest first.  The record is an
observation of the calls and is read by no code. -/
structure System where
  router_stats : RouterStats
  can : CanState
  uart : UartState
  serial_calls : List (List Char)

/-- A call `UART_Write(str)` made by the router; the return value is ignored. -/
def Router_UART_Write (w : System) (str : List Char) : System :=
  { w with
    uart := (UART_Write w.uart (some str)).2
    serial_calls := w.serial_calls ++ [str] }

/-- The function `FindSignalConfig`: linear search, first match. -/
def FindSignalConfig (can_id : Nat) : Option SignalConfig :=
  signal_table.find? (fun c => c.can_id == can_id)

/-- The function `ExtractSignalValue`. -/
def ExtractSignalValue (data : Nat → Nat) (config : SignalConfig) : Nat :=
  if config.length = 1 then data config.start_byte
  else if config.length = 2 then
    u32 ((data (config.start_byte + 1) <<< 8) ||| data config.start_byte)
  else if config.length = 4 then
    u32 ((data (config.start_byte + 3) <<< 24) ||| (data (config.start_byte + 2) <<< 16) |||
      (data (config.start_byte + 1) <<< 8) ||| data config.start_byte)
  else 0

/-- The function `FormatAndSendSignal`. -/
def FormatAndSendSignal (w : System) (config : SignalConfig) (raw_value : Nat) : System :=
  let eng_value := F32.add (F32.mul (F32.ofUInt32 raw_value) config.scale) config.offset
  let rounded_value := F32.toInt32 (F32.add eng_value f32_0_5)
  let output_buffer := sprintf config.format_string [FmtArg.int rounded_value]
  let length := output_buffer.length
  if 0 < length ∧ length < MAX_OUTPUT_LENGTH then Router_UART_Write w output_buffer else w

/-- The function `Router_ProcessCanFrame`; `none` is the null pointer. -/
def Router_ProcessCanFrame (w : System) (frame : Option CanFrame) : System :=
  match frame with
  | none => w
  | some f =>
    let w1 := { w with router_stats := { w.router_stats with
      frames_processed := u32 (w.router_stats.frames_processed + 1) } }
    match FindSignalConfig f.id with
    | none =>
      { w1 with router_stats := { w1.router_stats with
        frames_dropped := u32 (w1.router_stats.frames_dropped + 1) } }
    | some config =>
      if f.dlc < config.start_byte + config.length then
        let w2 := { w1 with router_stats := { w1.router_stats with
          frames_dropped := u32 (w1.router_stats.frames_dropped + 1) } }
        Router_UART_Write w2
          (sprintf "CAN_ERR,INVALID_DLC,ID:0x%03X\r\n".toList [FmtArg.uint f.id])
      else
        let raw_value := ExtractSignalValue f.data config
        let w2 := FormatAndSendSignal w1 config raw_value
        { w2 with router_stats := { w2.router_stats with
          frames_routed := u32 (w2.router_stats.frames_routed + 1) } }

/-- The function `Router_GetStatistics`: the snapshot copied to the caller. -/
def Router_GetStatistics (w : System) : RouterStats := w.router_stats

/-- The function `Router_ClearStatistics`. -/
def Router_ClearStatistics (w : System) : System :=
  { w with router_stats := ⟨0, 0, 0, 0, 0⟩ }

/-! ## Initial states and sample inputs -/

/-- A frame with all payload bytes zero, as a cleared `CanFrame_t`. -/
def CanFrame.zero : CanFrame := ⟨0, 0, fun _ => 0, 0⟩

/-- The CAN driver after start-up: the zero-initialised static variables. -/
def CanState.init : CanState :=
  { rx_buffer := fun _ => CanFrame.zero, rx_head := 0, rx_tail := 0, rx_count := 0,
    last_error := CanError.NONE, hw := ⟨0, 0, 0, 0, 0, 0, 0, 0⟩ }

/-- The serial driver after start-up: the zero-initialised static variables, no byte sent. -/
def UartState.init : UartState :=
  { tx_buffer := fun _ => 0, tx_head := 0, tx_tail := 0, tx_count := 0,
    rx_buffer := fun _ => 0, rx_head := 0, rx_tail := 0, rx_count := 0,
    last_error := UartError.NONE, tx_in_progress := false, hw := ⟨0, 0, 0, []⟩ }

/-- The program state at power-on. -/
def System.init : System :=
  { router_stats := ⟨0, 0, 0, 0, 0⟩, can := CanState.init, uart := UartState.init,
    serial_calls := [] }

/-- A frame with the given identifier, length code and payload bytes (missing bytes are 0). -/
def mkFrame (id dlc : Nat) (bytes : List Nat) : CanFrame :=
  ⟨id, dlc, fun i => bytes.getD i 0, 0⟩

/-! ## Sequences of driver operations

The drivers are exercised by interrupts and by calls of the background loop, one after
another.  An interrupt is an invocation of the handler on the register contents the hardware
presents at that moment. -/

/-- One operation on the CAN driver: an interrupt (with the register contents presented by
the hardware), or a call of `CAN_Receive`, `CAN_GetRxCount` or `CAN_GetLastError`. -/
inductive CanOp where
  | irq (hw : CanRegs)
  | receive (frame : Option CanFrame)
  | getRxCount
  | getLastError

/-- The driver state after one operation. -/
def CanOp.apply (s : CanState) : CanOp → CanState
  | CanOp.irq hw => CAN_IRQHandler { s with hw := hw }
  | CanOp.receive frame => (CAN_Receive s frame).2.1
  | CanOp.getRxCount => s
  | CanOp.getLastError => (CAN_GetLastError s).2

/-- The driver state after a sequence of operations. -/
def canRun (s : CanState) (ops : List CanOp) : CanState := ops.foldl CanOp.apply s

/-- The operation is a fault-latching event in state `s`: it reaches an assignment to
`last_error` in `CAN_IRQHandler` (frame pending with the buffer full; hardware overrun flag;
error interrupt with one of the bus-health flags). -/
def CanOp.latches (s : CanState) : CanOp → Prop
  | CanOp.irq hw =>
    (hw.RF0R &&& CAN_RF0R_FMP0 ≠ 0 ∧ CAN_RX_BUFFER_SIZE ≤ s.rx_count) ∨
    hw.RF0R &&& CAN_RF0R_FOVR0 ≠ 0 ∨
    (hw.MSR &&& CAN_MSR_ERRI ≠ 0 ∧
      (hw.ESR &&& CAN_ESR_BOFF ≠ 0 ∨ hw.ESR &&& CAN_ESR_EPVF ≠ 0 ∨ hw.ESR &&& CAN_ESR_EWGF ≠ 0))
  | _ => False

/-- No operation of the sequence, run from `s`, is a fault-latching event. -/
def CanQuiet : CanState → List CanOp → Prop
  | _, [] => True
  | s, op :: ops => ¬ op.latches s ∧ CanQuiet (op.apply s) ops

/-- A run of the CAN driver together with the frames that arrived (one per interrupt that
found a frame pending, as the handler builds it) and the frames that successful calls of
`CAN_Receive` handed to the caller, both oldest first. -/
structure CanTrace where
  state : CanState
  arrived : List CanFrame
  returned : List CanFrame

/-- One operation, recorded. -/
def CanTrace.step (r : CanTrace) (op : CanOp) : CanTrace :=
  match op with
  | CanOp.irq hw =>
    { state := op.apply r.state
      arrived :=
        if hw.RF0R &&& CAN_RF0R_FMP0 ≠ 0 then
          r.arrived ++ [CAN_IRQHandler_frame { r.state with hw := hw }]
        else r.arrived
      returned := r.returned }
  | CanOp.receive frame =>
    { state := op.apply r.state
      arrived := r.arrived
      returned :=
        match CAN_Receive r.state frame with
        | (true, _, some f) => r.returned ++ [f]
        | _ => r.returned }
  | _ => { r with state := op.apply r.state }

/-- A sequence of operations, recorded. -/
def canTrace (r : CanTrace) (ops : List CanOp) : CanTrace := ops.foldl CanTrace.step r

/-- Capacity is respected along the run from `s`: every interrupt that finds a frame pending
finds fewer than 16 frames buffered, so the occupied count never has to exceed 16. -/
def CanWithinCapacity : CanState → List CanOp → Prop
  | _, [] => True
  | s, op :: ops =>
    (match op with
      | CanOp.irq hw => hw.RF0R &&& CAN_RF0R_FMP0 ≠ 0 → s.rx_count < CAN_RX_BUFFER_SIZE
      | _ => True) ∧
    CanWithinCapacity (op.apply s) ops

/-- One operation on the serial driver: an interrupt (with the status word and the received
byte presented by the hardware), or a call of one of the exported functions. -/
inductive UartOp where
  | irq (sr dr : Nat)
  | writeData (data : Option (Nat → Nat)) (length : Nat)
  | write (str : Option (List Char))
  | read (data : Option (Nat → Nat)) (length : Option Nat)
  | getTxFreeSpace
  | getRxCount
  | getLastError

/-- The driver state after one operation. -/
def UartOp.apply (s : UartState) : UartOp → UartState
  | UartOp.irq sr dr => UART_IRQHandler { s with hw := { s.hw with SR := sr, DR := dr } }
  | UartOp.writeData data length => (UART_WriteData s data length).2
  | UartOp.write str => (UART_Write s str).2
  | UartOp.read data length => (UART_Read s data length).2.1
  | UartOp.getTxFreeSpace => s
  | UartOp.getRxCount => s
  | UartOp.getLastError => (UART_GetLastError s).2

/-- The driver state after a sequence of operations. -/
def uartRun (s : UartState) (ops : List UartOp) : UartState := ops.foldl UartOp.apply s

/-- The operation is a fault-latching event in state `s`: it reaches an assignment to
`last_error` in `UART_IRQHandler` (byte received with the inbound buffer full; hardware
overrun, framing or parity flag) or in `UART_WriteData` (request larger than the free
outbound space). -/
def UartOp.latches (s : UartState) : UartOp → Prop
  | UartOp.irq sr _ =>
    (sr &&& USART_SR_RXNE ≠ 0 ∧ ¬ s.rx_count < UART_RX_BUFFER_SIZE) ∨
    sr &&& USART_SR_ORE ≠ 0 ∨ sr &&& USART_SR_FE ≠ 0 ∨ sr &&& USART_SR_PE ≠ 0
  | UartOp.writeData (some _) length =>
    length ≠ 0 ∧ (UART_TX_BUFFER_SIZE : Int) - (s.tx_count : Int) < (length : Int)
  | UartOp.write (some cs) =>
    u16 cs.length ≠ 0 ∧ (UART_TX_BUFFER_SIZE : Int) - (s.tx_count : Int) < (u16 cs.length : Int)
  | _ => False

/-- No operation of the sequence, run from `s`, is a fault-latching event. -/
def UartQuiet : UartState → List UartOp → Prop
  | _, [] => True
  | s, op :: ops => ¬ op.latches s ∧ UartQuiet (op.apply s) ops

/-- Text of the "invalid DLC" diagnostic for an identifier below 0x1000: the fixed text
followed by the identifier as three upper-case hexadecimal digits and CR LF. -/
def invalidDlcLine (id : Nat) : List Char :=
  "CAN_ERR,INVALID_DLC,ID:0x".toList ++
    [hexDigitUpper (id / 256 % 16), hexDigitUpper (id / 16 % 16), hexDigitUpper (id % 16)] ++
    "\r\n".toList

/-! ## Decidability, abstraction relation and sample runs -/

/-- Whether an operation is a fault-latching event is decidable. -/
instance CanOp.decLatches (s : CanState) (op : CanOp) : Decidable (op.latches s) := by
  cases op <;> unfold CanOp.latches <;> infer_instance

/-- Quietness of a run of the CAN driver is decidable. -/
instance CanQuiet.dec : (s : CanState) → (ops : List CanOp) → Decidable (CanQuiet s ops)
  | _, [] => isTrue trivial
  | s, op :: ops =>
    have := CanQuiet.dec (op.apply s) ops
    by unfold CanQuiet; infer_instance

/-- Respect of capacity along a run of the CAN driver is decidable. -/
instance CanWithinCapacity.dec :
    (s : CanState) → (ops : List CanOp) → Decidable (CanWithinCapacity s ops)
  | _, [] => isTrue trivial
  | s, op :: ops =>
    have := CanWithinCapacity.dec (op.apply s) ops
    by unfold CanWithinCapacity; cases op <;> infer_instance

/-- Whether an operation is a fault-latching event is decidable. -/
instance UartOp.decLatches (s : UartState) (op : UartOp) : Decidable (op.latches s) := by
  cases op with
  | writeData data length => cases data <;> unfold UartOp.latches <;> infer_instance
  | write str => cases str <;> unfold UartOp.latches <;> infer_instance
  | _ => unfold UartOp.latches; infer_instance

/-- Quietness of a run of the serial driver is decidable. -/
instance UartQuiet.dec : (s : UartState) → (ops : List UartOp) → Decidable (UartQuiet s ops)
  | _, [] => isTrue trivial
  | s, op :: ops =>
    have := UartQuiet.dec (op.apply s) ops
    by unfold UartQuiet; infer_instance

/-- The ring buffer of `s` holds exactly the frames `q`, oldest first: the abstraction
relation between the head/tail/count representation and a queue. -/
def CanHolds (s : CanState) (q : List CanFrame) : Prop :=
  s.rx_count = q.length ∧ q.length ≤ CAN_RX_BUFFER_SIZE ∧ s.rx_tail < CAN_RX_BUFFER_SIZE ∧
  s.rx_head = (s.rx_tail + q.length) % CAN_RX_BUFFER_SIZE ∧
  ∀ i, i < q.length → q[i]? = some (s.rx_buffer ((s.rx_tail + i) % CAN_RX_BUFFER_SIZE))

/-- Invariant of a recorded run: the frames that arrived are the frames already returned
followed by the frames still buffered. -/
def CanTraceInv (r : CanTrace) : Prop :=
  ∃ q, r.arrived = r.returned ++ q ∧ CanHolds r.state q

/-- Register contents presenting a pending frame with the given identifier, length code, data
registers and tick. -/
def pendingFrame (id dlc data_low data_high tick : Nat) : CanRegs :=
  { RF0R := 1, MSR := 0, ESR := 0, RIR := id <<< 21, RDTR := dlc, RDLR := data_low,
    RDHR := data_high, tick := tick }

/-- A sample run: two frames arrive, one is read, a third arrives, three reads follow (the
last one on the empty buffer). -/
def sampleCanOps : List CanOp :=
  [ CanOp.irq (pendingFrame 0x100 8 0x1F40 0 10),
    CanOp.irq (pendingFrame 0x101 8 0x820000 0 20),
    CanOp.receive (some CanFrame.zero),
    CanOp.irq (pendingFrame 0x102 8 0 0x04B0 30),
    CanOp.receive (some CanFrame.zero),
    CanOp.receive (some CanFrame.zero),
    CanOp.receive (some CanFrame.zero) ]

/-! ## CAN controller: configuration and transmit side

`CAN_Init` and `CAN_Send` poll a status register in a busy-wait loop.  Every evaluation of
the register in the source is a separate volatile read; a call therefore takes the stream of
values its reads return: `msr k` (respectively `tsr k`) is what the `k`-th read of the
register during the call returns. -/

/-- Modelled from the spec: `RCC_APB1ENR_CAN1EN`, clock enable bit of CAN1 in the device
header. -/
def RCC_APB1ENR_CAN1EN : Nat := 0x02000000

/-- Modelled from the spec: `CAN_MCR_INRQ`, initialisation request. -/
def CAN_MCR_INRQ : Nat := 0x01

/-- Modelled from the spec: `CAN_MCR_NART`, no automatic retransmission. -/
def CAN_MCR_NART : Nat := 0x10

/-- Modelled from the spec: `CAN_MCR_AWUM`, automatic wake-up mode. -/
def CAN_MCR_AWUM : Nat := 0x20

/-- Modelled from the spec: `CAN_MCR_ABOM`, automatic bus-off management. -/
def CAN_MCR_ABOM : Nat := 0x40

/-- Modelled from the spec: `CAN_MSR_INAK`, the mode-acknowledge flag. -/
def CAN_MSR_INAK : Nat := 0x01

/-- Modelled from the spec: `CAN_IER_FMPIE0`, FIFO 0 message pending interrupt enable. -/
def CAN_IER_FMPIE0 : Nat := 0x02

/-- Modelled from the spec: `CAN_IER_FOVIE0`, FIFO 0 overrun interrupt enable. -/
def CAN_IER_FOVIE0 : Nat := 0x08

/-- Modelled from the spec: `CAN_IER_EWGIE`, error-warning interrupt enable. -/
def CAN_IER_EWGIE : Nat := 0x100

/-- Modelled from the spec: `CAN_IER_EPVIE`, error-passive interrupt enable. -/
def CAN_IER_EPVIE : Nat := 0x200

/-- Modelled from the spec: `CAN_IER_BOFIE`, bus-off interrupt enable. -/
def CAN_IER_BOFIE : Nat := 0x400

/-- Modelled from the spec: `CAN_BTR_TS1_Pos`, position of the segment-1 field. -/
def CAN_BTR_TS1_Pos : Nat := 16

/-- Modelled from the spec: `CAN_BTR_TS2_Pos`, position of the segment-2 field. -/
def CAN_BTR_TS2_Pos : Nat := 20

/-- Modelled from the spec: `CAN_BTR_SJW_Pos`, position of the resynchronisation jump width
field. -/
def CAN_BTR_SJW_Pos : Nat := 24

/-- Modelled from the spec: `CAN_FMR_FINIT`, filter initialisation mode. -/
def CAN_FMR_FINIT : Nat := 0x01

/-- Modelled from the spec: `CAN_FM1R_FBM0`, list mode of filter bank 0. -/
def CAN_FM1R_FBM0 : Nat := 0x01

/-- Modelled from the spec: `CAN_FS1R_FSC0`, 32-bit scale of filter bank 0. -/
def CAN_FS1R_FSC0 : Nat := 0x01

/-- Modelled from the spec: `CAN_FFA1R_FFA0`, FIFO assignment of filter bank 0. -/
def CAN_FFA1R_FFA0 : Nat := 0x01

/-- Modelled from the spec: `CAN_FA1R_FACT0`, activation of filter bank 0. -/
def CAN_FA1R_FACT0 : Nat := 0x01

/-- Modelled from the spec: `CAN_TSR_TME0`, transmit mailbox 0 empty. -/
def CAN_TSR_TME0 : Nat := 0x04000000

/-- Modelled from the spec: `CAN_TSR_TME1`, transmit mailbox 1 empty. -/
def CAN_TSR_TME1 : Nat := 0x08000000

/-- Modelled from the spec: `CAN_TSR_TME2`, transmit mailbox 2 empty. -/
def CAN_TSR_TME2 : Nat := 0x10000000

/-- Modelled from the spec: `CAN_TI0R_STID_Pos`, bit position of the standard identifier in
the transmit identifier register. -/
def CAN_TI0R_STID_Pos : Nat := 21

/-- Modelled from the spec: `CAN_TI0R_TXRQ`, transmission request. -/
def CAN_TI0R_TXRQ : Nat := 0x01

/-- The constant `CAN_TIMEOUT_MS`. -/
def CAN_TIMEOUT_MS : Nat := 100

/-- The constant `CAN_FILTER_ID_ENGINE`. -/
def CAN_FILTER_ID_ENGINE : Nat := 0x100

/-- The four registers of one transmit mailbox. -/
structure CanTxMailBox where
  TIR : Nat
  TDTR : Nat
  TDLR : Nat
  TDHR : Nat
deriving DecidableEq, Repr

/-- The registers `CAN_Init` and `CAN_Send` write: the CAN1 clock enable register of the RCC,
the master control, bit timing and interrupt enable registers, the registers of filter bank
0, and the transmit mailboxes (`sTxMailBox i` for `i = 0, 1, 2`). -/
structure CanCtrlRegs where
  APB1ENR : Nat
  MCR : Nat
  BTR : Nat
  IER : Nat
  FMR : Nat
  FM1R : Nat
  FS1R : Nat
  FFA1R : Nat
  FA1R : Nat
  FR1 : Nat
  FR2 : Nat
  sTxMailBox : Nat → CanTxMailBox

/-- The CAN driver with the whole peripheral: the receive side of `CanState` and the
configuration and transmit registers. -/
structure CanDevice where
  drv : CanState
  ctrl : CanCtrlRegs

/-- The loop `while (busy && timeout--);` on a `uint32_t` counter, where `busy k` tells
whether the first operand holds at the `k`-th read of the polled register.  The result is
the value of `timeout` after the loop and the index of the next read.  When the first
operand is false the decrement is not evaluated; when it is true and `timeout` is 0, the
loop ends and the decrement leaves `timeout` at `0xFFFFFFFF`. -/
def pollWhile (busy : Nat → Bool) : Nat → Nat → Nat × Nat
  | 0, k => if busy k then (0xFFFFFFFF, k + 1) else (0, k + 1)
  | t + 1, k => if busy k then pollWhile busy t (k + 1) else (t + 1, k + 1)

/-- The function `CAN_ConfigureBitTiming`. -/
def CAN_ConfigureBitTiming (c : CanCtrlRegs) (baudrate : Nat) : CanCtrlRegs :=
  let p : Nat × Nat × Nat × Nat :=
    if baudrate = 500000 then (5, 12, 1, 0) else (5, 12, 1, 0)
  let prescaler := p.1
  let bs1 := p.2.1
  let bs2 := p.2.2.1
  let sjw := p.2.2.2
  { c with BTR := u32 ((sjw <<< CAN_BTR_SJW_Pos) ||| (bs1 <<< CAN_BTR_TS1_Pos) |||
      (bs2 <<< CAN_BTR_TS2_Pos) ||| prescaler) }

/-- The function `CAN_ConfigureFilters`. -/
def CAN_ConfigureFilters (c : CanCtrlRegs) : CanCtrlRegs :=
  { c with
    FM1R := c.FM1R &&& not32 CAN_FM1R_FBM0
    FS1R := c.FS1R ||| CAN_FS1R_FSC0
    FFA1R := c.FFA1R &&& not32 CAN_FFA1R_FFA0
    FR1 := u32 (CAN_FILTER_ID_ENGINE <<< 21)
    FR2 := u32 (0x7F8 <<< 21)
    FA1R := c.FA1R ||| CAN_FA1R_FACT0
    FMR := (c.FMR ||| CAN_FMR_FINIT) &&& not32 CAN_FMR_FINIT }

/-- The function `CAN_Init`; `SystemCoreClock` is the value of the global variable of that
name and `msr` the stream of values read from the master status register. -/
def CAN_Init (d : CanDevice) (SystemCoreClock : Nat) (msr : Nat → Nat) (baudrate : Nat) :
    Bool × CanDevice :=
  let c1 := { d.ctrl with APB1ENR := d.ctrl.APB1ENR ||| RCC_APB1ENR_CAN1EN }
  let c2 := { c1 with MCR := c1.MCR ||| CAN_MCR_INRQ }
  let w1 := pollWhile (fun k => decide (msr k &&& CAN_MSR_INAK = 0)) (SystemCoreClock / 1000) 0
  if w1.1 = 0 then (false, { d with ctrl := c2 })
  else
    let c3 := { c2 with MCR := CAN_MCR_INRQ ||| CAN_MCR_NART ||| CAN_MCR_AWUM ||| CAN_MCR_ABOM }
    let c4 := CAN_ConfigureBitTiming c3 baudrate
    let c5 := CAN_ConfigureFilters c4
    let c6 := { c5 with IER := CAN_IER_FMPIE0 ||| CAN_IER_FOVIE0 ||| CAN_IER_BOFIE |||
      CAN_IER_EPVIE ||| CAN_IER_EWGIE }
    let c7 := { c6 with MCR := c6.MCR &&& not32 CAN_MCR_INRQ }
    let w2 := pollWhile (fun k => decide (msr k &&& CAN_MSR_INAK ≠ 0))
      (SystemCoreClock / 1000) w1.2
    if w2.1 = 0 then (false, { d with ctrl := c7 })
    else (true, { drv := CAN_ClearError d.drv, ctrl := c7 })

/-- The function `CAN_WaitForTxMailbox`: the result and the index of the next read of the
transmit status register. -/
def CAN_WaitForTxMailbox (SystemCoreClock : Nat) (tsr : Nat → Nat) : Bool × Nat :=
  let w := pollWhile
    (fun k => decide (tsr k &&& (CAN_TSR_TME0 ||| CAN_TSR_TME1 ||| CAN_TSR_TME2) = 0))
    (u32 (CAN_TIMEOUT_MS * (SystemCoreClock / 1000000))) 0
  (decide (0 < w.1), w.2)

/-- The first data loop of `CAN_Send`: `data_low |= data[i] << (i * 8)` for
`i < dlc && i < 4`. -/
def CAN_Send_data_low (data : Nat → Nat) (dlc : Nat) : Nat :=
  [0, 1, 2, 3].foldl
    (fun acc i => if i < dlc then u32 (acc ||| (data i <<< (i * 8))) else acc) 0

/-- The second data loop of `CAN_Send`: `data_high |= data[i] << ((i - 4) * 8)` for
`4 <= i < dlc && i < 8`. -/
def CAN_Send_data_high (data : Nat → Nat) (dlc : Nat) : Nat :=
  [4, 5, 6, 7].foldl
    (fun acc i => if i < dlc then u32 (acc ||| (data i <<< ((i - 4) * 8))) else acc) 0

/-- The part of `CAN_Send` that loads the chosen mailbox and requests transmission. -/
def CAN_Send_load (c : CanCtrlRegs) (mailbox id : Nat) (data : Nat → Nat) (dlc : Nat) :
    CanCtrlRegs :=
  let mb : CanTxMailBox :=
    { TIR := u32 (id <<< CAN_TI0R_STID_Pos) ||| CAN_TI0R_TXRQ
      TDTR := dlc
      TDLR := CAN_Send_data_low data dlc
      TDHR := CAN_Send_data_high data dlc }
  { c with sTxMailBox := Function.update c.sTxMailBox mailbox mb }

/-- The function `CAN_Send`; `data = none` is the null pointer, `data i` the byte `data[i]`,
and `tsr` the stream of values read from the transmit status register. -/
def CAN_Send (d : CanDevice) (SystemCoreClock : Nat) (tsr : Nat → Nat) (id : Nat)
    (data : Option (Nat → Nat)) (dlc : Nat) : Bool × CanDevice :=
  match data with
  | none => (false, d)
  | some bytes =>
    if 8 < dlc then (false, d)
    else
      let w := CAN_WaitForTxMailbox SystemCoreClock tsr
      if w.1 = false then (false, d)
      else if tsr w.2 &&& CAN_TSR_TME0 ≠ 0 then
        (true, { d with ctrl := CAN_Send_load d.ctrl 0 id bytes dlc })
      else if tsr (w.2 + 1) &&& CAN_TSR_TME1 ≠ 0 then
        (true, { d with ctrl := CAN_Send_load d.ctrl 1 id bytes dlc })
      else if tsr (w.2 + 2) &&& CAN_TSR_TME2 ≠ 0 then
        (true, { d with ctrl := CAN_Send_load d.ctrl 2 id bytes dlc })
      else (false, d)

/-- All configuration and transmit registers zero, as after reset. -/
def CanCtrlRegs.init : CanCtrlRegs :=
  { APB1ENR := 0, MCR := 0, BTR := 0, IER := 0, FMR := 0, FM1R := 0, FS1R := 0, FFA1R := 0,
    FA1R := 0, FR1 := 0, FR2 := 0, sTxMailBox := fun _ => ⟨0, 0, 0, 0⟩ }

/-- The CAN driver and peripheral at power-on. -/
def CanDevice.init : CanDevice := ⟨CanState.init, CanCtrlRegs.init⟩

/-- One operation on the CAN driver with its whole peripheral: an interrupt, or a call of
`CAN_Receive`, `CAN_Send` or `CAN_ClearError`. -/
inductive CanDevOp where
  | irq (hw : CanRegs)
  | receive (frame : Option CanFrame)
  | send (SystemCoreClock : Nat) (tsr : Nat → Nat) (id : Nat) (data : Option (Nat → Nat))
      (dlc : Nat)
  | clearError

/-- The device after one operation. -/
def CanDevOp.apply (d : CanDevice) : CanDevOp → CanDevice
  | CanDevOp.irq hw => { d with drv := CAN_IRQHandler { d.drv with hw := hw } }
  | CanDevOp.receive frame => { d with drv := (CAN_Receive d.drv frame).2.1 }
  | CanDevOp.send clk tsr id data dlc => (CAN_Send d clk tsr id data dlc).2
  | CanDevOp.clearError => { d with drv := CAN_ClearError d.drv }

/-- The operation is a handler invocation that finds a frame pending with the frame buffer
full, or finds the hardware FIFO-overrun flag set. -/
def CanDevOp.overrunEvent (d : CanDevice) : CanDevOp → Bool
  | CanDevOp.irq hw =>
    decide ((hw.RF0R &&& CAN_RF0R_FMP0 ≠ 0 ∧ CAN_RX_BUFFER_SIZE ≤ d.drv.rx_count) ∨
      hw.RF0R &&& CAN_RF0R_FOVR0 ≠ 0)
  | _ => false

/-- A run of the device together with the record whether, since the most recent
`CAN_ClearError` (or since the start), some handler invocation was a capacity-exceeding
event. -/
structure CanDevTrace where
  dev : CanDevice
  overrunSinceClear : Bool

/-- One operation, recorded. -/
def CanDevTrace.step (r : CanDevTrace) (op : CanDevOp) : CanDevTrace :=
  { dev := op.apply r.dev
    overrunSinceClear :=
      match op with
      | CanDevOp.clearError => false
      | _ => r.overrunSinceClear || op.overrunEvent r.dev }

/-- A sequence of operations, recorded. -/
def canDevTrace (r : CanDevTrace) (ops : List CanDevOp) : CanDevTrace :=
  ops.foldl CanDevTrace.step r

/-- Consistency of the cursors of a circular buffer: the count does not exceed the capacity,
head and tail are below the capacity, and the head is `count` slots after the tail. -/
def RingOk (cap head tail count : Nat) : Prop :=
  count ≤ cap ∧ head < cap ∧ tail < cap ∧ head = (tail + count) % cap

/-- The outbound ring buffer of `s` holds exactly the bytes `q`, oldest first. -/
def UartTxHolds (s : UartState) (q : List Nat) : Prop :=
  s.tx_count = q.length ∧ q.length ≤ UART_TX_BUFFER_SIZE ∧ s.tx_tail < UART_TX_BUFFER_SIZE ∧
  s.tx_head = (s.tx_tail + q.length) % UART_TX_BUFFER_SIZE ∧
  ∀ i, i < q.length → q[i]? = some (s.tx_buffer ((s.tx_tail + i) % UART_TX_BUFFER_SIZE))

/-- The bytes of a write request: `data[0] .. data[length - 1]`. -/
def payloadBytes (data : Nat → Nat) (length : Nat) : List Nat := (List.range length).map data

/-- The bytes an operation hands to the outbound buffer: the payload of a `UART_WriteData` or
`UART_Write` call that returns true, nothing otherwise. -/
def UartOp.accepted (s : UartState) : UartOp → List Nat
  | UartOp.writeData (some d) length =>
    if (UART_WriteData s (some d) length).1 = true then payloadBytes d length else []
  | UartOp.write (some cs) =>
    if (UART_Write s (some cs)).1 = true then
      payloadBytes (fun i => (cs.getD i (Char.ofNat 0)).toNat) (u16 cs.length)
    else []
  | _ => []

/-- The concatenation, in call order, of the payloads of the accepted writes of a run. -/
def uartAccepted : UartState → List UartOp → List Nat
  | _, [] => []
  | s, op :: ops => op.accepted s ++ uartAccepted (op.apply s) ops

/-- Invariant of the outbound path: the accepted bytes are the bytes already written to the
data register followed by the bytes still buffered, and the buffer is empty whenever no
transmission is in progress. -/
def UartTxInv (s : UartState) (acc : List Nat) : Prop :=
  ∃ q, acc = s.hw.tx_line ++ q ∧ UartTxHolds s q ∧ (s.tx_in_progress = false → q = [])

/-- The receive block of `UART_IRQHandler`, for the status word `sr`. -/
def UART_IRQHandler_rx (sr : Nat) (s : UartState) : UartState :=
  if sr &&& USART_SR_RXNE ≠ 0 then
    if s.rx_count < UART_RX_BUFFER_SIZE then
      { s with
        rx_buffer := Function.update s.rx_buffer s.rx_head (u8 s.hw.DR)
        rx_head := (s.rx_head + 1) % UART_RX_BUFFER_SIZE
        rx_count := u16 (s.rx_count + 1) }
    else { s with last_error := UartError.OVERRUN }
  else s

/-- The transmit block of `UART_IRQHandler`, for the status word `sr`. -/
def UART_IRQHandler_tx (sr : Nat) (s1 : UartState) : UartState :=
  if sr &&& USART_SR_TXE ≠ 0 ∧ s1.hw.CR1 &&& USART_CR1_TXEIE ≠ 0 then
    if 0 < s1.tx_count then
      { s1 with
        hw := { s1.hw with tx_line := s1.hw.tx_line ++ [s1.tx_buffer s1.tx_tail] }
        tx_tail := (s1.tx_tail + 1) % UART_TX_BUFFER_SIZE
        tx_count := s1.tx_count - 1 }
    else
      { s1 with
        hw := { s1.hw with CR1 := s1.hw.CR1 &&& not32 USART_CR1_TXEIE }
        tx_in_progress := false }
  else s1

/-- The transmission-complete and error blocks of `UART_IRQHandler`, for the status word
`sr`. -/
def UART_IRQHandler_status (sr : Nat) (s2 : UartState) : UartState :=
  let s3 :=
    if sr &&& USART_SR_TC ≠ 0 then
      { s2 with hw := { s2.hw with SR := s2.hw.SR &&& not32 USART_SR_TC } }
    else s2
  let s4 := if sr &&& USART_SR_ORE ≠ 0 then { s3 with last_error := UartError.OVERRUN } else s3
  let s5 := if sr &&& USART_SR_FE ≠ 0 then { s4 with last_error := UartError.FRAMING } else s4
  if sr &&& USART_SR_PE ≠ 0 then { s5 with last_error := UartError.PARITY } else s5

/-- A frame buffer filled by 16 interrupts, each with a frame pending. -/
def fullCanState : CanState :=
  canRun CanState.init (List.replicate 16 (CanOp.irq (pendingFrame 0x100 8 0 0 7)))

/-! ## Serial driver: initialisation (`UART_Init`)

`UART_Init` waits for the transmission-complete flag in a loop without a counter.  Every
evaluation of the status register is a separate volatile read: `sr k` is what the `k`-th
read during the call returns.  The loop is run for at most `fuel` reads; a result of `none`
means that the call has not returned within that many reads. -/

/-- The constant `APB1_CLOCK_FREQ` of `system_config.h`. -/
def APB1_CLOCK_FREQ : Nat := 42000000

/-- Modelled from the spec: `RCC_APB1ENR_USART3EN`, clock enable bit of USART3 in the device
header. -/
def RCC_APB1ENR_USART3EN : Nat := 0x00040000

/-- Modelled from the spec: `RCC_APB1RSTR_USART3RST`, reset bit of USART3 in the device
header. -/
def RCC_APB1RSTR_USART3RST : Nat := 0x00040000

/-- Modelled from the spec: `USART_CR1_RE`, receiver enable. -/
def USART_CR1_RE : Nat := 0x0004

/-- Modelled from the spec: `USART_CR1_TE`, transmitter enable. -/
def USART_CR1_TE : Nat := 0x0008

/-- Modelled from the spec: `USART_CR1_RXNEIE`, receive-not-empty interrupt enable. -/
def USART_CR1_RXNEIE : Nat := 0x0020

/-- Modelled from the spec: `USART_CR1_UE`, USART enable. -/
def USART_CR1_UE : Nat := 0x2000

/-- The registers only `UART_Init` writes: the clock enable and reset registers of the RCC
and the baud-rate and control registers 2 and 3 of USART3. -/
structure UartCfgRegs where
  APB1ENR : Nat
  APB1RSTR : Nat
  BRR : Nat
  CR2 : Nat
  CR3 : Nat
deriving DecidableEq, Repr

/-- The serial driver with the whole peripheral. -/
structure UartDevice where
  drv : UartState
  cfg : UartCfgRegs

/-- The serial driver and peripheral at power-on. -/
def UartDevice.init : UartDevice := ⟨UartState.init, ⟨0, 0, 0, 0, 0⟩⟩

/-- The baud-rate register value computed by `UART_Init` (all arithmetic in `uint32_t`; for
`baudrate = 0` the source divides by zero). -/
def UART_Init_brr (baudrate : Nat) : Nat :=
  let usartdiv := u32 (APB1_CLOCK_FREQ * 25) / u32 (4 * baudrate)
  let mantissa := usartdiv / 100
  let fraction := u32 (u32 (u32 (usartdiv + (4294967296 - u32 (mantissa * 100))) * 16) + 50) / 100
  let carried : Nat × Nat := if 16 ≤ fraction then (u32 (mantissa + 1), 0) else (mantissa, fraction)
  u32 (carried.1 <<< 4) ||| (carried.2 &&& 0x0F)

/-- The part of `UART_Init` before the wait: clock enable, peripheral reset, baud rate and
control registers. -/
def UART_Init_configure (d : UartDevice) (baudrate : Nat) : UartDevice :=
  { drv := { d.drv with hw := { d.drv.hw with
      CR1 := USART_CR1_UE ||| USART_CR1_TE ||| USART_CR1_RE ||| USART_CR1_RXNEIE } }
    cfg :=
      { APB1ENR := d.cfg.APB1ENR ||| RCC_APB1ENR_USART3EN
        APB1RSTR := (d.cfg.APB1RSTR ||| RCC_APB1RSTR_USART3RST) &&& not32 RCC_APB1RSTR_USART3RST
        BRR := UART_Init_brr baudrate
        CR2 := 0
        CR3 := 0 } }

/-- The loop `while (!(USART3->SR & USART_SR_TC));` starting at read `k`: the index of the
read that ends the loop, or `none` if none of the next `fuel` reads shows the flag. -/
def UART_Init_wait (sr : Nat → Nat) : Nat → Nat → Option Nat
  | 0, _ => none
  | fuel + 1, k =>
    if sr k &&& USART_SR_TC ≠ 0 then some k else UART_Init_wait sr fuel (k + 1)

/-- The function `UART_Init`, run for at most `fuel` reads of the status register. -/
def UART_Init (fuel : Nat) (d : UartDevice) (sr : Nat → Nat) (baudrate : Nat) :
    Option (Bool × UartDevice) :=
  let d1 := UART_Init_configure d baudrate
  match UART_Init_wait sr fuel 0 with
  | none => none
  | some _ =>
    some (true, { d1 with drv := UART_ClearError { d1.drv with hw := { d1.drv.hw with SR := 0 } } })

/-! ## Nominal CAN bit rate -/

/-- Modelled from the spec: the nominal bit rate that a bit-timing register value gives on a
peripheral clock of `pclk` Hz, with the prescaler in bits 9..0, segment 1 in bits 19..16 and
segment 2 in bits 22..20, each field meaning its value plus one, and one time quantum for the
synchronisation segment: `pclk / ((BRP + 1) * (1 + (TS1 + 1) + (TS2 + 1)))`. -/
def canNominalBitRate (pclk btr : Nat) : Nat :=
  let brp := btr &&& 0x3FF
  let ts1 := (btr >>> CAN_BTR_TS1_Pos) &&& 0xF
  let ts2 := (btr >>> CAN_BTR_TS2_Pos) &&& 0x7
  pclk / ((brp + 1) * (1 + (ts1 + 1) + (ts2 + 1)))

/-! ## Router: polling of the error latches (`Router_Poll`) -/

/-- The function `SendErrorMessage`. -/
def SendErrorMessage (w : System) (error_type details : List Char) : System :=
  let error_buffer := sprintf "%s,%s\r\n".toList [FmtArg.str error_type, FmtArg.str details]
  let length := error_buffer.length
  if 0 < length ∧ length < MAX_OUTPUT_LENGTH then Router_UART_Write w error_buffer else w

/-- The first block of `Router_Poll`: the CAN error latch. -/
def Router_Poll_can (w : System) : System :=
  let can_error := (CAN_GetLastError w.can).1
  if can_error ≠ CanError.NONE then
    let w1 := { w with router_stats := { w.router_stats with
      can_errors := u32 (w.router_stats.can_errors + 1) } }
    let w2 :=
      match can_error with
      | CanError.BUS_OFF => SendErrorMessage w1 "CAN_ERR".toList "BUS_OFF".toList
      | CanError.ERROR_PASSIVE => SendErrorMessage w1 "CAN_ERR".toList "ERROR_PASSIVE".toList
      | CanError.WARNING => SendErrorMessage w1 "CAN_ERR".toList "WARNING".toList
      | CanError.OVERRUN => SendErrorMessage w1 "CAN_ERR".toList "OVERRUN".toList
      | _ => SendErrorMessage w1 "CAN_ERR".toList "UNKNOWN".toList
    { w2 with can := CAN_ClearError w2.can }
  else w

/-- The second block of `Router_Poll`: the serial error latch. -/
def Router_Poll_uart (w : System) : System :=
  let uart_error := (UART_GetLastError w.uart).1
  if uart_error ≠ UartError.NONE then
    let w1 := { w with router_stats := { w.router_stats with
      uart_errors := u32 (w.router_stats.uart_errors + 1) } }
    let w2 :=
      match uart_error with
      | UartError.OVERRUN => SendErrorMessage w1 "UART_ERR".toList "OVERRUN".toList
      | UartError.FRAMING => SendErrorMessage w1 "UART_ERR".toList "FRAMING".toList
      | UartError.PARITY => SendErrorMessage w1 "UART_ERR".toList "PARITY".toList
      | UartError.BUFFER_FULL => SendErrorMessage w1 "UART_ERR".toList "BUFFER_FULL".toList
      | _ => SendErrorMessage w1 "UART_ERR".toList "UNKNOWN".toList
    { w2 with uart := UART_ClearError w2.uart }
  else w

/-- The function `Router_Poll`. -/
def Router_Poll (w : System) : System := Router_Poll_uart (Router_Poll_can w)

/-- The name `Router_Poll` prints for a CAN error value. -/
def canErrorName : CanError → String
  | CanError.BUS_OFF => "BUS_OFF"
  | CanError.ERROR_PASSIVE => "ERROR_PASSIVE"
  | CanError.WARNING => "WARNING"
  | CanError.OVERRUN => "OVERRUN"
  | _ => "UNKNOWN"

/-- The name `Router_Poll` prints for a serial error value. -/
def uartErrorName : UartError → String
  | UartError.OVERRUN => "OVERRUN"
  | UartError.FRAMING => "FRAMING"
  | UartError.PARITY => "PARITY"
  | UartError.BUFFER_FULL => "BUFFER_FULL"
  | _ => "UNKNOWN"

/-- The inbound ring buffer of `s` holds exactly the bytes `q`, oldest first. -/
def UartRxHolds (s : UartState) (q : List Nat) : Prop :=
  s.rx_count = q.length ∧ q.length ≤ UART_RX_BUFFER_SIZE ∧ s.rx_tail < UART_RX_BUFFER_SIZE ∧
  s.rx_head = (s.rx_tail + q.length) % UART_RX_BUFFER_SIZE ∧
  ∀ i, i < q.length → q[i]? = some (s.rx_buffer ((s.rx_tail + i) % UART_RX_BUFFER_SIZE))

/-- The line `Router_Poll` sends for a CAN error value. -/
def canErrorLine (e : CanError) : List Char := ("CAN_ERR," ++ canErrorName e ++ "\r\n").toList

/-- The line `Router_Poll` sends for a serial error value. -/
def uartErrorLine (e : UartError) : List Char :=
  ("UART_ERR," ++ uartErrorName e ++ "\r\n").toList

/-- A state at entry to `Router_Poll`: the serial driver has accepted 25 lines of 10
characters and no transmit interrupt has been served yet (249 bytes queued, 7 free), the CAN
controller has raised one interrupt for a hardware overrun of FIFO 0, the statistics are
zero. -/
def pollBusySample : System :=
  { System.init with
    can := canRun CanState.init [CanOp.irq ⟨CAN_RF0R_FOVR0, 0, 0, 0, 0, 0, 0, 0⟩]
    uart := uartRun UartState.init
      (List.replicate 25 (UartOp.write (some "RPM,2000\r\n".toList))) }

/-! ## Router: sequences of calls -/

/-- One step of the background program as far as the router is concerned: a call of one of
the four exported router functions, or an operation on one of the two drivers (an interrupt
or a driver call made outside the router). -/
inductive RouterOp where
  | processCanFrame (frame : Option CanFrame)
  | poll
  | getStatistics
  | clearStatistics
  | canOp (op : CanOp)
  | uartOp (op : UartOp)

/-- The program state after one step. -/
def RouterOp.apply (w : System) : RouterOp → System
  | RouterOp.processCanFrame frame => Router_ProcessCanFrame w frame
  | RouterOp.poll => Router_Poll w
  | RouterOp.getStatistics => w
  | RouterOp.clearStatistics => Router_ClearStatistics w
  | RouterOp.canOp op => { w with can := op.apply w.can }
  | RouterOp.uartOp op => { w with uart := op.apply w.uart }

/-- The program state after a sequence of steps. -/
def routerRun (w : System) (ops : List RouterOp) : System := ops.foldl RouterOp.apply w

/-- The indices of `data[]` that `ExtractSignalValue` reads for a rule. -/
def ExtractSignalValue_reads (config : SignalConfig) : List Nat :=
  if config.length = 1 then [config.start_byte]
  else if config.length = 2 then [config.start_byte + 1, config.start_byte]
  else if config.length = 4 then
    [config.start_byte + 3, config.start_byte + 2, config.start_byte + 1, config.start_byte]
  else []

/-- The indices of `frame->data[]` that `Router_ProcessCanFrame` reads: those of
`ExtractSignalValue` when a rule matches and the length check passes, none otherwise. -/
def Router_ProcessCanFrame_reads (f : CanFrame) : List Nat :=
  match FindSignalConfig f.id with
  | none => []
  | some config =>
    if f.dlc < config.start_byte + config.length then [] else ExtractSignalValue_reads config

/-! ## Serial driver: sequences of calls including `UART_ClearError` -/

/-- One operation on the serial driver: one of the operations of `UartOp`, or a call of
`UART_ClearError`. -/
inductive UartCall where
  | driver (op : UartOp)
  | clearError

/-- The driver state after one operation. -/
def UartCall.apply (s : UartState) : UartCall → UartState
  | UartCall.driver op => op.apply s
  | UartCall.clearError => UART_ClearError s

/-- The driver state after a sequence of operations. -/
def uartCallRun (s : UartState) (ops : List UartCall) : UartState :=
  ops.foldl UartCall.apply s

/-! ## Test frame generator (`can_test_generator.c`) -/

/-- The static variables `rpm_value`, `temp_value` and `speed_value`. -/
structure GenState where
  rpm_value : Nat
  temp_value : Nat
  speed_value : Nat
deriving DecidableEq, Repr

/-- The start-up values of the generator's variables. -/
def GenState.init : GenState := ⟨800, 70, 0⟩

/-- The array `data` that `GenerateEngineRpmFrame` builds. -/
def GenerateEngineRpmFrame_data (rpm_value : Nat) : Nat → Nat :=
  let raw_rpm := u16 (rpm_value * 4)
  Function.update (Function.update (fun _ => 0) 0 (u8 (raw_rpm &&& 0xFF))) 1
    (u8 ((raw_rpm >>> 8) &&& 0xFF))

/-- The function `GenerateEngineRpmFrame`: the variables after the call and the result of its
`CAN_Send` call. -/
def GenerateEngineRpmFrame (g : GenState) (d : CanDevice) (SystemCoreClock : Nat)
    (tsr : Nat → Nat) : GenState × Bool × CanDevice :=
  let r := CAN_Send d SystemCoreClock tsr 0x100 (some (GenerateEngineRpmFrame_data g.rpm_value)) 8
  let rpm1 := u16 (g.rpm_value + 50)
  ({ g with rpm_value := if 6000 < rpm1 then 800 else rpm1 }, r)

/-- The array `data` that `GenerateEngineTempFrame` builds. -/
def GenerateEngineTempFrame_data (temp_value : Nat) : Nat → Nat :=
  Function.update (fun _ => 0) 2 temp_value

/-- The function `GenerateEngineTempFrame`. -/
def GenerateEngineTempFrame (g : GenState) (d : CanDevice) (SystemCoreClock : Nat)
    (tsr : Nat → Nat) : GenState × Bool × CanDevice :=
  let r := CAN_Send d SystemCoreClock tsr 0x101
    (some (GenerateEngineTempFrame_data g.temp_value)) 8
  let temp1 := u8 (g.temp_value + 1)
  ({ g with temp_value := if 130 < temp1 then 70 else temp1 }, r)

/-- The array `data` that `GenerateVehicleSpeedFrame` builds. -/
def GenerateVehicleSpeedFrame_data (speed_value : Nat) : Nat → Nat :=
  let raw_speed := u16 (speed_value * 10)
  Function.update (Function.update (fun _ => 0) 4 (u8 (raw_speed &&& 0xFF))) 5
    (u8 ((raw_speed >>> 8) &&& 0xFF))

/-- The function `GenerateVehicleSpeedFrame`. -/
def GenerateVehicleSpeedFrame (g : GenState) (d : CanDevice) (SystemCoreClock : Nat)
    (tsr : Nat → Nat) : GenState × Bool × CanDevice :=
  let r := CAN_Send d SystemCoreClock tsr 0x102
    (some (GenerateVehicleSpeedFrame_data g.speed_value)) 8
  let speed1 := u16 (g.speed_value + 5)
  ({ g with speed_value := if 120 < speed1 then 0 else speed1 }, r)

/-! ## Loopback -/

/-- Register contents presenting the contents of a transmit mailbox unchanged as a pending
received frame. -/
def loopbackRegs (mb : CanTxMailBox) (tick : Nat) : CanRegs :=
  { RF0R := 1, MSR := 0, ESR := 0, RIR := mb.TIR, RDTR := mb.TDTR, RDLR := mb.TDLR,
    RDHR := mb.TDHR, tick := tick }

/-! # Theorems -/

/-! ## Router: frames without a rule, decoded signals, short frames -/

/-! ## Lemmas on the rule table -/

theorem FindSignalConfig_none (id : Nat) (h0 : id ≠ 0x100) (h1 : id ≠ 0x101)
    (h2 : id ≠ 0x102) : FindSignalConfig id = none := by
  have e0 : ((0x100 : Nat) == id) = false := by simpa using fun h => h0 h.symm
  have e1 : ((0x101 : Nat) == id) = false := by simpa using fun h => h1 h.symm
  have e2 : ((0x102 : Nat) == id) = false := by simpa using fun h => h2 h.symm
  simp only [FindSignalConfig, signal_table, List.find?, rule_rpm, rule_temp, rule_speed, e0, e1, e2]

/-- C1: a frame whose identifier is none of 0x100, 0x101, 0x102 is counted as processed and
dropped, is not counted as routed, and causes no call to the serial driver: the record of
calls and the whole serial driver state are unchanged. -/
theorem C1_unmatched_identifier_dropped (w : System) (f : CanFrame)
    (h0 : f.id ≠ 0x100) (h1 : f.id ≠ 0x101) (h2 : f.id ≠ 0x102) :
    (Router_ProcessCanFrame w (some f)).router_stats.frames_processed
        = u32 (w.router_stats.frames_processed + 1) ∧
    (Router_ProcessCanFrame w (some f)).router_stats.frames_dropped
        = u32 (w.router_stats.frames_dropped + 1) ∧
    (Router_ProcessCanFrame w (some f)).router_stats.frames_routed
        = w.router_stats.frames_routed ∧
    (Router_ProcessCanFrame w (some f)).serial_calls = w.serial_calls ∧
    (Router_ProcessCanFrame w (some f)).uart = w.uart := by
  simp [Router_ProcessCanFrame, FindSignalConfig_none f.id h0 h1 h2]

theorem C1_unmatched_identifier_dropped_witness :
    (Router_ProcessCanFrame System.init (some (mkFrame 0x103 8 []))).router_stats.frames_processed
        = u32 (System.init.router_stats.frames_processed + 1) ∧
    (Router_ProcessCanFrame System.init (some (mkFrame 0x103 8 []))).router_stats.frames_dropped
        = u32 (System.init.router_stats.frames_dropped + 1) ∧
    (Router_ProcessCanFrame System.init (some (mkFrame 0x103 8 []))).router_stats.frames_routed
        = System.init.router_stats.frames_routed ∧
    (Router_ProcessCanFrame System.init (some (mkFrame 0x103 8 []))).serial_calls
        = System.init.serial_calls ∧
    (Router_ProcessCanFrame System.init (some (mkFrame 0x103 8 []))).uart = System.init.uart :=
  C1_unmatched_identifier_dropped System.init (mkFrame 0x103 8 [])
    (by decide) (by decide) (by decide)

theorem FindSignalConfig_rpm : FindSignalConfig 0x100 = some rule_rpm := by decide

theorem FindSignalConfig_temp : FindSignalConfig 0x101 = some rule_temp := by decide

theorem FindSignalConfig_speed : FindSignalConfig 0x102 = some rule_speed := by decide

/-- The record of serial calls after `FormatAndSendSignal`, when the formatted text is known. -/
theorem FormatAndSendSignal_calls (w : System) (config : SignalConfig) (raw : Nat)
    (line : List Char)
    (hline : sprintf config.format_string [FmtArg.int (F32.toInt32 (F32.add
      (F32.add (F32.mul (F32.ofUInt32 raw) config.scale) config.offset) f32_0_5))] = line)
    (hlen : 0 < line.length ∧ line.length < MAX_OUTPUT_LENGTH) :
    FormatAndSendSignal w config raw = Router_UART_Write w line := by
  simp only [FormatAndSendSignal, hline, hlen, and_self, if_true]

/-- C2: for identifier 0x100, DLC at least 2 and payload bytes 0 and 1 equal to 0x40 and 0x1F,
the router makes exactly one call to the serial driver, and its argument is the 10-character
line `RPM,2000` followed by carriage return and line feed. -/
theorem C2_rpm_2000_line (w : System) (f : CanFrame) (hid : f.id = 0x100) (hdlc : 2 ≤ f.dlc)
    (hb0 : f.data 0 = 0x40) (hb1 : f.data 1 = 0x1F) :
    (Router_ProcessCanFrame w (some f)).serial_calls
        = w.serial_calls ++ ["RPM,2000\r\n".toList] ∧
    "RPM,2000\r\n".toList.length = 10 := by
  have hraw : ExtractSignalValue f.data rule_rpm = 8000 := by
    simp [ExtractSignalValue, rule_rpm, hb0, hb1, u32]
  have hcfg : ¬ f.dlc < rule_rpm.start_byte + rule_rpm.length := by
    simp [rule_rpm]; omega
  refine ⟨?_, by decide⟩
  simp only [Router_ProcessCanFrame, hid, FindSignalConfig_rpm, hcfg, if_false, hraw]
  rw [FormatAndSendSignal_calls _ rule_rpm 8000 "RPM,2000\r\n".toList (by decide) (by decide)]
  rfl

theorem C2_rpm_2000_line_witness :
    (Router_ProcessCanFrame System.init (some (mkFrame 0x100 8 [0x40, 0x1F]))).serial_calls
        = System.init.serial_calls ++ ["RPM,2000\r\n".toList] ∧
    "RPM,2000\r\n".toList.length = 10 :=
  C2_rpm_2000_line System.init (mkFrame 0x100 8 [0x40, 0x1F]) (by decide) (by decide)
    (by decide) (by decide)

/-- C3: for identifier 0x101, DLC at least 3 and payload byte 2 equal to 130, the router makes
exactly one call to the serial driver, and its argument is the line `TEMP,90` followed by
carriage return and line feed. -/
theorem C3_temp_90_line (w : System) (f : CanFrame) (hid : f.id = 0x101) (hdlc : 3 ≤ f.dlc)
    (hb2 : f.data 2 = 130) :
    (Router_ProcessCanFrame w (some f)).serial_calls
        = w.serial_calls ++ ["TEMP,90\r\n".toList] := by
  have hraw : ExtractSignalValue f.data rule_temp = 130 := by
    simp [ExtractSignalValue, rule_temp, hb2]
  have hcfg : ¬ f.dlc < rule_temp.start_byte + rule_temp.length := by
    simp [rule_temp]; omega
  simp only [Router_ProcessCanFrame, hid, FindSignalConfig_temp, hcfg, if_false, hraw]
  rw [FormatAndSendSignal_calls _ rule_temp 130 "TEMP,90\r\n".toList (by decide) (by decide)]
  rfl

theorem C3_temp_90_line_witness :
    (Router_ProcessCanFrame System.init (some (mkFrame 0x101 3 [0, 0, 130]))).serial_calls
        = System.init.serial_calls ++ ["TEMP,90\r\n".toList] :=
  C3_temp_90_line System.init (mkFrame 0x101 3 [0, 0, 130]) (by decide) (by decide) (by decide)

/-- C4: for identifier 0x102, DLC at least 6 and payload bytes 4 and 5 equal to 0xB0 and 0x04,
the router makes exactly one call to the serial driver, and its argument is the line
`SPEED,120` followed by carriage return and line feed. -/
theorem C4_speed_120_line (w : System) (f : CanFrame) (hid : f.id = 0x102) (hdlc : 6 ≤ f.dlc)
    (hb4 : f.data 4 = 0xB0) (hb5 : f.data 5 = 0x04) :
    (Router_ProcessCanFrame w (some f)).serial_calls
        = w.serial_calls ++ ["SPEED,120\r\n".toList] := by
  have hraw : ExtractSignalValue f.data rule_speed = 1200 := by
    simp [ExtractSignalValue, rule_speed, hb4, hb5, u32]
  have hcfg : ¬ f.dlc < rule_speed.start_byte + rule_speed.length := by
    simp [rule_speed]; omega
  simp only [Router_ProcessCanFrame, hid, FindSignalConfig_speed, hcfg, if_false, hraw]
  rw [FormatAndSendSignal_calls _ rule_speed 1200 "SPEED,120\r\n".toList (by decide)
    (by decide)]
  rfl

theorem C4_speed_120_line_witness :
    (Router_ProcessCanFrame System.init
        (some (mkFrame 0x102 6 [0, 0, 0, 0, 0xB0, 0x04]))).serial_calls
        = System.init.serial_calls ++ ["SPEED,120\r\n".toList] :=
  C4_speed_120_line System.init (mkFrame 0x102 6 [0, 0, 0, 0, 0xB0, 0x04]) (by decide)
    (by decide) (by decide) (by decide)

/-- The router state after a frame that matches `config` but is too short for it. -/
theorem Router_ProcessCanFrame_short (w : System) (f : CanFrame) (config : SignalConfig)
    (hfind : FindSignalConfig f.id = some config)
    (hshort : f.dlc < config.start_byte + config.length) :
    Router_ProcessCanFrame w (some f) =
      Router_UART_Write
        { w with router_stats := { w.router_stats with
            frames_processed := u32 (w.router_stats.frames_processed + 1)
            frames_dropped := u32 (w.router_stats.frames_dropped + 1) } }
        (sprintf "CAN_ERR,INVALID_DLC,ID:0x%03X\r\n".toList [FmtArg.uint f.id]) := by
  simp only [Router_ProcessCanFrame, hfind, hshort, if_true]

/-- C5: a frame with identifier 0x100, 0x101 or 0x102 whose DLC is below 2, 3 or 6
respectively is counted as processed and dropped, not as routed, and the router makes exactly
one call to the serial driver, whose argument is `CAN_ERR,INVALID_DLC,ID:0x`, the identifier
as three upper-case hexadecimal digits, carriage return and line feed. -/
theorem C5_short_dlc_error_line (w : System) (f : CanFrame)
    (h : (f.id = 0x100 ∧ f.dlc < 2) ∨ (f.id = 0x101 ∧ f.dlc < 3) ∨
      (f.id = 0x102 ∧ f.dlc < 6)) :
    (Router_ProcessCanFrame w (some f)).router_stats.frames_processed
        = u32 (w.router_stats.frames_processed + 1) ∧
    (Router_ProcessCanFrame w (some f)).router_stats.frames_dropped
        = u32 (w.router_stats.frames_dropped + 1) ∧
    (Router_ProcessCanFrame w (some f)).router_stats.frames_routed
        = w.router_stats.frames_routed ∧
    (Router_ProcessCanFrame w (some f)).serial_calls
        = w.serial_calls ++ [invalidDlcLine f.id] := by
  rcases h with ⟨hid, hd⟩ | ⟨hid, hd⟩ | ⟨hid, hd⟩
  · rw [Router_ProcessCanFrame_short w f rule_rpm (by rw [hid]; exact FindSignalConfig_rpm)
      (by simpa [rule_rpm] using hd), hid]
    exact ⟨rfl, rfl, rfl, congrArg (fun l => w.serial_calls ++ [l]) (by decide)⟩
  · rw [Router_ProcessCanFrame_short w f rule_temp (by rw [hid]; exact FindSignalConfig_temp)
      (by simpa [rule_temp] using hd), hid]
    exact ⟨rfl, rfl, rfl, congrArg (fun l => w.serial_calls ++ [l]) (by decide)⟩
  · rw [Router_ProcessCanFrame_short w f rule_speed (by rw [hid]; exact FindSignalConfig_speed)
      (by simpa [rule_speed] using hd), hid]
    exact ⟨rfl, rfl, rfl, congrArg (fun l => w.serial_calls ++ [l]) (by decide)⟩

theorem C5_short_dlc_error_line_witness :
    (Router_ProcessCanFrame System.init (some (mkFrame 0x100 1 [0x40]))).router_stats
        = ⟨1, 0, 1, 0, 0⟩ ∧
    (Router_ProcessCanFrame System.init (some (mkFrame 0x100 1 [0x40]))).serial_calls
        = ["CAN_ERR,INVALID_DLC,ID:0x100\r\n".toList] :=
  ⟨by decide,
   (C5_short_dlc_error_line System.init (mkFrame 0x100 1 [0x40])
      (Or.inl ⟨by decide, by decide⟩)).2.2.2⟩

/-- C6: the printed integer is not always the engineering value rounded half away from zero.
For identifier 0x101 with payload byte 2 equal to 0 the engineering value is exactly -40, but
the line handed to the serial driver is `TEMP,-39`: adding 0.5 and truncating toward zero
rounds negative values up. -/
theorem C6_temp_negative_rounds_up :
    (Router_ProcessCanFrame System.init (some (mkFrame 0x101 3 [0, 0, 0]))).serial_calls
        = ["TEMP,-39\r\n".toList] ∧
    F32.add (F32.mul (F32.ofUInt32 0) rule_temp.scale) rule_temp.offset = ⟨true, 40, 0⟩ := by
  decide

/-- The integer printed for the temperature rule, for every byte value: the byte minus 40
from 40 upwards, but the byte minus 39 below 40. -/
theorem temp_rounded_value :
    ∀ b < 256, F32.toInt32 (F32.add (F32.add (F32.mul (F32.ofUInt32 b) rule_temp.scale)
      rule_temp.offset) f32_0_5) = if b < 40 then (b : Int) - 39 else (b : Int) - 40 := by
  decide!

/-! ## CAN driver: full buffer, error latch -/

/-- C7: when the handler runs with a frame pending while 16 frames are buffered, the stored
frames, `rx_head`, `rx_tail` and `rx_count` are unchanged (the incoming frame is the one
discarded) and the error latch reads OVERRUN when the handler returns. -/
theorem C7_full_buffer_discards_incoming (s : CanState)
    (hpend : s.hw.RF0R &&& CAN_RF0R_FMP0 ≠ 0) (hfull : s.rx_count = CAN_RX_BUFFER_SIZE) :
    (CAN_IRQHandler s).rx_buffer = s.rx_buffer ∧
    (CAN_IRQHandler s).rx_head = s.rx_head ∧
    (CAN_IRQHandler s).rx_tail = s.rx_tail ∧
    (CAN_IRQHandler s).rx_count = s.rx_count ∧
    (CAN_GetLastError (CAN_IRQHandler s)).1 = CanError.OVERRUN := by
  simp [CAN_IRQHandler, hpend, hfull, CAN_GetLastError]

theorem C7_full_buffer_discards_incoming_witness :
    (CAN_IRQHandler { canRun CanState.init (List.replicate 16 (CanOp.irq ⟨1, 0, 0, 0, 0, 0, 0, 7⟩))
      with hw := ⟨1, 0, 0, 0, 0, 0, 0, 9⟩ }).rx_count = 16 ∧
    (CAN_GetLastError (CAN_IRQHandler
      { canRun CanState.init (List.replicate 16 (CanOp.irq ⟨1, 0, 0, 0, 0, 0, 0, 7⟩))
        with hw := ⟨1, 0, 0, 0, 0, 0, 0, 9⟩ })).1 = CanError.OVERRUN :=
  have h := C7_full_buffer_discards_incoming
    { canRun CanState.init (List.replicate 16 (CanOp.irq ⟨1, 0, 0, 0, 0, 0, 0, 7⟩))
      with hw := ⟨1, 0, 0, 0, 0, 0, 0, 9⟩ } (by decide) (by decide)
  ⟨h.2.2.2.1, h.2.2.2.2⟩

/-! ## CAN driver: first-in first-out order of the frame buffer -/

theorem CAN_IRQHandler_flags_buffer (s : CanState) :
    (CAN_IRQHandler_flags s).rx_buffer = s.rx_buffer ∧
    (CAN_IRQHandler_flags s).rx_head = s.rx_head ∧
    (CAN_IRQHandler_flags s).rx_tail = s.rx_tail ∧
    (CAN_IRQHandler_flags s).rx_count = s.rx_count := by
  unfold CAN_IRQHandler_flags
  dsimp only
  split_ifs <;> exact ⟨rfl, rfl, rfl, rfl⟩

theorem CanHolds_flags (s : CanState) (q : List CanFrame) (h : CanHolds s q) :
    CanHolds (CAN_IRQHandler_flags s) q := by
  obtain ⟨hb, hh, ht, hc⟩ := CAN_IRQHandler_flags_buffer s
  unfold CanHolds
  rw [hb, hh, ht, hc]
  exact h

theorem CanHolds_store (s : CanState) (q : List CanFrame) (h : CanHolds s q)
    (hlt : s.rx_count < CAN_RX_BUFFER_SIZE) :
    CanHolds (CAN_IRQHandler_store s) (q ++ [CAN_IRQHandler_frame s]) := by
  unfold CanHolds at h ⊢
  simp only [CAN_RX_BUFFER_SIZE] at h hlt ⊢
  obtain ⟨hc, hle, ht, hh, hq⟩ := h
  refine ⟨?_, ?_, ?_, ?_, ?_⟩
  · simp only [CAN_IRQHandler_store, u16, List.length_append, List.length_singleton]
    omega
  · simp only [List.length_append, List.length_singleton]
    omega
  · exact ht
  · simp only [CAN_IRQHandler_store, CAN_RX_BUFFER_SIZE, List.length_append,
      List.length_singleton]
    omega
  · intro i hi
    simp only [List.length_append, List.length_singleton] at hi
    simp only [CAN_IRQHandler_store]
    by_cases hil : i < q.length
    · rw [List.getElem?_append_left hil, hq i hil,
        Function.update_noteq (by omega)]
    · have hie : i = q.length := by omega
      subst hie
      rw [List.getElem?_append_right (le_refl _), ← hh, Function.update_same]
      simp

theorem CanHolds_receive_cons (s : CanState) (f : CanFrame) (q : List CanFrame)
    (dst : CanFrame) (h : CanHolds s (f :: q)) :
    (CAN_Receive s (some dst)).1 = true ∧ (CAN_Receive s (some dst)).2.2 = some f ∧
    CanHolds (CAN_Receive s (some dst)).2.1 q := by
  unfold CanHolds at h ⊢
  simp only [CAN_RX_BUFFER_SIZE, List.length_cons] at h ⊢
  obtain ⟨hc, hle, ht, hh, hq⟩ := h
  have hne : s.rx_count ≠ 0 := by omega
  have h0 := hq 0 (by omega)
  simp only [List.getElem?_cons_zero, Nat.add_zero, Option.some.injEq] at h0
  rw [Nat.mod_eq_of_lt ht] at h0
  simp only [CAN_Receive, hne, if_false]
  refine ⟨trivial, by rw [h0], ?_, ?_, ?_, ?_, ?_⟩
  · show s.rx_count - 1 = q.length
    omega
  · show q.length ≤ 16
    omega
  · show (s.rx_tail + 1) % 16 < 16
    omega
  · show s.rx_head = ((s.rx_tail + 1) % 16 + q.length) % 16
    omega
  · intro i hi
    show q[i]? = some (s.rx_buffer (((s.rx_tail + 1) % 16 + i) % 16))
    have := hq (i + 1) (by omega)
    rw [List.getElem?_cons_succ] at this
    rw [this]
    congr 2
    omega

theorem CanHolds_receive_nil (s : CanState) (dst : CanFrame) (h : CanHolds s []) :
    CAN_Receive s (some dst) = (false, s, some dst) := by
  have hc : s.rx_count = 0 := h.1
  simp [CAN_Receive, hc]

theorem CanTrace_step_state (r : CanTrace) (op : CanOp) :
    (r.step op).state = op.apply r.state := by
  cases op <;> rfl

theorem CanTrace_step_inv (r : CanTrace) (op : CanOp) (h : CanTraceInv r)
    (hcap : ∀ hw, op = CanOp.irq hw → hw.RF0R &&& CAN_RF0R_FMP0 ≠ 0 →
      r.state.rx_count < CAN_RX_BUFFER_SIZE) :
    CanTraceInv (r.step op) := by
  obtain ⟨q, harr, hq⟩ := h
  cases op with
  | irq hw =>
    have hq0 : CanHolds { r.state with hw := hw } q := hq
    by_cases hp : hw.RF0R &&& CAN_RF0R_FMP0 = 0
    · refine ⟨q, ?_, ?_⟩
      · simp [CanTrace.step, hp, harr]
      · show CanHolds (CAN_IRQHandler { r.state with hw := hw }) q
        simp only [CAN_IRQHandler, hp, ne_eq, not_true_eq_false, if_false]
        exact CanHolds_flags _ _ hq0
    · have hlt := hcap hw rfl hp
      refine ⟨q ++ [CAN_IRQHandler_frame { r.state with hw := hw }], ?_, ?_⟩
      · simp [CanTrace.step, hp, harr]
      · show CanHolds (CAN_IRQHandler { r.state with hw := hw }) _
        have hnf : ¬ CAN_RX_BUFFER_SIZE ≤ r.state.rx_count := by omega
        simp only [CAN_IRQHandler, hp, ne_eq, not_false_eq_true, if_true, hnf, if_false]
        exact CanHolds_flags _ _ (CanHolds_store _ _ hq0 hlt)
  | receive frame =>
    cases frame with
    | none => exact ⟨q, harr, hq⟩
    | some dst =>
      cases q with
      | nil =>
        have e := CanHolds_receive_nil r.state dst hq
        refine ⟨[], ?_, ?_⟩
        · simp only [CanTrace.step, e]
          exact harr
        · simp only [CanTrace.step, CanOp.apply, e]
          exact hq
      | cons f q =>
        obtain ⟨h1, h2, h3⟩ := CanHolds_receive_cons r.state f q dst hq
        have e : CAN_Receive r.state (some dst)
            = (true, (CAN_Receive r.state (some dst)).2.1, some f) :=
          Prod.ext h1 (Prod.ext rfl h2)
        refine ⟨q, ?_, h3⟩
        show r.arrived = (match CAN_Receive r.state (some dst) with
          | (true, _, some f) => r.returned ++ [f]
          | _ => r.returned) ++ q
        rw [e, harr]
        simp
  | getRxCount => exact ⟨q, harr, hq⟩
  | getLastError => exact ⟨q, harr, hq⟩

theorem canTrace_inv (ops : List CanOp) (r : CanTrace) (h : CanTraceInv r)
    (hcap : CanWithinCapacity r.state ops) : CanTraceInv (canTrace r ops) := by
  induction ops generalizing r with
  | nil => exact h
  | cons op ops ih =>
    obtain ⟨h1, h2⟩ := hcap
    show CanTraceInv (canTrace (r.step op) ops)
    apply ih
    · apply CanTrace_step_inv r op h
      intro hw hop hp
      subst hop
      exact h1 hp
    · rw [CanTrace_step_state]
      exact h2

/-- C8: run any sequence of interrupts and `CAN_Receive` calls from an empty buffer such that
every frame arrives while fewer than 16 frames are buffered.  Then the frames handed out by
the successful `CAN_Receive` calls are, in order, a prefix of the frames that arrived (equal
as whole frames: identifier, DLC, payload, timestamp); and a further `CAN_Receive` returns
false exactly when every arrived frame has been handed out, in which case it changes neither
the driver state nor the caller's frame. -/
theorem C8_frames_returned_in_arrival_order (s0 : CanState) (ops : List CanOp)
    (dst : CanFrame)
    (hempty : s0.rx_count = 0 ∧ s0.rx_head = s0.rx_tail ∧ s0.rx_tail < CAN_RX_BUFFER_SIZE)
    (hcap : CanWithinCapacity s0 ops) :
    (canTrace ⟨s0, [], []⟩ ops).returned
      = (canTrace ⟨s0, [], []⟩ ops).arrived.take (canTrace ⟨s0, [], []⟩ ops).returned.length ∧
    ((CAN_Receive (canTrace ⟨s0, [], []⟩ ops).state (some dst)).1 = false ↔
      (canTrace ⟨s0, [], []⟩ ops).returned = (canTrace ⟨s0, [], []⟩ ops).arrived) ∧
    ((CAN_Receive (canTrace ⟨s0, [], []⟩ ops).state (some dst)).1 = false →
      CAN_Receive (canTrace ⟨s0, [], []⟩ ops).state (some dst)
        = (false, (canTrace ⟨s0, [], []⟩ ops).state, some dst)) := by
  have h0 : CanTraceInv ⟨s0, [], []⟩ := by
    refine ⟨[], rfl, hempty.1, Nat.zero_le _, hempty.2.2, ?_, ?_⟩
    · show s0.rx_head = (s0.rx_tail + 0) % CAN_RX_BUFFER_SIZE
      rw [Nat.add_zero, Nat.mod_eq_of_lt hempty.2.2]
      exact hempty.2.1
    · intro i hi
      exact absurd hi (Nat.not_lt_zero _)
  obtain ⟨q, harr, hq⟩ := canTrace_inv ops ⟨s0, [], []⟩ h0 hcap
  refine ⟨?_, ?_, ?_⟩
  · rw [harr]
    simp
  · rw [harr]
    cases q with
    | nil => simp [CanHolds_receive_nil _ dst hq]
    | cons f q => simp [(CanHolds_receive_cons _ f q dst hq).1]
  · intro hf
    cases q with
    | nil => exact CanHolds_receive_nil _ dst hq
    | cons f q => rw [(CanHolds_receive_cons _ f q dst hq).1] at hf; cases hf

theorem C8_frames_returned_in_arrival_order_witness :
    (canTrace ⟨CanState.init, [], []⟩ sampleCanOps).returned
      = (canTrace ⟨CanState.init, [], []⟩ sampleCanOps).arrived.take
          (canTrace ⟨CanState.init, [], []⟩ sampleCanOps).returned.length ∧
    ((canTrace ⟨CanState.init, [], []⟩ sampleCanOps).returned.map CanFrame.id
      = [0x100, 0x101, 0x102]) ∧
    CAN_Receive (canTrace ⟨CanState.init, [], []⟩ sampleCanOps).state (some CanFrame.zero)
        = (false, (canTrace ⟨CanState.init, [], []⟩ sampleCanOps).state, some CanFrame.zero) :=
  have h := C8_frames_returned_in_arrival_order CanState.init sampleCanOps CanFrame.zero
    ⟨rfl, rfl, by decide⟩ (by decide)
  ⟨h.1, by decide, h.2.2 (by decide)⟩

/-! ## Serial driver: rejected write -/

/-- C9: a write request (with a valid data pointer) whose length exceeds the free outbound
space `256 - tx_count` returns false, leaves the outbound buffer, `tx_head`, `tx_tail`,
`tx_count` (hence the value of `UART_GetTxFreeSpace`), `tx_in_progress` and every register
unchanged, writes no byte to the data register, and latches BUFFER_FULL. -/
theorem C9_oversized_write_rejected (s : UartState) (d : Nat → Nat) (length : Nat)
    (h : UART_TX_BUFFER_SIZE - s.tx_count < length) :
    (UART_WriteData s (some d) length).1 = false ∧
    (UART_WriteData s (some d) length).2.tx_buffer = s.tx_buffer ∧
    (UART_WriteData s (some d) length).2.tx_head = s.tx_head ∧
    (UART_WriteData s (some d) length).2.tx_tail = s.tx_tail ∧
    (UART_WriteData s (some d) length).2.tx_count = s.tx_count ∧
    UART_GetTxFreeSpace (UART_WriteData s (some d) length).2 = UART_GetTxFreeSpace s ∧
    (UART_WriteData s (some d) length).2.tx_in_progress = s.tx_in_progress ∧
    (UART_WriteData s (some d) length).2.hw.tx_line = s.hw.tx_line ∧
    (UART_WriteData s (some d) length).2.hw = s.hw ∧
    (UART_GetLastError (UART_WriteData s (some d) length).2).1 = UartError.BUFFER_FULL := by
  have h0 : length ≠ 0 := by omega
  have h1 : (UART_TX_BUFFER_SIZE : Int) - (s.tx_count : Int) < (length : Int) := by omega
  simp [UART_WriteData, h0, h1, UART_GetTxFreeSpace, UART_GetLastError]

set_option maxRecDepth 100000 in
theorem C9_oversized_write_rejected_witness :
    (UART_WriteData (UART_WriteData UartState.init (some (fun _ => 65)) 250).2
      (some (fun _ => 66)) 8).1 = false ∧
    (UART_GetLastError (UART_WriteData (UART_WriteData UartState.init (some (fun _ => 65)) 250).2
      (some (fun _ => 66)) 8).2).1 = UartError.BUFFER_FULL ∧
    (UART_WriteData (UART_WriteData UartState.init (some (fun _ => 65)) 250).2
      (some (fun _ => 66)) 8).2.tx_count = 249 :=
  have h := C9_oversized_write_rejected
    (UART_WriteData UartState.init (some (fun _ => 65)) 250).2 (fun _ => 66) 8 (by decide)
  ⟨h.1, h.2.2.2.2.2.2.2.2.2, h.2.2.2.2.1⟩

/-! ## Error latches -/

theorem CAN_IRQHandler_flags_last_error (s : CanState)
    (hovr : s.hw.RF0R &&& CAN_RF0R_FOVR0 = 0)
    (herr : s.hw.MSR &&& CAN_MSR_ERRI ≠ 0 →
      s.hw.ESR &&& CAN_ESR_BOFF = 0 ∧ s.hw.ESR &&& CAN_ESR_EPVF = 0 ∧
        s.hw.ESR &&& CAN_ESR_EWGF = 0) :
    (CAN_IRQHandler_flags s).last_error = s.last_error := by
  unfold CAN_IRQHandler_flags
  simp only [hovr, ne_eq, not_true_eq_false, if_false]
  by_cases h : s.hw.MSR &&& CAN_MSR_ERRI = 0
  · simp [h]
  · obtain ⟨h1, h2, h3⟩ := herr h
    simp [h, h1, h2, h3]

theorem CanOp_apply_last_error (s : CanState) (op : CanOp) (h : ¬ op.latches s) :
    (op.apply s).last_error = s.last_error := by
  cases op with
  | irq hw =>
    simp only [CanOp.latches, not_or, not_and, ne_eq, not_not] at h
    obtain ⟨hfull, hovr, herr⟩ := h
    simp only [CanOp.apply, CAN_IRQHandler]
    by_cases hp : hw.RF0R &&& CAN_RF0R_FMP0 = 0
    · simp only [hp, ne_eq, not_true_eq_false, if_false]
      exact CAN_IRQHandler_flags_last_error _ hovr herr
    · have hlt : ¬ CAN_RX_BUFFER_SIZE ≤ s.rx_count := hfull hp
      simp only [hp, ne_eq, not_false_eq_true, if_true, hlt, if_false]
      rw [CAN_IRQHandler_flags_last_error]
      · rfl
      · show (hw.RF0R ||| CAN_RF0R_RFOM0) &&& CAN_RF0R_FOVR0 = 0
        rw [Nat.and_distrib_right, hovr]; decide
      · exact herr
  | receive frame =>
    cases frame with
    | none => rfl
    | some old =>
      simp only [CanOp.apply, CAN_Receive]
      split <;> rfl
  | getRxCount => rfl
  | getLastError => rfl

theorem canRun_last_error (ops : List CanOp) (s : CanState) (h : CanQuiet s ops) :
    (canRun s ops).last_error = s.last_error := by
  induction ops generalizing s with
  | nil => rfl
  | cons op ops ih =>
    obtain ⟨h1, h2⟩ := h
    show (canRun (op.apply s) ops).last_error = s.last_error
    rw [ih _ h2, CanOp_apply_last_error s op h1]

theorem UART_WriteData_copy_last_error (d : Nat → Nat) (l : List Nat) (s : UartState) :
    (l.foldl (UART_WriteData_copy d) s).last_error = s.last_error := by
  induction l generalizing s with
  | nil => rfl
  | cons i l ih => rw [List.foldl_cons, ih]; rfl

theorem UART_StartTransmission_last_error (s : UartState) :
    (UART_StartTransmission s).last_error = s.last_error := by
  unfold UART_StartTransmission
  split <;> rfl

theorem UART_Read_copy_last_error (l : List Nat) (p : UartState × (Nat → Nat)) :
    (l.foldl UART_Read_copy p).1.last_error = p.1.last_error := by
  induction l generalizing p with
  | nil => rfl
  | cons i l ih => rw [List.foldl_cons, ih]; rfl

theorem UART_WriteData_last_error (s : UartState) (d : Nat → Nat) (length : Nat)
    (h : length ≠ 0 → ¬ (UART_TX_BUFFER_SIZE : Int) - (s.tx_count : Int) < (length : Int)) :
    (UART_WriteData s (some d) length).2.last_error = s.last_error := by
  simp only [UART_WriteData]
  by_cases h0 : length = 0
  · simp [h0]
  · simp only [h0, if_false, h h0]
    split
    · rw [UART_StartTransmission_last_error, UART_WriteData_copy_last_error]
    · rw [UART_WriteData_copy_last_error]

theorem UART_Read_last_error (s : UartState) (data : Option (Nat → Nat))
    (length : Option Nat) : (UART_Read s data length).2.1.last_error = s.last_error := by
  unfold UART_Read
  split
  · split
    · rfl
    · exact UART_Read_copy_last_error _ _
  · rfl

theorem UartOp_apply_last_error (s : UartState) (op : UartOp) (h : ¬ op.latches s) :
    (op.apply s).last_error = s.last_error := by
  cases op with
  | irq sr dr =>
    simp only [UartOp.latches, not_or, not_and, ne_eq, not_not] at h
    obtain ⟨hrx, hore, hfe, hpe⟩ := h
    simp only [UartOp.apply, UART_IRQHandler, hore, hfe, hpe, ne_eq, not_true_eq_false,
      if_false]
    by_cases hr : sr &&& USART_SR_RXNE = 0
    · simp only [hr, not_true_eq_false, if_false]
      split_ifs <;> rfl
    · have := hrx hr
      simp only [hr, not_false_eq_true, if_true, this]
      split_ifs <;> rfl
  | writeData data length =>
    cases data with
    | none => rfl
    | some d =>
      simp only [UartOp.latches, not_and, ne_eq] at h
      exact UART_WriteData_last_error s d length h
  | write str =>
    cases str with
    | none => rfl
    | some cs =>
      simp only [UartOp.latches, not_and, ne_eq] at h
      exact UART_WriteData_last_error s _ _ h
  | read data length => exact UART_Read_last_error s data length
  | getTxFreeSpace => rfl
  | getRxCount => rfl
  | getLastError => rfl

theorem uartRun_last_error (ops : List UartOp) (s : UartState) (h : UartQuiet s ops) :
    (uartRun s ops).last_error = s.last_error := by
  induction ops generalizing s with
  | nil => rfl
  | cons op ops ih =>
    obtain ⟨h1, h2⟩ := h
    show (uartRun (op.apply s) ops).last_error = s.last_error
    rw [ih _ h2, UartOp_apply_last_error s op h1]

/-- C10: for both drivers, the error getter returns the latched value without modifying the
driver state, so a second call returns the same value as the first whenever no operation in
between is a fault-latching event (or a clear); and after `CAN_ClearError` /
`UART_ClearError` the getter returns NONE, and keeps returning NONE after any sequence of
operations none of which is a fault-latching event. -/
theorem C10_error_latch_read_and_clear :
    (∀ (s : CanState) (ops : List CanOp), CanQuiet (CAN_GetLastError s).2 ops →
      (CAN_GetLastError s).2 = s ∧
      (CAN_GetLastError (canRun (CAN_GetLastError s).2 ops)).1 = (CAN_GetLastError s).1 ∧
      (CAN_GetLastError (canRun (CAN_GetLastError s).2 ops)).2.last_error = s.last_error) ∧
    (∀ (s : CanState) (ops : List CanOp), CanQuiet (CAN_ClearError s) ops →
      (CAN_GetLastError (canRun (CAN_ClearError s) ops)).1 = CanError.NONE) ∧
    (∀ (s : UartState) (ops : List UartOp), UartQuiet (UART_GetLastError s).2 ops →
      (UART_GetLastError s).2 = s ∧
      (UART_GetLastError (uartRun (UART_GetLastError s).2 ops)).1 = (UART_GetLastError s).1 ∧
      (UART_GetLastError (uartRun (UART_GetLastError s).2 ops)).2.last_error = s.last_error) ∧
    (∀ (s : UartState) (ops : List UartOp), UartQuiet (UART_ClearError s) ops →
      (UART_GetLastError (uartRun (UART_ClearError s) ops)).1 = UartError.NONE) := by
  refine ⟨?_, ?_, ?_, ?_⟩
  · intro s ops h
    exact ⟨rfl, canRun_last_error ops s h, canRun_last_error ops s h⟩
  · intro s ops h
    exact canRun_last_error ops _ h
  · intro s ops h
    exact ⟨rfl, uartRun_last_error ops s h, uartRun_last_error ops s h⟩
  · intro s ops h
    exact uartRun_last_error ops _ h

theorem C10_error_latch_read_and_clear_witness :
    (CAN_GetLastError (canRun (CAN_ClearError
      (CAN_IRQHandler { CanState.init with rx_count := 16, hw := pendingFrame 0x100 8 0 0 5 }))
      [CanOp.receive (some CanFrame.zero), CanOp.irq (pendingFrame 0x101 8 0 0 6)])).1
      = CanError.NONE ∧
    (UART_GetLastError (uartRun (UART_ClearError
      (UART_IRQHandler { UartState.init with hw := ⟨USART_SR_FE, 0, 0, []⟩ }))
      [UartOp.write (some "RPM,2000\r\n".toList), UartOp.irq USART_SR_TXE 0])).1
      = UartError.NONE :=
  ⟨C10_error_latch_read_and_clear.2.1 _ _ (by decide),
   C10_error_latch_read_and_clear.2.2.2 _ _ (by decide)⟩

/-! ## Serial interrupt handler: decomposition into its blocks -/

theorem UART_IRQHandler_blocks (s : UartState) :
    UART_IRQHandler s
      = UART_IRQHandler_status s.hw.SR (UART_IRQHandler_tx s.hw.SR
          (UART_IRQHandler_rx s.hw.SR s)) := by
  rfl

/-! ## Serial driver: outbound path -/

theorem UartTxHolds_copy (d : Nat → Nat) (s : UartState) (q : List Nat) (i : Nat)
    (h : UartTxHolds s q) (hlt : q.length < UART_TX_BUFFER_SIZE) :
    UartTxHolds (UART_WriteData_copy d s i) (q ++ [d i]) := by
  unfold UartTxHolds at h ⊢
  simp only [UART_TX_BUFFER_SIZE] at h hlt ⊢
  obtain ⟨hc, hle, ht, hh, hq⟩ := h
  refine ⟨?_, ?_, ?_, ?_, ?_⟩
  · simp only [UART_WriteData_copy, u16, List.length_append, List.length_singleton]
    omega
  · simp only [List.length_append, List.length_singleton]
    omega
  · exact ht
  · simp only [UART_WriteData_copy, UART_TX_BUFFER_SIZE, List.length_append,
      List.length_singleton]
    omega
  · intro j hj
    simp only [List.length_append, List.length_singleton] at hj
    simp only [UART_WriteData_copy]
    by_cases hjl : j < q.length
    · rw [List.getElem?_append_left hjl, hq j hjl, Function.update_noteq (by omega)]
    · have hje : j = q.length := by omega
      subst hje
      rw [List.getElem?_append_right (le_refl _), ← hh, Function.update_same]
      simp

theorem UART_WriteData_copy_foldl (d : Nat → Nat) (l : List Nat) (s : UartState)
    (q : List Nat) (h : UartTxHolds s q)
    (hlen : q.length + l.length ≤ UART_TX_BUFFER_SIZE) :
    UartTxHolds (l.foldl (UART_WriteData_copy d) s) (q ++ l.map d) ∧
    (l.foldl (UART_WriteData_copy d) s).tx_in_progress = s.tx_in_progress ∧
    (l.foldl (UART_WriteData_copy d) s).hw = s.hw ∧
    (l.foldl (UART_WriteData_copy d) s).rx_head = s.rx_head ∧
    (l.foldl (UART_WriteData_copy d) s).rx_tail = s.rx_tail ∧
    (l.foldl (UART_WriteData_copy d) s).rx_count = s.rx_count := by
  induction l generalizing s q with
  | nil => simpa using h
  | cons i l ih =>
    simp only [List.length_cons] at hlen
    have h1 := UartTxHolds_copy d s q i h (by omega)
    have h2 := ih (UART_WriteData_copy d s i) (q ++ [d i]) h1
      (by simp only [List.length_append, List.length_singleton]; omega)
    simp only [List.foldl_cons, List.map_cons]
    rw [List.append_assoc] at h2
    exact h2

theorem UartTxHolds_head (s : UartState) (b : Nat) (q : List Nat)
    (h : UartTxHolds s (b :: q)) :
    s.tx_buffer s.tx_tail = b ∧ 0 < s.tx_count := by
  obtain ⟨hc, _, ht, _, hq⟩ := h
  have h0 := hq 0 (by simp)
  simp only [List.getElem?_cons_zero, Nat.add_zero, Option.some.injEq] at h0
  rw [Nat.mod_eq_of_lt ht] at h0
  exact ⟨h0.symm, by rw [hc]; simp⟩

/-- Removing the oldest byte: the cursors after `tx_tail = (tx_tail + 1) % 256; tx_count--`
describe the rest of the queue, whatever else changes outside the outbound buffer. -/
theorem UartTxHolds_pop (s t : UartState) (b : Nat) (q : List Nat)
    (h : UartTxHolds s (b :: q)) (hbuf : t.tx_buffer = s.tx_buffer)
    (hhead : t.tx_head = s.tx_head)
    (htail : t.tx_tail = (s.tx_tail + 1) % UART_TX_BUFFER_SIZE)
    (hcount : t.tx_count = s.tx_count - 1) : UartTxHolds t q := by
  unfold UartTxHolds at h ⊢
  rw [hbuf, hhead, htail, hcount]
  simp only [UART_TX_BUFFER_SIZE, List.length_cons] at h ⊢
  obtain ⟨hc, hle, ht, hh, hq⟩ := h
  refine ⟨by omega, by omega, by omega, by omega, ?_⟩
  intro i hi
  have := hq (i + 1) (by omega)
  rw [List.getElem?_cons_succ] at this
  rw [this]
  congr 2
  omega

theorem UartTxHolds_congr (s t : UartState) (q : List Nat) (h : UartTxHolds s q)
    (hbuf : t.tx_buffer = s.tx_buffer) (hhead : t.tx_head = s.tx_head)
    (htail : t.tx_tail = s.tx_tail) (hcount : t.tx_count = s.tx_count) : UartTxHolds t q := by
  unfold UartTxHolds at h ⊢
  rw [hbuf, hhead, htail, hcount]
  exact h

theorem UartTxInv_congr (s t : UartState) (acc : List Nat) (h : UartTxInv s acc)
    (hbuf : t.tx_buffer = s.tx_buffer) (hhead : t.tx_head = s.tx_head)
    (htail : t.tx_tail = s.tx_tail) (hcount : t.tx_count = s.tx_count)
    (hline : t.hw.tx_line = s.hw.tx_line) (hprog : t.tx_in_progress = s.tx_in_progress) :
    UartTxInv t acc := by
  obtain ⟨q, hacc, hq, hidle⟩ := h
  exact ⟨q, by rw [hline]; exact hacc, UartTxHolds_congr s t q hq hbuf hhead htail hcount,
    by rw [hprog]; exact hidle⟩

theorem UART_IRQHandler_rx_tx (sr : Nat) (s : UartState) :
    (UART_IRQHandler_rx sr s).tx_buffer = s.tx_buffer ∧
    (UART_IRQHandler_rx sr s).tx_head = s.tx_head ∧
    (UART_IRQHandler_rx sr s).tx_tail = s.tx_tail ∧
    (UART_IRQHandler_rx sr s).tx_count = s.tx_count ∧
    (UART_IRQHandler_rx sr s).hw = s.hw ∧
    (UART_IRQHandler_rx sr s).tx_in_progress = s.tx_in_progress := by
  unfold UART_IRQHandler_rx
  split_ifs <;> exact ⟨rfl, rfl, rfl, rfl, rfl, rfl⟩

theorem UART_IRQHandler_status_tx (sr : Nat) (s : UartState) :
    (UART_IRQHandler_status sr s).tx_buffer = s.tx_buffer ∧
    (UART_IRQHandler_status sr s).tx_head = s.tx_head ∧
    (UART_IRQHandler_status sr s).tx_tail = s.tx_tail ∧
    (UART_IRQHandler_status sr s).tx_count = s.tx_count ∧
    (UART_IRQHandler_status sr s).hw.tx_line = s.hw.tx_line ∧
    (UART_IRQHandler_status sr s).hw.CR1 = s.hw.CR1 ∧
    (UART_IRQHandler_status sr s).tx_in_progress = s.tx_in_progress ∧
    (UART_IRQHandler_status sr s).rx_head = s.rx_head ∧
    (UART_IRQHandler_status sr s).rx_tail = s.rx_tail ∧
    (UART_IRQHandler_status sr s).rx_count = s.rx_count := by
  unfold UART_IRQHandler_status
  dsimp only
  split_ifs <;> exact ⟨rfl, rfl, rfl, rfl, rfl, rfl, rfl, rfl, rfl, rfl⟩

theorem UartTxInv_irq_tx (sr : Nat) (s : UartState) (acc : List Nat) (h : UartTxInv s acc) :
    UartTxInv (UART_IRQHandler_tx sr s) acc := by
  obtain ⟨q, hacc, hq, hidle⟩ := h
  unfold UART_IRQHandler_tx
  split_ifs with hc hpos
  · cases q with
    | nil =>
      have : s.tx_count = 0 := hq.1
      omega
    | cons b q =>
      have hb := (UartTxHolds_head s b q hq).1
      refine ⟨q, ?_, UartTxHolds_pop s _ b q hq rfl rfl rfl rfl, ?_⟩
      · show acc = (s.hw.tx_line ++ [s.tx_buffer s.tx_tail]) ++ q
        rw [hb, hacc]
        simp
      · intro hp
        have := hidle hp
        cases this
  · have hz : s.tx_count = 0 := by omega
    have hq0 : q = [] := by
      have : q.length = 0 := by rw [← hq.1]; exact hz
      exact List.length_eq_zero.mp this
    exact ⟨q, hacc, UartTxHolds_congr s _ q hq rfl rfl rfl rfl, fun _ => hq0⟩
  · exact ⟨q, hacc, hq, hidle⟩

theorem UartTxInv_irq (s : UartState) (acc : List Nat) (sr dr : Nat) (h : UartTxInv s acc) :
    UartTxInv (UART_IRQHandler { s with hw := { s.hw with SR := sr, DR := dr } }) acc := by
  rw [UART_IRQHandler_blocks]
  have h0 : UartTxInv { s with hw := { s.hw with SR := sr, DR := dr } } acc :=
    UartTxInv_congr s _ acc h rfl rfl rfl rfl rfl rfl
  obtain ⟨r1, r2, r3, r4, r5, r6⟩ :=
    UART_IRQHandler_rx_tx sr { s with hw := { s.hw with SR := sr, DR := dr } }
  have h1 := UartTxInv_congr _ _ acc h0 r1 r2 r3 r4 (congrArg UartRegs.tx_line r5) r6
  have h2 := UartTxInv_irq_tx sr _ acc h1
  obtain ⟨t1, t2, t3, t4, t5, _, t7, _⟩ := UART_IRQHandler_status_tx sr
    (UART_IRQHandler_tx sr (UART_IRQHandler_rx sr { s with hw := { s.hw with SR := sr, DR := dr } }))
  exact UartTxInv_congr _ _ acc h2 t1 t2 t3 t4 t5 t7

theorem payloadBytes_succ (d : Nat → Nat) (n : Nat) :
    payloadBytes d (n + 1) = d 0 :: (List.range n).map (fun i => d (i + 1)) := by
  simp [payloadBytes, List.range_succ_eq_map, List.map_map, Function.comp_def]

theorem or_and_self_ne_zero (x m : Nat) (hm : m ≠ 0) : (x ||| m) &&& m ≠ 0 := by
  have e : (x ||| m) &&& m = m := by
    apply Nat.eq_of_testBit_eq
    intro i
    simp only [Nat.testBit_and, Nat.testBit_or]
    cases x.testBit i <;> cases m.testBit i <;> rfl
  rw [e]
  exact hm

/-- The effect of an accepted `UART_WriteData` request on a state that satisfies the
invariant of the outbound path. -/
theorem UART_WriteData_accepted (s : UartState) (d : Nat → Nat) (n : Nat) (acc : List Nat)
    (h : UartTxInv s acc) (hn : 1 ≤ n) (hfree : n ≤ UART_TX_BUFFER_SIZE - s.tx_count) :
    (UART_WriteData s (some d) n).1 = true ∧
    UartTxInv (UART_WriteData s (some d) n).2 (acc ++ payloadBytes d n) ∧
    (UART_WriteData s (some d) n).2.last_error = s.last_error ∧
    (s.tx_in_progress = false →
      (UART_WriteData s (some d) n).2.hw.tx_line = s.hw.tx_line ++ [d 0] ∧
      (UART_WriteData s (some d) n).2.hw.CR1 &&& USART_CR1_TXEIE ≠ 0 ∧
      (UART_WriteData s (some d) n).2.tx_in_progress = true ∧
      (UART_WriteData s (some d) n).2.tx_count = n - 1) ∧
    (s.tx_in_progress = true →
      (UART_WriteData s (some d) n).2.hw.tx_line = s.hw.tx_line ∧
      (UART_WriteData s (some d) n).2.tx_in_progress = true ∧
      (UART_WriteData s (some d) n).2.tx_count = s.tx_count + n) ∧
    (UART_WriteData s (some d) n).2.rx_head = s.rx_head ∧
    (UART_WriteData s (some d) n).2.rx_tail = s.rx_tail ∧
    (UART_WriteData s (some d) n).2.rx_count = s.rx_count := by
  obtain ⟨q, hacc, hq, hidle⟩ := h
  have hcnt : s.tx_count = q.length := hq.1
  have hn0 : n ≠ 0 := by omega
  have hnr : ¬ ((UART_TX_BUFFER_SIZE : Int) - (s.tx_count : Int) < (n : Int)) := by
    simp only [UART_TX_BUFFER_SIZE] at hfree ⊢
    omega
  have hlen : q.length + (List.range n).length ≤ UART_TX_BUFFER_SIZE := by
    simp only [List.length_range, UART_TX_BUFFER_SIZE] at hfree ⊢
    omega
  obtain ⟨f1, f2, f3, f4, f5, f6⟩ := UART_WriteData_copy_foldl d (List.range n) s q hq hlen
  have fe := UART_WriteData_copy_last_error d (List.range n) s
  have hc1 : ((List.range n).foldl (UART_WriteData_copy d) s).tx_count = q.length + n := by
    rw [f1.1]
    simp
  simp only [UART_WriteData, hn0, if_false, hnr]
  cases hp : s.tx_in_progress with
  | false =>
    have hq0 : q = [] := hidle hp
    subst hq0
    have hp1 : ((List.range n).foldl (UART_WriteData_copy d) s).tx_in_progress = false := by
      rw [f2, hp]
    obtain ⟨m, rfl⟩ : ∃ m, n = m + 1 := ⟨n - 1, by omega⟩
    have f1' : UartTxHolds ((List.range (m + 1)).foldl (UART_WriteData_copy d) s)
        (d 0 :: (List.range m).map (fun i => d (i + 1))) := by
      have := f1
      rw [List.nil_append] at this
      rw [← payloadBytes_succ]
      exact this
    obtain ⟨hb, hpos⟩ := UartTxHolds_head _ _ _ f1'
    have hstart : 0 < ((List.range (m + 1)).foldl (UART_WriteData_copy d) s).tx_count ∧
        ((List.range (m + 1)).foldl (UART_WriteData_copy d) s).tx_in_progress = false :=
      ⟨hpos, hp1⟩
    simp only [hp1, if_true, UART_StartTransmission, hstart, and_self]
    refine ⟨trivial, ?_, fe, ?_, ?_, f4, f5, f6⟩
    · refine ⟨(List.range m).map (fun i => d (i + 1)), ?_,
        UartTxHolds_pop _ _ _ _ f1' rfl rfl rfl rfl, ?_⟩
      · show acc ++ payloadBytes d (m + 1)
          = (((List.range (m + 1)).foldl (UART_WriteData_copy d) s).hw.tx_line ++
            [((List.range (m + 1)).foldl (UART_WriteData_copy d) s).tx_buffer
              ((List.range (m + 1)).foldl (UART_WriteData_copy d) s).tx_tail]) ++ _
        rw [hb, f3, payloadBytes_succ, hacc]
        simp
      · intro hf
        cases hf
    · intro _
      refine ⟨?_, ?_, by first | rfl | trivial, ?_⟩
      · show ((List.range (m + 1)).foldl (UART_WriteData_copy d) s).hw.tx_line ++
          [((List.range (m + 1)).foldl (UART_WriteData_copy d) s).tx_buffer
            ((List.range (m + 1)).foldl (UART_WriteData_copy d) s).tx_tail] = _
        rw [hb, f3]
      · show (((List.range (m + 1)).foldl (UART_WriteData_copy d) s).hw.CR1 |||
          USART_CR1_TXEIE) &&& USART_CR1_TXEIE ≠ 0
        exact or_and_self_ne_zero _ _ (by decide)
      · show ((List.range (m + 1)).foldl (UART_WriteData_copy d) s).tx_count - 1 = m + 1 - 1
        rw [hc1]
        simp
    · intro hf
      cases hf
  | true =>
    have hp1 : ((List.range n).foldl (UART_WriteData_copy d) s).tx_in_progress = true := by
      rw [f2, hp]
    simp only [hp1, Bool.true_eq_false, if_false]
    refine ⟨trivial, ⟨q ++ payloadBytes d n, ?_, f1, ?_⟩, fe, ?_, ?_, f4, f5, f6⟩
    · rw [f3, hacc, List.append_assoc]
    · intro hf
      rw [hp1] at hf
      cases hf
    · intro hf
      cases hf
    · intro _
      exact ⟨by rw [f3], by first | exact hp1 | trivial, by rw [hc1, hcnt]⟩

/-- The invariant of the outbound path across any `UART_WriteData` call, with the payload
appended exactly when the call returns true. -/
theorem UartTxInv_writeData (s : UartState) (d : Nat → Nat) (n : Nat) (acc : List Nat)
    (h : UartTxInv s acc) :
    UartTxInv (UART_WriteData s (some d) n).2
      (acc ++ if (UART_WriteData s (some d) n).1 = true then payloadBytes d n else []) := by
  by_cases hn0 : n = 0
  · simp only [UART_WriteData, hn0, if_true]
    simpa using h
  · by_cases hr : (UART_TX_BUFFER_SIZE : Int) - (s.tx_count : Int) < (n : Int)
    · simp only [UART_WriteData, hn0, if_false, hr, if_true]
      simp only [Bool.false_eq_true, if_false, List.append_nil]
      exact UartTxInv_congr s _ acc h rfl rfl rfl rfl rfl rfl
    · have hfree : n ≤ UART_TX_BUFFER_SIZE - s.tx_count := by
        simp only [UART_TX_BUFFER_SIZE] at hr ⊢
        omega
      obtain ⟨a1, a2, _⟩ := UART_WriteData_accepted s d n acc h (by omega) hfree
      rw [a1, if_pos rfl]
      exact a2

theorem UART_Read_copy_tx (l : List Nat) (p : UartState × (Nat → Nat)) :
    (l.foldl UART_Read_copy p).1.tx_buffer = p.1.tx_buffer ∧
    (l.foldl UART_Read_copy p).1.tx_head = p.1.tx_head ∧
    (l.foldl UART_Read_copy p).1.tx_tail = p.1.tx_tail ∧
    (l.foldl UART_Read_copy p).1.tx_count = p.1.tx_count ∧
    (l.foldl UART_Read_copy p).1.hw = p.1.hw ∧
    (l.foldl UART_Read_copy p).1.tx_in_progress = p.1.tx_in_progress := by
  induction l generalizing p with
  | nil => exact ⟨rfl, rfl, rfl, rfl, rfl, rfl⟩
  | cons i l ih =>
    rw [List.foldl_cons]
    exact ih _

theorem UART_Read_tx (s : UartState) (data : Option (Nat → Nat)) (length : Option Nat) :
    (UART_Read s data length).2.1.tx_buffer = s.tx_buffer ∧
    (UART_Read s data length).2.1.tx_head = s.tx_head ∧
    (UART_Read s data length).2.1.tx_tail = s.tx_tail ∧
    (UART_Read s data length).2.1.tx_count = s.tx_count ∧
    (UART_Read s data length).2.1.hw = s.hw ∧
    (UART_Read s data length).2.1.tx_in_progress = s.tx_in_progress := by
  unfold UART_Read
  split
  · split
    · exact ⟨rfl, rfl, rfl, rfl, rfl, rfl⟩
    · exact UART_Read_copy_tx _ _
  · exact ⟨rfl, rfl, rfl, rfl, rfl, rfl⟩

theorem UartTxInv_apply (s : UartState) (op : UartOp) (acc : List Nat) (h : UartTxInv s acc) :
    UartTxInv (op.apply s) (acc ++ op.accepted s) := by
  cases op with
  | irq sr dr =>
    simp only [UartOp.accepted, List.append_nil]
    exact UartTxInv_irq s acc sr dr h
  | writeData data length =>
    cases data with
    | none =>
      simp only [UartOp.accepted, List.append_nil]
      exact h
    | some d => exact UartTxInv_writeData s d length acc h
  | write str =>
    cases str with
    | none =>
      simp only [UartOp.accepted, List.append_nil]
      exact h
    | some cs => exact UartTxInv_writeData s _ _ acc h
  | read data length =>
    simp only [UartOp.accepted, List.append_nil]
    obtain ⟨r1, r2, r3, r4, r5, r6⟩ := UART_Read_tx s data length
    exact UartTxInv_congr s _ acc h r1 r2 r3 r4 (congrArg UartRegs.tx_line r5) r6
  | getTxFreeSpace =>
    simp only [UartOp.accepted, List.append_nil]
    exact h
  | getRxCount =>
    simp only [UartOp.accepted, List.append_nil]
    exact h
  | getLastError =>
    simp only [UartOp.accepted, List.append_nil]
    exact h

theorem UartTxInv_run (ops : List UartOp) (s : UartState) (acc : List Nat)
    (h : UartTxInv s acc) : UartTxInv (uartRun s ops) (acc ++ uartAccepted s ops) := by
  induction ops generalizing s acc with
  | nil => simpa [uartRun, uartAccepted] using h
  | cons op ops ih =>
    have := ih (op.apply s) (acc ++ op.accepted s) (UartTxInv_apply s op acc h)
    rw [List.append_assoc] at this
    exact this

theorem UartTxInv_init : UartTxInv UartState.init [] := by
  refine ⟨[], rfl, ⟨rfl, by decide, by decide, rfl, ?_⟩, fun _ => rfl⟩
  intro i hi
  exact absurd hi (Nat.not_lt_zero _)

/-! ## Consistency of the three circular buffers -/

theorem CanHolds_apply (s : CanState) (q : List CanFrame) (op : CanOp) (h : CanHolds s q) :
    ∃ q1, CanHolds (op.apply s) q1 := by
  cases op with
  | irq hw =>
    have hq0 : CanHolds { s with hw := hw } q := h
    show ∃ q1, CanHolds (CAN_IRQHandler { s with hw := hw }) q1
    unfold CAN_IRQHandler
    by_cases hp : hw.RF0R &&& CAN_RF0R_FMP0 ≠ 0
    · by_cases hfull : CAN_RX_BUFFER_SIZE ≤ s.rx_count
      · rw [if_pos hp, if_pos hfull]
        exact ⟨q, h⟩
      · rw [if_pos hp, if_neg hfull]
        exact ⟨_, CanHolds_flags _ _ (CanHolds_store _ _ hq0 (Nat.lt_of_not_le hfull))⟩
    · rw [if_neg hp]
      exact ⟨q, CanHolds_flags _ _ hq0⟩
  | receive frame =>
    cases frame with
    | none => exact ⟨q, h⟩
    | some dst =>
      cases q with
      | nil =>
        refine ⟨[], ?_⟩
        show CanHolds (CAN_Receive s (some dst)).2.1 []
        rw [CanHolds_receive_nil s dst h]
        exact h
      | cons f q => exact ⟨q, (CanHolds_receive_cons s f q dst h).2.2⟩
  | getRxCount => exact ⟨q, h⟩
  | getLastError => exact ⟨q, h⟩

theorem CanHolds_run (ops : List CanOp) (s : CanState) (q : List CanFrame)
    (h : CanHolds s q) : ∃ q1, CanHolds (canRun s ops) q1 := by
  induction ops generalizing s q with
  | nil => exact ⟨q, h⟩
  | cons op ops ih =>
    obtain ⟨q1, h1⟩ := CanHolds_apply s q op h
    exact ih (op.apply s) q1 h1

theorem UART_IRQHandler_rx_ring (sr : Nat) (s : UartState)
    (h : RingOk UART_RX_BUFFER_SIZE s.rx_head s.rx_tail s.rx_count) :
    RingOk UART_RX_BUFFER_SIZE (UART_IRQHandler_rx sr s).rx_head
      (UART_IRQHandler_rx sr s).rx_tail (UART_IRQHandler_rx sr s).rx_count := by
  unfold UART_IRQHandler_rx
  split_ifs with h1 h2
  · unfold RingOk at h ⊢
    simp only [UART_RX_BUFFER_SIZE, u16] at h h2 ⊢
    omega
  · exact h
  · exact h

theorem UART_IRQHandler_tx_rx (sr : Nat) (s : UartState) :
    (UART_IRQHandler_tx sr s).rx_head = s.rx_head ∧
    (UART_IRQHandler_tx sr s).rx_tail = s.rx_tail ∧
    (UART_IRQHandler_tx sr s).rx_count = s.rx_count := by
  unfold UART_IRQHandler_tx
  split_ifs <;> exact ⟨rfl, rfl, rfl⟩

theorem UART_WriteData_copy_rx (d : Nat → Nat) (l : List Nat) (s : UartState) :
    (l.foldl (UART_WriteData_copy d) s).rx_head = s.rx_head ∧
    (l.foldl (UART_WriteData_copy d) s).rx_tail = s.rx_tail ∧
    (l.foldl (UART_WriteData_copy d) s).rx_count = s.rx_count := by
  induction l generalizing s with
  | nil => exact ⟨rfl, rfl, rfl⟩
  | cons i l ih =>
    rw [List.foldl_cons]
    exact ih _

theorem UART_WriteData_rx (s : UartState) (data : Option (Nat → Nat)) (n : Nat) :
    (UART_WriteData s data n).2.rx_head = s.rx_head ∧
    (UART_WriteData s data n).2.rx_tail = s.rx_tail ∧
    (UART_WriteData s data n).2.rx_count = s.rx_count := by
  cases data with
  | none => exact ⟨rfl, rfl, rfl⟩
  | some d =>
    simp only [UART_WriteData]
    split_ifs
    · exact ⟨rfl, rfl, rfl⟩
    · exact ⟨rfl, rfl, rfl⟩
    · unfold UART_StartTransmission
      split_ifs <;> exact UART_WriteData_copy_rx d _ s
    · exact UART_WriteData_copy_rx d _ s

theorem UART_Read_copy_ring (l : List Nat) (p : UartState × (Nat → Nat))
    (hlen : l.length ≤ p.1.rx_count)
    (h : RingOk UART_RX_BUFFER_SIZE p.1.rx_head p.1.rx_tail p.1.rx_count) :
    RingOk UART_RX_BUFFER_SIZE (l.foldl UART_Read_copy p).1.rx_head
      (l.foldl UART_Read_copy p).1.rx_tail (l.foldl UART_Read_copy p).1.rx_count := by
  induction l generalizing p with
  | nil => exact h
  | cons i l ih =>
    rw [List.foldl_cons]
    simp only [List.length_cons] at hlen
    apply ih
    · show l.length ≤ p.1.rx_count - 1
      omega
    · unfold RingOk at h ⊢
      simp only [UART_Read_copy, UART_RX_BUFFER_SIZE] at h ⊢
      omega

theorem UART_Read_ring (s : UartState) (data : Option (Nat → Nat)) (length : Option Nat)
    (h : RingOk UART_RX_BUFFER_SIZE s.rx_head s.rx_tail s.rx_count) :
    RingOk UART_RX_BUFFER_SIZE (UART_Read s data length).2.1.rx_head
      (UART_Read s data length).2.1.rx_tail (UART_Read s data length).2.1.rx_count := by
  unfold UART_Read
  split
  · split
    · exact h
    · apply UART_Read_copy_ring _ _ _ h
      simp only [List.length_range]
      split_ifs <;> omega
  · exact h

theorem UartRx_apply (s : UartState) (op : UartOp)
    (h : RingOk UART_RX_BUFFER_SIZE s.rx_head s.rx_tail s.rx_count) :
    RingOk UART_RX_BUFFER_SIZE (op.apply s).rx_head (op.apply s).rx_tail
      (op.apply s).rx_count := by
  cases op with
  | irq sr dr =>
    show RingOk UART_RX_BUFFER_SIZE
      (UART_IRQHandler { s with hw := { s.hw with SR := sr, DR := dr } }).rx_head
      (UART_IRQHandler { s with hw := { s.hw with SR := sr, DR := dr } }).rx_tail
      (UART_IRQHandler { s with hw := { s.hw with SR := sr, DR := dr } }).rx_count
    rw [UART_IRQHandler_blocks]
    obtain ⟨_, _, _, _, _, _, _, t8, t9, t10⟩ := UART_IRQHandler_status_tx sr
      (UART_IRQHandler_tx sr
        (UART_IRQHandler_rx sr { s with hw := { s.hw with SR := sr, DR := dr } }))
    obtain ⟨x1, x2, x3⟩ := UART_IRQHandler_tx_rx sr
      (UART_IRQHandler_rx sr { s with hw := { s.hw with SR := sr, DR := dr } })
    show RingOk UART_RX_BUFFER_SIZE
      (UART_IRQHandler_status sr (UART_IRQHandler_tx sr (UART_IRQHandler_rx sr _))).rx_head
      (UART_IRQHandler_status sr (UART_IRQHandler_tx sr (UART_IRQHandler_rx sr _))).rx_tail
      (UART_IRQHandler_status sr (UART_IRQHandler_tx sr (UART_IRQHandler_rx sr _))).rx_count
    rw [t8, t9, t10, x1, x2, x3]
    exact UART_IRQHandler_rx_ring sr _ h
  | writeData data length =>
    obtain ⟨w1, w2, w3⟩ := UART_WriteData_rx s data length
    show RingOk UART_RX_BUFFER_SIZE (UART_WriteData s data length).2.rx_head
      (UART_WriteData s data length).2.rx_tail (UART_WriteData s data length).2.rx_count
    rw [w1, w2, w3]
    exact h
  | write str =>
    cases str with
    | none => exact h
    | some cs =>
      obtain ⟨w1, w2, w3⟩ := UART_WriteData_rx s
        (some (fun i => (cs.getD i (Char.ofNat 0)).toNat)) (u16 cs.length)
      show RingOk UART_RX_BUFFER_SIZE (UART_WriteData s _ _).2.rx_head
        (UART_WriteData s _ _).2.rx_tail (UART_WriteData s _ _).2.rx_count
      rw [w1, w2, w3]
      exact h
  | read data length => exact UART_Read_ring s data length h
  | getTxFreeSpace => exact h
  | getRxCount => exact h
  | getLastError => exact h

theorem UartRx_run (ops : List UartOp) (s : UartState)
    (h : RingOk UART_RX_BUFFER_SIZE s.rx_head s.rx_tail s.rx_count) :
    RingOk UART_RX_BUFFER_SIZE (uartRun s ops).rx_head (uartRun s ops).rx_tail
      (uartRun s ops).rx_count := by
  induction ops generalizing s with
  | nil => exact h
  | cons op ops ih => exact ih (op.apply s) (UartRx_apply s op h)

/-- C11: in every state reachable from the initial empty state by any sequence of driver
operations, each of the three circular buffers (CAN receive, capacity 16; serial outbound,
capacity 256; serial inbound, capacity 128) has its count at most the capacity, its head and
tail below the capacity, and its head equal to (tail + count) modulo the capacity. -/
theorem C11_ring_buffers_stay_consistent :
    (∀ ops : List CanOp,
      RingOk CAN_RX_BUFFER_SIZE (canRun CanState.init ops).rx_head
        (canRun CanState.init ops).rx_tail (canRun CanState.init ops).rx_count) ∧
    (∀ ops : List UartOp,
      RingOk UART_TX_BUFFER_SIZE (uartRun UartState.init ops).tx_head
        (uartRun UartState.init ops).tx_tail (uartRun UartState.init ops).tx_count ∧
      RingOk UART_RX_BUFFER_SIZE (uartRun UartState.init ops).rx_head
        (uartRun UartState.init ops).rx_tail (uartRun UartState.init ops).rx_count) := by
  constructor
  · intro ops
    have h0 : CanHolds CanState.init [] := by
      refine ⟨rfl, by decide, by decide, rfl, ?_⟩
      intro i hi
      exact absurd hi (Nat.not_lt_zero _)
    obtain ⟨q, hc, hle, ht, hh, _⟩ := CanHolds_run ops CanState.init [] h0
    refine ⟨by rw [hc]; exact hle, ?_, ht, by rw [hc]; exact hh⟩
    rw [hh]
    exact Nat.mod_lt _ (by decide)
  · intro ops
    constructor
    · obtain ⟨q, _, ⟨hc, hle, ht, hh, _⟩, _⟩ :=
        UartTxInv_run ops UartState.init [] UartTxInv_init
      refine ⟨by rw [hc]; exact hle, ?_, ht, by rw [hc]; exact hh⟩
      rw [hh]
      exact Nat.mod_lt _ (by decide)
    · exact UartRx_run ops UartState.init ⟨by decide, by decide, by decide, rfl⟩

/-! ## CAN controller: bounded waits, transmission -/

theorem pollWhile_busy (busy : Nat → Bool) (hb : ∀ k, busy k = true) (t k : Nat) :
    pollWhile busy t k = (0xFFFFFFFF, k + t + 1) := by
  induction t generalizing k with
  | zero => simp [pollWhile, hb]
  | succ t ih =>
    rw [pollWhile]
    simp only [hb, if_true]
    rw [ih]
    congr 1
    omega

theorem pollWhile_ready (busy : Nat → Bool) (t k : Nat) (hr : busy k = false) :
    pollWhile busy t k = (t, k + 1) := by
  cases t <;> simp [pollWhile, hr]

/-- When the mode-acknowledge flag never reads as set, `CAN_Init` returns true (for a core
clock of at least 1 kHz): the first wait ends with the counter wrapped to `0xFFFFFFFF`, which
the test `timeout == 0` does not catch. -/
theorem CAN_Init_inak_never_set (d : CanDevice) (clk : Nat) (msr : Nat → Nat) (b : Nat)
    (hclk : 1000 ≤ clk) (hm : ∀ k, msr k &&& CAN_MSR_INAK = 0) :
    (CAN_Init d clk msr b).1 = true := by
  have h1 : pollWhile (fun k => decide (msr k &&& CAN_MSR_INAK = 0)) (clk / 1000) 0
      = (0xFFFFFFFF, 0 + clk / 1000 + 1) :=
    pollWhile_busy _ (fun k => by simp [hm k]) _ _
  have h2 : pollWhile (fun k => decide (msr k &&& CAN_MSR_INAK ≠ 0)) (clk / 1000)
      (0 + clk / 1000 + 1) = (clk / 1000, 0 + clk / 1000 + 1 + 1) :=
    pollWhile_ready _ _ _ (by simp [hm])
  have h3 : clk / 1000 ≠ 0 := by omega
  simp only [CAN_Init, h1, h2]
  simp [h3]

/-- When the mode-acknowledge flag never reads as clear, `CAN_Init` returns true (for a core
clock of at least 1 kHz): the second wait ends with the counter wrapped to `0xFFFFFFFF`. -/
theorem CAN_Init_inak_never_clear (d : CanDevice) (clk : Nat) (msr : Nat → Nat) (b : Nat)
    (hclk : 1000 ≤ clk) (hm : ∀ k, msr k &&& CAN_MSR_INAK ≠ 0) :
    (CAN_Init d clk msr b).1 = true := by
  have h1 : pollWhile (fun k => decide (msr k &&& CAN_MSR_INAK = 0)) (clk / 1000) 0
      = (clk / 1000, 0 + 1) :=
    pollWhile_ready _ _ _ (by simp [hm])
  have h2 : pollWhile (fun k => decide (msr k &&& CAN_MSR_INAK ≠ 0)) (clk / 1000) (0 + 1)
      = (0xFFFFFFFF, 0 + 1 + clk / 1000 + 1) :=
    pollWhile_busy _ (fun k => by simp [hm k]) _ _
  have h3 : clk / 1000 ≠ 0 := by omega
  simp only [CAN_Init, h1, h2]
  simp [h3]

/-- C12: the bounded waits of `CAN_Init` do not make it fail.  At the system clock of
168 MHz, `CAN_Init` returns true when the mode-acknowledge flag reads as clear at every read
(it never reads as set during the initialisation-mode wait), and also when the flag reads as
set at every read (it never reads as clear during the normal-mode wait). -/
theorem C12_init_returns_true_after_expired_wait :
    (CAN_Init CanDevice.init 168000000 (fun _ => 0) 500000).1 = true ∧
    (CAN_Init CanDevice.init 168000000 (fun _ => CAN_MSR_INAK) 500000).1 = true :=
  ⟨CAN_Init_inak_never_set _ _ _ _ (by decide) (fun _ => by decide),
   CAN_Init_inak_never_clear _ _ _ _ (by decide) (fun _ => by decide)⟩

theorem CAN_WaitForTxMailbox_never_empty (clk : Nat) (tsr : Nat → Nat)
    (h : ∀ k, tsr k &&& CAN_TSR_TME0 = 0 ∧ tsr k &&& CAN_TSR_TME1 = 0 ∧
      tsr k &&& CAN_TSR_TME2 = 0) :
    (CAN_WaitForTxMailbox clk tsr).1 = true := by
  have hb : ∀ k, decide (tsr k &&& (CAN_TSR_TME0 ||| CAN_TSR_TME1 ||| CAN_TSR_TME2) = 0)
      = true := by
    intro k
    obtain ⟨h0, h1, h2⟩ := h k
    simp [Nat.and_or_distrib_left, h0, h1, h2]
  simp only [CAN_WaitForTxMailbox]
  rw [pollWhile_busy _ hb]
  rfl

/-- C13: `CAN_Send` returns false and leaves every register, in particular the registers of
the three transmit mailboxes, unchanged whenever the length code exceeds 8, or the payload
pointer is null, or none of the three mailbox-empty flags reads as set at any read of the
transmit status register during the call. -/
theorem C13_send_rejected_without_mailbox_write (d : CanDevice) (clk : Nat) (tsr : Nat → Nat)
    (id : Nat) (data : Option (Nat → Nat)) (dlc : Nat)
    (h : 8 < dlc ∨ data = none ∨
      ∀ k, tsr k &&& CAN_TSR_TME0 = 0 ∧ tsr k &&& CAN_TSR_TME1 = 0 ∧
        tsr k &&& CAN_TSR_TME2 = 0) :
    (CAN_Send d clk tsr id data dlc).1 = false ∧
    (∀ m, (CAN_Send d clk tsr id data dlc).2.ctrl.sTxMailBox m = d.ctrl.sTxMailBox m) ∧
    (CAN_Send d clk tsr id data dlc).2 = d := by
  have key : CAN_Send d clk tsr id data dlc = (false, d) := by
    cases data with
    | none => rfl
    | some bytes =>
      by_cases hd : 8 < dlc
      · simp [CAN_Send, hd]
      · rcases h with h | h | h
        · exact absurd h hd
        · cases h
        · have hw := CAN_WaitForTxMailbox_never_empty clk tsr h
          simp [CAN_Send, hd, hw, (h _).1, (h _).2.1, (h _).2.2]
  rw [key]
  exact ⟨rfl, fun _ => rfl, rfl⟩

theorem C13_send_rejected_without_mailbox_write_witness :
    (CAN_Send CanDevice.init 168000000 (fun _ => 0) 0x100 (some (fun _ => 0x55)) 8).1 = false ∧
    (∀ m, (CAN_Send CanDevice.init 168000000 (fun _ => 0) 0x100
      (some (fun _ => 0x55)) 8).2.ctrl.sTxMailBox m = CanDevice.init.ctrl.sTxMailBox m) ∧
    (CAN_Send CanDevice.init 168000000 (fun _ => 0) 0x100 (some (fun _ => 0x55)) 8).2
      = CanDevice.init :=
  C13_send_rejected_without_mailbox_write CanDevice.init 168000000 (fun _ => 0) 0x100
    (some (fun _ => 0x55)) 8
    (Or.inr (Or.inr (fun _ => ⟨by simp, by simp, by simp⟩)))

theorem or_shiftLeft_eq_add (a b k : Nat) (ha : a < 2 ^ k) :
    a ||| (b <<< k) = a + b * 2 ^ k := by
  rw [Nat.or_comm, Nat.shiftLeft_eq, Nat.mul_comm b, ← Nat.mul_add_lt_is_or ha, Nat.add_comm]

/-- Four bytes combined by the shift-and-or loop, with the `uint32_t` truncation after every
step, are their little-endian sum. -/
theorem pack_four_bytes (b0 b1 b2 b3 : Nat) (h0 : b0 < 256) (h1 : b1 < 256) (h2 : b2 < 256)
    (h3 : b3 < 256) :
    u32 b0 = b0 ∧
    u32 (b0 ||| (b1 <<< 8)) = b0 + b1 * 256 ∧
    u32 ((b0 + b1 * 256) ||| (b2 <<< 16)) = b0 + b1 * 256 + b2 * 65536 ∧
    u32 ((b0 + b1 * 256 + b2 * 65536) ||| (b3 <<< 24))
      = b0 + b1 * 256 + b2 * 65536 + b3 * 16777216 := by
  have e1 : b0 ||| (b1 <<< 8) = b0 + b1 * 256 :=
    (or_shiftLeft_eq_add b0 b1 8 (by omega)).trans (by norm_num)
  have e2 : (b0 + b1 * 256) ||| (b2 <<< 16) = b0 + b1 * 256 + b2 * 65536 :=
    (or_shiftLeft_eq_add _ b2 16 (by omega)).trans (by norm_num)
  have e3 : (b0 + b1 * 256 + b2 * 65536) ||| (b3 <<< 24)
      = b0 + b1 * 256 + b2 * 65536 + b3 * 16777216 :=
    (or_shiftLeft_eq_add _ b3 24 (by omega)).trans (by norm_num)
  refine ⟨?_, ?_, ?_, ?_⟩
  · exact Nat.mod_eq_of_lt (by omega)
  · rw [e1]
    exact Nat.mod_eq_of_lt (by omega)
  · rw [e2]
    exact Nat.mod_eq_of_lt (by omega)
  · rw [e3]
    exact Nat.mod_eq_of_lt (by omega)

theorem CAN_Send_data_low_eq (bytes : Nat → Nat) (dlc : Nat) (hb : ∀ i, bytes i < 256) :
    CAN_Send_data_low bytes dlc
      = ∑ i in Finset.range (min dlc 4), bytes i * 2 ^ (8 * i) := by
  obtain ⟨p1, p2, p3, p4⟩ := pack_four_bytes (bytes 0) (bytes 1) (bytes 2) (bytes 3)
    (hb 0) (hb 1) (hb 2) (hb 3)
  rcases Nat.lt_or_ge dlc 4 with hlt | hge
  · interval_cases dlc
    · rfl
    · simp only [CAN_Send_data_low, List.foldl]
      norm_num [Finset.sum_range_succ, p1]
    · simp only [CAN_Send_data_low, List.foldl]
      norm_num [Finset.sum_range_succ, p1, p2]
    · simp only [CAN_Send_data_low, List.foldl]
      norm_num [Finset.sum_range_succ, p1, p2, p3]
  · have c0 : 0 < dlc := by omega
    have c1 : 1 < dlc := by omega
    have c2 : 2 < dlc := by omega
    have c3 : 3 < dlc := by omega
    have hmin : min dlc 4 = 4 := by omega
    simp only [CAN_Send_data_low, List.foldl, c0, c1, c2, c3, if_true, hmin]
    norm_num [Finset.sum_range_succ, p1, p2, p3, p4]

theorem CAN_Send_data_high_eq (bytes : Nat → Nat) (dlc : Nat) (hb : ∀ i, bytes i < 256)
    (hdlc : dlc ≤ 8) :
    CAN_Send_data_high bytes dlc
      = ∑ i in Finset.Ico 4 dlc, bytes i * 2 ^ (8 * (i - 4)) := by
  obtain ⟨p1, p2, p3, p4⟩ := pack_four_bytes (bytes 4) (bytes 5) (bytes 6) (bytes 7)
    (hb 4) (hb 5) (hb 6) (hb 7)
  interval_cases dlc <;> simp only [CAN_Send_data_high, List.foldl] <;>
    norm_num [Finset.sum_Ico_eq_sum_range, Finset.sum_range_succ, p1, p2, p3, p4]

/-- C14: when `CAN_Send` succeeds (which requires `dlc <= 8`) on payload bytes `bytes i < 256`,
one of the three mailboxes has its low data register loaded with the little-endian sum of
the bytes `i < min(dlc, 4)`, its high data register with the little-endian sum of the bytes
`4 <= i < dlc`, and its length register with `dlc`; bytes at or beyond `dlc` do not enter
the sums. -/
theorem C14_send_packs_payload_little_endian (d : CanDevice) (clk : Nat) (tsr : Nat → Nat)
    (id : Nat) (bytes : Nat → Nat) (dlc : Nat) (hb : ∀ i, bytes i < 256)
    (hok : (CAN_Send d clk tsr id (some bytes) dlc).1 = true) :
    dlc ≤ 8 ∧
    ∃ m, m < 3 ∧
      ((CAN_Send d clk tsr id (some bytes) dlc).2.ctrl.sTxMailBox m).TDLR
        = ∑ i in Finset.range (min dlc 4), bytes i * 2 ^ (8 * i) ∧
      ((CAN_Send d clk tsr id (some bytes) dlc).2.ctrl.sTxMailBox m).TDHR
        = ∑ i in Finset.Ico 4 dlc, bytes i * 2 ^ (8 * (i - 4)) ∧
      ((CAN_Send d clk tsr id (some bytes) dlc).2.ctrl.sTxMailBox m).TDTR = dlc ∧
      ((CAN_Send d clk tsr id (some bytes) dlc).2.ctrl.sTxMailBox m).TDLR < 2 ^ 32 ∧
      ((CAN_Send d clk tsr id (some bytes) dlc).2.ctrl.sTxMailBox m).TDHR < 2 ^ 32 := by
  have hdlc : dlc ≤ 8 := by
    by_contra hgt
    have h8 : 8 < dlc := by omega
    simp [CAN_Send, h8] at hok
  have hlow := CAN_Send_data_low_eq bytes dlc hb
  have hhigh := CAN_Send_data_high_eq bytes dlc hb hdlc
  have hnd : ¬ 8 < dlc := by omega
  have hload : ∀ m, ((CAN_Send_load d.ctrl m id bytes dlc).sTxMailBox m).TDLR
        = CAN_Send_data_low bytes dlc ∧
      ((CAN_Send_load d.ctrl m id bytes dlc).sTxMailBox m).TDHR
        = CAN_Send_data_high bytes dlc ∧
      ((CAN_Send_load d.ctrl m id bytes dlc).sTxMailBox m).TDTR = dlc := by
    intro m
    simp [CAN_Send_load]
  have hlt : CAN_Send_data_low bytes dlc < 2 ^ 32 ∧ CAN_Send_data_high bytes dlc < 2 ^ 32 := by
    constructor
    · simp only [CAN_Send_data_low, List.foldl, u32]
      split_ifs <;> omega
    · simp only [CAN_Send_data_high, List.foldl, u32]
      split_ifs <;> omega
  refine ⟨hdlc, ?_⟩
  simp only [CAN_Send, hnd, if_false] at hok ⊢
  split_ifs at hok ⊢ with h1 h2 h3 h4
  · exact ⟨0, by omega, by rw [← hlow]; exact (hload 0).1, by rw [← hhigh]; exact (hload 0).2.1,
      (hload 0).2.2, by rw [(hload 0).1]; exact hlt.1, by rw [(hload 0).2.1]; exact hlt.2⟩
  · exact ⟨1, by omega, by rw [← hlow]; exact (hload 1).1, by rw [← hhigh]; exact (hload 1).2.1,
      (hload 1).2.2, by rw [(hload 1).1]; exact hlt.1, by rw [(hload 1).2.1]; exact hlt.2⟩
  · exact ⟨2, by omega, by rw [← hlow]; exact (hload 2).1, by rw [← hhigh]; exact (hload 2).2.1,
      (hload 2).2.2, by rw [(hload 2).1]; exact hlt.1, by rw [(hload 2).2.1]; exact hlt.2⟩

theorem C14_send_packs_payload_little_endian_witness :
    (8 : Nat) ≤ 8 ∧
    ∃ m, m < 3 ∧
      ((CAN_Send CanDevice.init 168000000 (fun _ => CAN_TSR_TME1) 0x100
        (some (fun i => (i + 0x40) % 256)) 8).2.ctrl.sTxMailBox m).TDLR
        = ∑ i in Finset.range (min 8 4), (i + 0x40) % 256 * 2 ^ (8 * i) ∧
      ((CAN_Send CanDevice.init 168000000 (fun _ => CAN_TSR_TME1) 0x100
        (some (fun i => (i + 0x40) % 256)) 8).2.ctrl.sTxMailBox m).TDHR
        = ∑ i in Finset.Ico 4 8, (i + 0x40) % 256 * 2 ^ (8 * (i - 4)) ∧
      ((CAN_Send CanDevice.init 168000000 (fun _ => CAN_TSR_TME1) 0x100
        (some (fun i => (i + 0x40) % 256)) 8).2.ctrl.sTxMailBox m).TDTR = 8 ∧
      ((CAN_Send CanDevice.init 168000000 (fun _ => CAN_TSR_TME1) 0x100
        (some (fun i => (i + 0x40) % 256)) 8).2.ctrl.sTxMailBox m).TDLR < 2 ^ 32 ∧
      ((CAN_Send CanDevice.init 168000000 (fun _ => CAN_TSR_TME1) 0x100
        (some (fun i => (i + 0x40) % 256)) 8).2.ctrl.sTxMailBox m).TDHR < 2 ^ 32 :=
  C14_send_packs_payload_little_endian CanDevice.init 168000000 (fun _ => CAN_TSR_TME1) 0x100
    (fun i => (i + 0x40) % 256) 8 (fun i => Nat.mod_lt _ (by decide)) (by decide)

/-! ## CAN interrupt handler: stored frame, error latch -/

theorem foldl_update_apply (g : Nat → Nat) (dlc : Nat) (l : List Nat) (old : Nat → Nat)
    (i : Nat) :
    (l.foldl (fun d j => if j < dlc then Function.update d j (g j) else d) old) i
      = if i ∈ l ∧ i < dlc then g i else old i := by
  induction l generalizing old with
  | nil => simp
  | cons j l ih =>
    rw [List.foldl_cons, ih]
    by_cases hil : i ∈ l ∧ i < dlc
    · have : i ∈ j :: l ∧ i < dlc := ⟨List.mem_cons_of_mem _ hil.1, hil.2⟩
      rw [if_pos hil, if_pos this]
    · rw [if_neg hil]
      by_cases hij : i = j
      · subst hij
        by_cases hd : i < dlc
        · simp [hd]
        · simp [hd]
      · have hmem : (i ∈ j :: l ∧ i < dlc) ↔ (i ∈ l ∧ i < dlc) := by
          simp [List.mem_cons, hij]
        rw [if_neg (fun h => hil (hmem.mp h))]
        split_ifs
        · exact Function.update_noteq hij _ _
        · rfl

theorem CAN_IRQHandler_payload_eq (old : Nat → Nat) (dlc lo hi i : Nat) (hi8 : i < 8)
    (hid : i < dlc) :
    CAN_IRQHandler_payload old dlc lo hi i
      = if i < 4 then (lo >>> (8 * i)) &&& 0xFF else (hi >>> (8 * (i - 4))) &&& 0xFF := by
  simp only [CAN_IRQHandler_payload]
  rw [foldl_update_apply (fun j => (hi >>> ((j - 4) * 8)) &&& 0xFF),
    foldl_update_apply (fun j => (lo >>> (j * 8)) &&& 0xFF)]
  by_cases h4 : i < 4
  · have hnot : ¬ (i ∈ [4, 5, 6, 7] ∧ i < dlc) := by
      simp only [List.mem_cons, List.mem_singleton, List.not_mem_nil, or_false]
      omega
    have hin : i ∈ [0, 1, 2, 3] ∧ i < dlc := by
      refine ⟨?_, hid⟩
      simp only [List.mem_cons, List.mem_singleton, List.not_mem_nil, or_false]
      omega
    rw [if_neg hnot, if_pos hin, if_pos h4, Nat.mul_comm]
  · have hin : i ∈ [4, 5, 6, 7] ∧ i < dlc := by
      refine ⟨?_, hid⟩
      simp only [List.mem_cons, List.mem_singleton, List.not_mem_nil, or_false]
      omega
    rw [if_pos hin, if_neg h4, Nat.mul_comm]

theorem CAN_IRQHandler_when_room (s : CanState) (hpend : s.hw.RF0R &&& CAN_RF0R_FMP0 ≠ 0)
    (hroom : s.rx_count < CAN_RX_BUFFER_SIZE) :
    CAN_IRQHandler s = CAN_IRQHandler_flags (CAN_IRQHandler_store s) := by
  have hnf : ¬ CAN_RX_BUFFER_SIZE ≤ s.rx_count := by omega
  simp only [CAN_IRQHandler, hpend, ne_eq, not_false_eq_true, if_true, hnf, if_false]

/-- C15: when the handler runs with a frame pending and fewer than 16 frames buffered, the
slot at the old head holds a frame with the identifier, length code, payload bytes
`i < min(dlc, 8)` and tick read from the registers, `rx_count` grows by exactly 1, the head
advances by one slot, the tail stays, every other slot is unchanged, and (when the head is
`rx_count` slots after the tail) so is every slot that held a buffered frame. -/
theorem C15_handler_appends_decoded_frame (s : CanState)
    (hpend : s.hw.RF0R &&& CAN_RF0R_FMP0 ≠ 0) (hroom : s.rx_count < CAN_RX_BUFFER_SIZE) :
    ((CAN_IRQHandler s).rx_buffer s.rx_head).id = (s.hw.RIR >>> 21) &&& 0x7FF ∧
    ((CAN_IRQHandler s).rx_buffer s.rx_head).dlc = s.hw.RDTR &&& 0xF ∧
    (∀ i, i < min (s.hw.RDTR &&& 0xF) 8 →
      ((CAN_IRQHandler s).rx_buffer s.rx_head).data i
        = if i < 4 then (s.hw.RDLR >>> (8 * i)) &&& 0xFF
          else (s.hw.RDHR >>> (8 * (i - 4))) &&& 0xFF) ∧
    ((CAN_IRQHandler s).rx_buffer s.rx_head).timestamp = s.hw.tick ∧
    (CAN_IRQHandler s).rx_count = s.rx_count + 1 ∧
    (CAN_IRQHandler s).rx_head = (s.rx_head + 1) % CAN_RX_BUFFER_SIZE ∧
    (CAN_IRQHandler s).rx_tail = s.rx_tail ∧
    (∀ j, j ≠ s.rx_head → (CAN_IRQHandler s).rx_buffer j = s.rx_buffer j) ∧
    (s.rx_head = (s.rx_tail + s.rx_count) % CAN_RX_BUFFER_SIZE →
      ∀ i, i < s.rx_count →
        (CAN_IRQHandler s).rx_buffer ((s.rx_tail + i) % CAN_RX_BUFFER_SIZE)
          = s.rx_buffer ((s.rx_tail + i) % CAN_RX_BUFFER_SIZE)) := by
  obtain ⟨hb, hh, ht, hc⟩ := CAN_IRQHandler_flags_buffer (CAN_IRQHandler_store s)
  rw [CAN_IRQHandler_when_room s hpend hroom, hb, hh, ht, hc]
  have hdlc : u8 (s.hw.RDTR &&& CAN_RDT0R_DLC) = s.hw.RDTR &&& 0xF := by
    have : s.hw.RDTR &&& 15 ≤ 15 := Nat.and_le_right
    exact Nat.mod_eq_of_lt (by show s.hw.RDTR &&& 15 < 256; omega)
  have hslot : (CAN_IRQHandler_store s).rx_buffer s.rx_head = CAN_IRQHandler_frame s := by
    simp [CAN_IRQHandler_store]
  have hother : ∀ j, j ≠ s.rx_head → (CAN_IRQHandler_store s).rx_buffer j = s.rx_buffer j := by
    intro j hj
    simp [CAN_IRQHandler_store, Function.update_noteq hj]
  rw [hslot]
  refine ⟨rfl, hdlc, ?_, rfl, ?_, rfl, rfl, hother, ?_⟩
  · intro i hi
    have h8 : i < 8 := lt_of_lt_of_le hi (Nat.min_le_right _ _)
    have hd : i < s.hw.RDTR &&& 0xF := lt_of_lt_of_le hi (Nat.min_le_left _ _)
    show CAN_IRQHandler_payload _ (u8 (s.hw.RDTR &&& CAN_RDT0R_DLC)) _ _ i = _
    rw [hdlc]
    exact CAN_IRQHandler_payload_eq _ _ _ _ i h8 hd
  · simp only [CAN_IRQHandler_store, u16, CAN_RX_BUFFER_SIZE] at hroom ⊢
    omega
  · intro hinv i hi
    apply hother
    simp only [CAN_RX_BUFFER_SIZE] at hinv hroom ⊢
    omega

theorem C15_handler_appends_decoded_frame_witness :
    ((CAN_IRQHandler { CanState.init with hw := pendingFrame 0x101 3 0x820000 0 42 }).rx_buffer
      0).id = 0x101 ∧
    ((CAN_IRQHandler { CanState.init with hw := pendingFrame 0x101 3 0x820000 0 42 }).rx_buffer
      0).dlc = 3 ∧
    ((CAN_IRQHandler { CanState.init with hw := pendingFrame 0x101 3 0x820000 0 42 }).rx_buffer
      0).timestamp = 42 ∧
    (CAN_IRQHandler { CanState.init with hw := pendingFrame 0x101 3 0x820000 0 42 }).rx_count
      = 1 :=
  have h := C15_handler_appends_decoded_frame
    { CanState.init with hw := pendingFrame 0x101 3 0x820000 0 42 } (by decide) (by decide)
  ⟨h.1.trans (by decide), h.2.1.trans (by decide), h.2.2.2.1, h.2.2.2.2.1⟩

/-- C16: a stored frame can carry a data length code above 8.  With the length register
reading 15 the handler stores a frame with `dlc = 15` (identifier 0x7FF), and `CAN_Receive`
hands that frame to the caller. -/
theorem C16_stored_dlc_can_exceed_8 :
    ((CAN_IRQHandler { CanState.init with hw := pendingFrame 0x7FF 15 0 0 1 }).rx_buffer 0).dlc
      = 15 ∧
    ((CAN_Receive (CAN_IRQHandler { CanState.init with hw := pendingFrame 0x7FF 15 0 0 1 })
      (some CanFrame.zero)).2.2.map CanFrame.dlc) = some 15 ∧
    ((CAN_Receive (CAN_IRQHandler { CanState.init with hw := pendingFrame 0x7FF 15 0 0 1 })
      (some CanFrame.zero)).2.2.map CanFrame.id) = some 0x7FF := by
  decide

/-- The bounds the handler does enforce on a stored frame: identifier at most 0x7FF and
length code at most 15. -/
theorem CAN_IRQHandler_frame_bounds (s : CanState) :
    (CAN_IRQHandler_frame s).id ≤ 0x7FF ∧ (CAN_IRQHandler_frame s).dlc ≤ 15 := by
  constructor
  · exact Nat.and_le_right
  · show (s.hw.RDTR &&& 15) % 256 ≤ 15
    have : s.hw.RDTR &&& 15 ≤ 15 := Nat.and_le_right
    omega

/-- C17 (counterexample): with 16 frames buffered, a frame pending, the error-interrupt flag
and the bus-off flag set, the latch reads OVERRUN when the handler returns, not BUS_OFF: the
full-buffer guard discards the frame, latches OVERRUN and returns.  So the bus-health
priority does not hold whatever the state of the frame buffer and of the frame-pending
flag. -/
theorem C17_full_buffer_masks_bus_off :
    (CAN_GetLastError (CAN_IRQHandler { fullCanState with
      hw := ⟨1, CAN_MSR_ERRI, CAN_ESR_BOFF, 0x100 <<< 21, 8, 0, 0, 9⟩ })).1
      = CanError.OVERRUN ∧
    fullCanState.rx_count = 16 ∧
    ¬ (∀ s : CanState, s.hw.MSR &&& CAN_MSR_ERRI ≠ 0 → s.hw.ESR &&& CAN_ESR_BOFF ≠ 0 →
        (CAN_IRQHandler s).last_error = CanError.BUS_OFF) := by
  have h1 : (CAN_GetLastError (CAN_IRQHandler { fullCanState with
      hw := ⟨1, CAN_MSR_ERRI, CAN_ESR_BOFF, 0x100 <<< 21, 8, 0, 0, 9⟩ })).1
      = CanError.OVERRUN := by decide
  refine ⟨h1, by decide, ?_⟩
  intro hall
  have h2 := hall { fullCanState with
    hw := ⟨1, CAN_MSR_ERRI, CAN_ESR_BOFF, 0x100 <<< 21, 8, 0, 0, 9⟩ } (by decide) (by decide)
  have h3 : (CAN_IRQHandler { fullCanState with
      hw := ⟨1, CAN_MSR_ERRI, CAN_ESR_BOFF, 0x100 <<< 21, 8, 0, 0, 9⟩ }).last_error
      = CanError.OVERRUN := h1
  rw [h3] at h2
  exact absurd h2 (by decide)

/-- Outside the full-buffer branch the bus-health flags are latched with the stated
priority. -/
theorem CAN_IRQHandler_bus_health (s : CanState)
    (herr : s.hw.MSR &&& CAN_MSR_ERRI ≠ 0)
    (hnot : ¬ (s.hw.RF0R &&& CAN_RF0R_FMP0 ≠ 0 ∧ CAN_RX_BUFFER_SIZE ≤ s.rx_count)) :
    (s.hw.ESR &&& CAN_ESR_BOFF ≠ 0 → (CAN_IRQHandler s).last_error = CanError.BUS_OFF) ∧
    (s.hw.ESR &&& CAN_ESR_BOFF = 0 → s.hw.ESR &&& CAN_ESR_EPVF ≠ 0 →
      (CAN_IRQHandler s).last_error = CanError.ERROR_PASSIVE) ∧
    (s.hw.ESR &&& CAN_ESR_BOFF = 0 → s.hw.ESR &&& CAN_ESR_EPVF = 0 →
      s.hw.ESR &&& CAN_ESR_EWGF ≠ 0 → (CAN_IRQHandler s).last_error = CanError.WARNING) := by
  have hflags : ∀ t : CanState, t.hw.MSR = s.hw.MSR → t.hw.ESR = s.hw.ESR →
      (s.hw.ESR &&& CAN_ESR_BOFF ≠ 0 → (CAN_IRQHandler_flags t).last_error = CanError.BUS_OFF) ∧
      (s.hw.ESR &&& CAN_ESR_BOFF = 0 → s.hw.ESR &&& CAN_ESR_EPVF ≠ 0 →
        (CAN_IRQHandler_flags t).last_error = CanError.ERROR_PASSIVE) ∧
      (s.hw.ESR &&& CAN_ESR_BOFF = 0 → s.hw.ESR &&& CAN_ESR_EPVF = 0 →
        s.hw.ESR &&& CAN_ESR_EWGF ≠ 0 →
        (CAN_IRQHandler_flags t).last_error = CanError.WARNING) := by
    intro t hm he
    unfold CAN_IRQHandler_flags
    dsimp only
    refine ⟨?_, ?_, ?_⟩
    · intro hb
      split_ifs <;> simp_all
    · intro hb hp
      split_ifs <;> simp_all
    · intro hb hp hw
      split_ifs <;> simp_all
  unfold CAN_IRQHandler
  by_cases hp : s.hw.RF0R &&& CAN_RF0R_FMP0 ≠ 0
  · have hroom : ¬ CAN_RX_BUFFER_SIZE ≤ s.rx_count := fun h => hnot ⟨hp, h⟩
    rw [if_pos hp, if_neg hroom]
    exact hflags _ rfl rfl
  · rw [if_neg hp]
    exact hflags _ rfl rfl

/-- C17 (amended): for every invocation of the CAN interrupt handler in which the
error-interrupt flag is set and which does not find a frame pending with 16 frames buffered,
the error latch when the handler returns is BUS_OFF if the bus-off flag is set, otherwise
ERROR_PASSIVE if the error-passive flag is set, otherwise WARNING if the error-warning flag
is set, whatever the FIFO-overrun flag and the previous latch; when a frame is pending with
16 (or more) frames buffered, the latch is OVERRUN whatever the bus-health flags. -/
theorem C17_bus_health_priority_unless_buffer_full (s : CanState)
    (herr : s.hw.MSR &&& CAN_MSR_ERRI ≠ 0) :
    (¬ (s.hw.RF0R &&& CAN_RF0R_FMP0 ≠ 0 ∧ CAN_RX_BUFFER_SIZE ≤ s.rx_count) →
      (s.hw.ESR &&& CAN_ESR_BOFF ≠ 0 → (CAN_IRQHandler s).last_error = CanError.BUS_OFF) ∧
      (s.hw.ESR &&& CAN_ESR_BOFF = 0 → s.hw.ESR &&& CAN_ESR_EPVF ≠ 0 →
        (CAN_IRQHandler s).last_error = CanError.ERROR_PASSIVE) ∧
      (s.hw.ESR &&& CAN_ESR_BOFF = 0 → s.hw.ESR &&& CAN_ESR_EPVF = 0 →
        s.hw.ESR &&& CAN_ESR_EWGF ≠ 0 → (CAN_IRQHandler s).last_error = CanError.WARNING)) ∧
    ((s.hw.RF0R &&& CAN_RF0R_FMP0 ≠ 0 ∧ CAN_RX_BUFFER_SIZE ≤ s.rx_count) →
      (CAN_IRQHandler s).last_error = CanError.OVERRUN) := by
  refine ⟨fun hnot => CAN_IRQHandler_bus_health s herr hnot, ?_⟩
  intro hfull
  unfold CAN_IRQHandler
  rw [if_pos hfull.1, if_pos hfull.2]

theorem C17_bus_health_priority_unless_buffer_full_witness :
    (CAN_IRQHandler { CanState.init with
      hw := ⟨0x11, CAN_MSR_ERRI, 0x07, 0x100 <<< 21, 8, 0, 0, 9⟩ }).last_error
      = CanError.BUS_OFF ∧
    (CAN_IRQHandler { fullCanState with
      hw := ⟨0x11, CAN_MSR_ERRI, 0x07, 0x100 <<< 21, 8, 0, 0, 9⟩ }).last_error
      = CanError.OVERRUN :=
  ⟨((C17_bus_health_priority_unless_buffer_full { CanState.init with
      hw := ⟨0x11, CAN_MSR_ERRI, 0x07, 0x100 <<< 21, 8, 0, 0, 9⟩ } (by decide)).1
      (by decide)).1 (by decide),
   (C17_bus_health_priority_unless_buffer_full { fullCanState with
      hw := ⟨0x11, CAN_MSR_ERRI, 0x07, 0x100 <<< 21, 8, 0, 0, 9⟩ } (by decide)).2
      (by decide)⟩

theorem CAN_IRQHandler_flags_overrun (s : CanState)
    (h : (CAN_IRQHandler_flags s).last_error = CanError.OVERRUN) :
    s.last_error = CanError.OVERRUN ∨ s.hw.RF0R &&& CAN_RF0R_FOVR0 ≠ 0 := by
  unfold CAN_IRQHandler_flags at h
  dsimp only at h
  by_cases hovr : s.hw.RF0R &&& CAN_RF0R_FOVR0 ≠ 0
  · exact Or.inr hovr
  · left
    rw [if_neg hovr] at h
    split_ifs at h <;> exact h

theorem CAN_IRQHandler_overrun (s : CanState)
    (h : (CAN_IRQHandler s).last_error = CanError.OVERRUN) :
    s.last_error = CanError.OVERRUN ∨
    (s.hw.RF0R &&& CAN_RF0R_FMP0 ≠ 0 ∧ CAN_RX_BUFFER_SIZE ≤ s.rx_count) ∨
    s.hw.RF0R &&& CAN_RF0R_FOVR0 ≠ 0 := by
  unfold CAN_IRQHandler at h
  by_cases hp : s.hw.RF0R &&& CAN_RF0R_FMP0 ≠ 0
  · by_cases hfull : CAN_RX_BUFFER_SIZE ≤ s.rx_count
    · exact Or.inr (Or.inl ⟨hp, hfull⟩)
    · rw [if_pos hp, if_neg hfull] at h
      rcases CAN_IRQHandler_flags_overrun _ h with h1 | h1
      · exact Or.inl h1
      · right
        right
        have e : (s.hw.RF0R ||| CAN_RF0R_RFOM0) &&& CAN_RF0R_FOVR0
            = s.hw.RF0R &&& CAN_RF0R_FOVR0 := by
          rw [Nat.and_distrib_right]
          have : CAN_RF0R_RFOM0 &&& CAN_RF0R_FOVR0 = 0 := by decide
          rw [this, Nat.or_zero]
        rw [← e]
        exact h1
  · rw [if_neg hp] at h
    rcases CAN_IRQHandler_flags_overrun _ h with h1 | h1
    · exact Or.inl h1
    · exact Or.inr (Or.inr h1)

theorem CAN_Send_drv (d : CanDevice) (clk : Nat) (tsr : Nat → Nat) (id : Nat)
    (data : Option (Nat → Nat)) (dlc : Nat) :
    (CAN_Send d clk tsr id data dlc).2.drv = d.drv := by
  unfold CAN_Send
  cases data with
  | none => rfl
  | some bytes =>
    dsimp only
    split_ifs <;> rfl

theorem CanDevTrace_step_overrun (r : CanDevTrace) (op : CanDevOp)
    (h : r.dev.drv.last_error = CanError.OVERRUN → r.overrunSinceClear = true) :
    (r.step op).dev.drv.last_error = CanError.OVERRUN →
      (r.step op).overrunSinceClear = true := by
  cases op with
  | irq hw =>
    intro hl
    show (r.overrunSinceClear || (CanDevOp.irq hw).overrunEvent r.dev) = true
    rcases CAN_IRQHandler_overrun { r.dev.drv with hw := hw } hl with h1 | h1 | h1
    · rw [h h1]
      rfl
    · have : (CanDevOp.irq hw).overrunEvent r.dev = true := by
        simp only [CanDevOp.overrunEvent, decide_eq_true_eq]
        exact Or.inl h1
      rw [this, Bool.or_true]
    · have : (CanDevOp.irq hw).overrunEvent r.dev = true := by
        simp only [CanDevOp.overrunEvent, decide_eq_true_eq]
        exact Or.inr h1
      rw [this, Bool.or_true]
  | receive frame =>
    intro hl
    have e : (CAN_Receive r.dev.drv frame).2.1.last_error = r.dev.drv.last_error :=
      CanOp_apply_last_error r.dev.drv (CanOp.receive frame) (fun hf => hf)
    show (r.overrunSinceClear || false) = true
    rw [Bool.or_false]
    exact h (e ▸ hl)
  | send clk tsr id data dlc =>
    intro hl
    show (r.overrunSinceClear || false) = true
    rw [Bool.or_false]
    apply h
    have e := CAN_Send_drv r.dev clk tsr id data dlc
    exact e ▸ hl
  | clearError =>
    intro hl
    cases hl

/-- C18: in every state reachable from power-on by handler invocations and calls of
`CAN_Receive`, `CAN_Send` and `CAN_ClearError`, if the latched error is OVERRUN then, since
the most recent `CAN_ClearError` (or since the start), some handler invocation found a frame
pending with the frame buffer full or found the hardware FIFO-overrun flag set. -/
theorem C18_overrun_latch_implies_overrun_event (ops : List CanDevOp) :
    (canDevTrace ⟨CanDevice.init, false⟩ ops).dev.drv.last_error = CanError.OVERRUN →
      (canDevTrace ⟨CanDevice.init, false⟩ ops).overrunSinceClear = true := by
  have gen : ∀ (ops : List CanDevOp) (r : CanDevTrace),
      (r.dev.drv.last_error = CanError.OVERRUN → r.overrunSinceClear = true) →
      ((canDevTrace r ops).dev.drv.last_error = CanError.OVERRUN →
        (canDevTrace r ops).overrunSinceClear = true) := by
    intro ops
    induction ops with
    | nil => intro r h; exact h
    | cons op ops ih =>
      intro r h
      exact ih (r.step op) (CanDevTrace_step_overrun r op h)
  exact gen ops _ (fun h => by cases h)

theorem C18_overrun_latch_implies_overrun_event_witness :
    (canDevTrace ⟨CanDevice.init, false⟩
      [CanDevOp.irq ⟨CAN_RF0R_FOVR0, 0, 0, 0, 0, 0, 0, 3⟩,
       CanDevOp.receive (some CanFrame.zero)]).overrunSinceClear = true :=
  C18_overrun_latch_implies_overrun_event
    [CanDevOp.irq ⟨CAN_RF0R_FOVR0, 0, 0, 0, 0, 0, 0, 3⟩, CanDevOp.receive (some CanFrame.zero)]
    (by decide)

/-- C19: for a request of `n` bytes with `1 <= n <=` free outbound space, made in a state
reachable from the initial state, `UART_WriteData` returns true and leaves the error latch
unchanged; if no transmission was active, the first byte of the request is the one byte
written to the data register, the transmit-empty interrupt is enabled, `tx_in_progress`
becomes true and `tx_count` ends at `n - 1`; if a transmission was active, nothing is
written to the data register and `tx_count` grows by exactly `n`. -/
theorem C19_accepted_write_starts_or_queues (ops : List UartOp) (s : UartState)
    (hs : s = uartRun UartState.init ops) (d : Nat → Nat) (n : Nat) (hn : 1 ≤ n)
    (hfree : n ≤ UART_GetTxFreeSpace s) :
    (UART_WriteData s (some d) n).1 = true ∧
    (UART_WriteData s (some d) n).2.last_error = s.last_error ∧
    (s.tx_in_progress = false →
      (UART_WriteData s (some d) n).2.hw.tx_line = s.hw.tx_line ++ [d 0] ∧
      (UART_WriteData s (some d) n).2.hw.CR1 &&& USART_CR1_TXEIE ≠ 0 ∧
      (UART_WriteData s (some d) n).2.tx_in_progress = true ∧
      (UART_WriteData s (some d) n).2.tx_count = n - 1) ∧
    (s.tx_in_progress = true →
      (UART_WriteData s (some d) n).2.hw.tx_line = s.hw.tx_line ∧
      (UART_WriteData s (some d) n).2.tx_in_progress = true ∧
      (UART_WriteData s (some d) n).2.tx_count = s.tx_count + n) := by
  have hinv : UartTxInv s ([] ++ uartAccepted UartState.init ops) := by
    rw [hs]
    exact UartTxInv_run ops _ _ UartTxInv_init
  have hle : s.tx_count ≤ UART_TX_BUFFER_SIZE := by
    obtain ⟨q, _, hq, _⟩ := hinv
    rw [hq.1]
    exact hq.2.1
  have hfree' : n ≤ UART_TX_BUFFER_SIZE - s.tx_count := by
    simp only [UART_GetTxFreeSpace, UART_TX_BUFFER_SIZE] at hfree hle ⊢
    omega
  obtain ⟨a1, _, a3, a4, a5, _⟩ := UART_WriteData_accepted s d n _ hinv hn hfree'
  exact ⟨a1, a3, a4, a5⟩

theorem C19_accepted_write_starts_or_queues_witness :
    (UART_WriteData (uartRun UartState.init [UartOp.write (some "RPM,2000\r\n".toList)])
      (some (fun i => 65 + i)) 3).1 = true ∧
    (UART_WriteData (uartRun UartState.init [UartOp.write (some "RPM,2000\r\n".toList)])
      (some (fun i => 65 + i)) 3).2.tx_count = 9 + 3 ∧
    (UART_WriteData (uartRun UartState.init []) (some (fun i => 65 + i)) 3).2.hw.tx_line
      = [65] ∧
    (UART_WriteData (uartRun UartState.init []) (some (fun i => 65 + i)) 3).2.tx_count = 2 :=
  have h1 := C19_accepted_write_starts_or_queues
    [UartOp.write (some "RPM,2000\r\n".toList)] _ rfl (fun i => 65 + i) 3 (by decide)
    (by decide)
  have h2 := C19_accepted_write_starts_or_queues [] _ rfl (fun i => 65 + i) 3 (by decide)
    (by decide)
  ⟨h1.1, (h1.2.2.2 (by decide)).2.2, (h2.2.2.1 (by decide)).1, (h2.2.2.1 (by decide)).2.2.2⟩

/-- C20: after any sequence of serial driver operations from the initial state (write calls
and interrupt-handler invocations in any order), the bytes written to the data register are,
in order, an initial segment of the concatenation in call order of the payloads of the
accepted writes: nothing accepted is skipped, duplicated or reordered, and no byte of a
rejected write appears. -/
theorem C20_transmitted_bytes_follow_accepted_writes (ops : List UartOp) :
    (uartRun UartState.init ops).hw.tx_line
      = (uartAccepted UartState.init ops).take (uartRun UartState.init ops).hw.tx_line.length ∧
    (uartRun UartState.init ops).hw.tx_line.length + (uartRun UartState.init ops).tx_count
      = (uartAccepted UartState.init ops).length := by
  obtain ⟨q, hacc, hq, _⟩ := UartTxInv_run ops UartState.init [] UartTxInv_init
  rw [List.nil_append] at hacc
  rw [hacc, hq.1]
  simp

/-! ## Serial driver: inbound path -/

theorem UartRxHolds_pop (s : UartState) (b : Nat) (q : List Nat) (d : Nat → Nat) (i : Nat)
    (h : UartRxHolds s (b :: q)) :
    UartRxHolds (UART_Read_copy (s, d) i).1 q ∧
    (UART_Read_copy (s, d) i).2 = Function.update d i b := by
  unfold UartRxHolds at h ⊢
  simp only [UART_RX_BUFFER_SIZE, List.length_cons] at h ⊢
  obtain ⟨hc, hle, ht, hh, hq⟩ := h
  have h0 := hq 0 (by omega)
  simp only [List.getElem?_cons_zero, Nat.add_zero, Option.some.injEq] at h0
  rw [Nat.mod_eq_of_lt ht] at h0
  refine ⟨⟨?_, ?_, ?_, ?_, ?_⟩, ?_⟩
  · show s.rx_count - 1 = q.length
    omega
  · omega
  · show (s.rx_tail + 1) % 128 < 128
    omega
  · show s.rx_head = ((s.rx_tail + 1) % 128 + q.length) % 128
    omega
  · intro j hj
    show q[j]? = some (s.rx_buffer (((s.rx_tail + 1) % 128 + j) % 128))
    have := hq (j + 1) (by omega)
    rw [List.getElem?_cons_succ] at this
    rw [this]
    congr 2
    omega
  · show Function.update d i (s.rx_buffer s.rx_tail) = Function.update d i b
    rw [← h0]

/-- The copy loop of `UART_Read` over the indices `k, k+1, ..., k+n-1`: it removes the `n`
oldest bytes and stores them at these indices of the caller's buffer. -/
theorem UART_Read_copy_foldl (n : Nat) (k : Nat) (s : UartState) (q : List Nat)
    (d : Nat → Nat) (h : UartRxHolds s q) (hn : n ≤ q.length) :
    UartRxHolds ((List.range' k n).foldl UART_Read_copy (s, d)).1 (q.drop n) ∧
    (∀ i, i < n → ((List.range' k n).foldl UART_Read_copy (s, d)).2 (k + i) = q.getD i 0) ∧
    (∀ j, (j < k ∨ k + n ≤ j) → ((List.range' k n).foldl UART_Read_copy (s, d)).2 j = d j) := by
  induction n generalizing k s q d with
  | zero =>
    refine ⟨by simpa using h, ?_, ?_⟩
    · intro i hi
      omega
    · intro j _
      rfl
  | succ n ih =>
    cases q with
    | nil => simp at hn
    | cons b q =>
      simp only [List.length_cons] at hn
      obtain ⟨h1, h2⟩ := UartRxHolds_pop s b q d k h
      have hstep : UART_Read_copy (s, d) k
          = ((UART_Read_copy (s, d) k).1, Function.update d k b) := by
        rw [← h2]
      obtain ⟨a1, a2, a3⟩ := ih (k + 1) (UART_Read_copy (s, d) k).1 q (Function.update d k b)
        h1 (by omega)
      simp only [List.range', List.foldl_cons, List.drop_succ_cons]
      rw [hstep]
      refine ⟨a1, ?_, ?_⟩
      · intro i hi
        cases i with
        | zero =>
          rw [a3 (k + 0) (Or.inl (by omega))]
          simp
        | succ i =>
          have := a2 i (by omega)
          rw [show k + (i + 1) = k + 1 + i by omega, this]
          simp
      · intro j hj
        rw [a3 j (by omega)]
        exact Function.update_noteq (by omega) _ _

/-- C21: let the inbound buffer hold the bytes `q` (oldest first) and let `UART_Read` be
called with valid pointers and `*length = m`.  If `q` is empty the call returns false,
reports length 0 and changes neither the driver state nor the caller's buffer.  Otherwise it
returns true, reports length `min m k` with `k` the number of buffered bytes, stores the
`min m k` oldest bytes in arrival order at the start of the caller's buffer (the rest of
that buffer is unchanged), decreases `rx_count` by `min m k`, and the bytes left in the
buffer are the remaining ones in their original order. -/
theorem C21_read_pops_oldest_bytes (s : UartState) (q : List Nat) (d : Nat → Nat) (m : Nat)
    (h : UartRxHolds s q) :
    (q = [] → UART_Read s (some d) (some m) = (false, s, some d, some 0)) ∧
    (q ≠ [] →
      (UART_Read s (some d) (some m)).1 = true ∧
      (UART_Read s (some d) (some m)).2.2.2 = some (min m q.length) ∧
      (∃ out, (UART_Read s (some d) (some m)).2.2.1 = some out ∧
        (∀ i, i < min m q.length → out i = q.getD i 0) ∧
        (∀ j, min m q.length ≤ j → out j = d j)) ∧
      (UART_Read s (some d) (some m)).2.1.rx_count = s.rx_count - min m q.length ∧
      UartRxHolds (UART_Read s (some d) (some m)).2.1 (q.drop (min m q.length))) := by
  have hc : s.rx_count = q.length := h.1
  constructor
  · intro hq
    have : s.rx_count = 0 := by rw [hc, hq]; rfl
    simp [UART_Read, this]
  · intro hq
    have hne : s.rx_count ≠ 0 := by
      rw [hc]
      intro h0
      exact hq (List.length_eq_zero.mp h0)
    have hmin : (if m < s.rx_count then m else s.rx_count) = min m q.length := by
      rw [hc]
      split_ifs <;> omega
    obtain ⟨a1, a2, a3⟩ := UART_Read_copy_foldl (min m q.length) 0 s q d h
      (Nat.min_le_right _ _)
    simp only [UART_Read, hne, if_false, hmin, List.range_eq_range']
    refine ⟨trivial, trivial, ⟨_, rfl, ?_, ?_⟩, ?_, a1⟩
    · intro i hi
      have := a2 i hi
      rw [Nat.zero_add] at this
      exact this
    · intro j hj
      exact a3 j (Or.inr (by omega))
    · rw [a1.1, hc, List.length_drop]

theorem C21_read_pops_oldest_bytes_witness :
    (UART_Read (uartRun UartState.init
        [UartOp.irq USART_SR_RXNE 0x41, UartOp.irq USART_SR_RXNE 0x42,
         UartOp.irq USART_SR_RXNE 0x43]) (some (fun _ => 0)) (some 2)).1 = true ∧
    (UART_Read (uartRun UartState.init
        [UartOp.irq USART_SR_RXNE 0x41, UartOp.irq USART_SR_RXNE 0x42,
         UartOp.irq USART_SR_RXNE 0x43]) (some (fun _ => 0)) (some 2)).2.2.2
      = some (min 2 [0x41, 0x42, 0x43].length) ∧
    UartRxHolds (UART_Read (uartRun UartState.init
        [UartOp.irq USART_SR_RXNE 0x41, UartOp.irq USART_SR_RXNE 0x42,
         UartOp.irq USART_SR_RXNE 0x43]) (some (fun _ => 0)) (some 2)).2.1
      ([0x41, 0x42, 0x43].drop (min 2 [0x41, 0x42, 0x43].length)) :=
  have h := (C21_read_pops_oldest_bytes (uartRun UartState.init
        [UartOp.irq USART_SR_RXNE 0x41, UartOp.irq USART_SR_RXNE 0x42,
         UartOp.irq USART_SR_RXNE 0x43]) [0x41, 0x42, 0x43] (fun _ => 0) 2
      (by unfold UartRxHolds; decide)).2 (by decide)
  ⟨h.1, h.2.1, h.2.2.2.2⟩

theorem UART_IRQHandler_tx_keeps (sr : Nat) (s : UartState) :
    (UART_IRQHandler_tx sr s).rx_buffer = s.rx_buffer ∧
    (UART_IRQHandler_tx sr s).last_error = s.last_error := by
  unfold UART_IRQHandler_tx
  split_ifs <;> exact ⟨rfl, rfl⟩

theorem UART_IRQHandler_status_rx_buffer (sr : Nat) (s : UartState) :
    (UART_IRQHandler_status sr s).rx_buffer = s.rx_buffer := by
  unfold UART_IRQHandler_status
  dsimp only
  split_ifs <;> rfl

theorem UART_IRQHandler_status_overrun (sr : Nat) (s : UartState)
    (hfe : sr &&& USART_SR_FE = 0) (hpe : sr &&& USART_SR_PE = 0)
    (h : s.last_error = UartError.OVERRUN) :
    (UART_IRQHandler_status sr s).last_error = UartError.OVERRUN := by
  unfold UART_IRQHandler_status
  dsimp only
  simp only [hfe, hpe, ne_eq, not_true_eq_false, if_false]
  split_ifs <;> first | exact h | rfl

/-- The receive fields after the whole handler are those after its receive block. -/
theorem UART_IRQHandler_rx_fields (s : UartState) :
    (UART_IRQHandler s).rx_buffer = (UART_IRQHandler_rx s.hw.SR s).rx_buffer ∧
    (UART_IRQHandler s).rx_head = (UART_IRQHandler_rx s.hw.SR s).rx_head ∧
    (UART_IRQHandler s).rx_tail = (UART_IRQHandler_rx s.hw.SR s).rx_tail ∧
    (UART_IRQHandler s).rx_count = (UART_IRQHandler_rx s.hw.SR s).rx_count := by
  rw [UART_IRQHandler_blocks]
  obtain ⟨_, _, _, _, _, _, _, t8, t9, t10⟩ := UART_IRQHandler_status_tx s.hw.SR
    (UART_IRQHandler_tx s.hw.SR (UART_IRQHandler_rx s.hw.SR s))
  obtain ⟨x1, x2, x3⟩ := UART_IRQHandler_tx_rx s.hw.SR (UART_IRQHandler_rx s.hw.SR s)
  have b1 := UART_IRQHandler_status_rx_buffer s.hw.SR
    (UART_IRQHandler_tx s.hw.SR (UART_IRQHandler_rx s.hw.SR s))
  have b2 := (UART_IRQHandler_tx_keeps s.hw.SR (UART_IRQHandler_rx s.hw.SR s)).1
  exact ⟨b1.trans b2, t8.trans x1, t9.trans x2, t10.trans x3⟩

theorem UartRxHolds_congr (s t : UartState) (q : List Nat) (h : UartRxHolds s q)
    (hbuf : t.rx_buffer = s.rx_buffer) (hhead : t.rx_head = s.rx_head)
    (htail : t.rx_tail = s.rx_tail) (hcount : t.rx_count = s.rx_count) : UartRxHolds t q := by
  unfold UartRxHolds at h ⊢
  rw [hbuf, hhead, htail, hcount]
  exact h

theorem UartRxHolds_push (s : UartState) (q : List Nat) (b : Nat) (h : UartRxHolds s q)
    (hlt : s.rx_count < UART_RX_BUFFER_SIZE) (t : UartState)
    (hbuf : t.rx_buffer = Function.update s.rx_buffer s.rx_head b)
    (hhead : t.rx_head = (s.rx_head + 1) % UART_RX_BUFFER_SIZE)
    (htail : t.rx_tail = s.rx_tail) (hcount : t.rx_count = s.rx_count + 1) :
    UartRxHolds t (q ++ [b]) := by
  unfold UartRxHolds at h ⊢
  rw [hbuf, hhead, htail, hcount]
  simp only [UART_RX_BUFFER_SIZE] at h hlt ⊢
  obtain ⟨hc, hle, ht, hh, hq⟩ := h
  refine ⟨?_, ?_, ht, ?_, ?_⟩
  · simp only [List.length_append, List.length_singleton]
    omega
  · simp only [List.length_append, List.length_singleton]
    omega
  · simp only [List.length_append, List.length_singleton]
    omega
  · intro j hj
    simp only [List.length_append, List.length_singleton] at hj
    by_cases hjl : j < q.length
    · rw [List.getElem?_append_left hjl, hq j hjl, Function.update_noteq (by omega)]
    · have hje : j = q.length := by omega
      subst hje
      rw [List.getElem?_append_right (le_refl _), ← hh, Function.update_same]
      simp

/-- C22: when the serial handler runs with receive-not-empty set and fewer than 128 bytes
buffered, the received byte (the low 8 bits of the data register) is stored at the head
slot, the head advances, the tail stays and `rx_count` grows by 1, so the buffered bytes are
the old ones followed by the new byte; with 128 bytes buffered the buffer contents,
`rx_head`, `rx_tail` and `rx_count` are unchanged (the byte is lost) and, when neither the
framing nor the parity flag is set in the status word, the error latch reads OVERRUN when
the handler returns. -/
theorem C22_receive_interrupt_appends_or_overruns (s : UartState)
    (hrx : s.hw.SR &&& USART_SR_RXNE ≠ 0) :
    (s.rx_count < UART_RX_BUFFER_SIZE →
      (UART_IRQHandler s).rx_buffer = Function.update s.rx_buffer s.rx_head (u8 s.hw.DR) ∧
      (UART_IRQHandler s).rx_head = (s.rx_head + 1) % UART_RX_BUFFER_SIZE ∧
      (UART_IRQHandler s).rx_tail = s.rx_tail ∧
      (UART_IRQHandler s).rx_count = s.rx_count + 1 ∧
      ∀ q, UartRxHolds s q → UartRxHolds (UART_IRQHandler s) (q ++ [u8 s.hw.DR])) ∧
    (s.rx_count = UART_RX_BUFFER_SIZE →
      (UART_IRQHandler s).rx_buffer = s.rx_buffer ∧
      (UART_IRQHandler s).rx_head = s.rx_head ∧
      (UART_IRQHandler s).rx_tail = s.rx_tail ∧
      (UART_IRQHandler s).rx_count = s.rx_count ∧
      (∀ q, UartRxHolds s q → UartRxHolds (UART_IRQHandler s) q) ∧
      (s.hw.SR &&& USART_SR_FE = 0 → s.hw.SR &&& USART_SR_PE = 0 →
        (UART_GetLastError (UART_IRQHandler s)).1 = UartError.OVERRUN)) := by
  obtain ⟨e1, e2, e3, e4⟩ := UART_IRQHandler_rx_fields s
  constructor
  · intro hlt
    have hcnt : u16 (s.rx_count + 1) = s.rx_count + 1 := by
      simp only [UART_RX_BUFFER_SIZE] at hlt
      simp only [u16]
      omega
    have r : UART_IRQHandler_rx s.hw.SR s =
        { s with
          rx_buffer := Function.update s.rx_buffer s.rx_head (u8 s.hw.DR)
          rx_head := (s.rx_head + 1) % UART_RX_BUFFER_SIZE
          rx_count := u16 (s.rx_count + 1) } := by
      simp only [UART_IRQHandler_rx, hrx, hlt, ne_eq, not_false_eq_true, if_true]
    rw [r] at e1 e2 e3 e4
    have e4' : (UART_IRQHandler s).rx_count = s.rx_count + 1 := e4.trans hcnt
    exact ⟨e1, e2, e3, e4', fun q hq => UartRxHolds_push s q _ hq hlt _ e1 e2 e3 e4'⟩
  · intro hfull
    have hnlt : ¬ s.rx_count < UART_RX_BUFFER_SIZE := by omega
    have r : UART_IRQHandler_rx s.hw.SR s = { s with last_error := UartError.OVERRUN } := by
      simp only [UART_IRQHandler_rx, hrx, hnlt, ne_eq, not_false_eq_true, if_true, if_false]
    rw [r] at e1 e2 e3 e4
    refine ⟨e1, e2, e3, e4, fun q hq => UartRxHolds_congr s _ q hq e1 e2 e3 e4, ?_⟩
    intro hfe hpe
    show (UART_IRQHandler s).last_error = UartError.OVERRUN
    rw [UART_IRQHandler_blocks]
    apply UART_IRQHandler_status_overrun _ _ hfe hpe
    rw [(UART_IRQHandler_tx_keeps _ _).2, r]

theorem C22_receive_interrupt_appends_or_overruns_witness :
    (UART_IRQHandler { UartState.init with hw := ⟨USART_SR_RXNE, 0x141, 0, []⟩ }).rx_buffer
      = Function.update UartState.init.rx_buffer 0 (u8 0x141) ∧
    (UART_IRQHandler { UartState.init with hw := ⟨USART_SR_RXNE, 0x141, 0, []⟩ }).rx_count
      = 0 + 1 :=
  have h := (C22_receive_interrupt_appends_or_overruns
    { UartState.init with hw := ⟨USART_SR_RXNE, 0x141, 0, []⟩ } (by decide)).1 (by decide)
  ⟨h.1, h.2.2.2.1⟩

/-! ## Serial driver: initialisation -/

theorem UART_Init_wait_never (sr : Nat → Nat) (h : ∀ k, sr k &&& USART_SR_TC = 0)
    (fuel k : Nat) : UART_Init_wait sr fuel k = none := by
  induction fuel generalizing k with
  | zero => rfl
  | succ fuel ih => simp [UART_Init_wait, h k, ih]

theorem UART_Init_wait_found (sr : Nat → Nat) (n : Nat) (hn : sr n &&& USART_SR_TC ≠ 0)
    (fuel k : Nat) (hk : k ≤ n) (hfuel : n < k + fuel) :
    ∃ j, UART_Init_wait sr fuel k = some j := by
  induction fuel generalizing k with
  | zero => omega
  | succ fuel ih =>
    by_cases hc : sr k &&& USART_SR_TC ≠ 0
    · exact ⟨k, by simp [UART_Init_wait, hc]⟩
    · have hkn : k ≠ n := fun e => hc (e ▸ hn)
      obtain ⟨j, hj⟩ := ih (k + 1) (by omega) (by omega)
      exact ⟨j, by simp only [UART_Init_wait, hc, if_false]; exact hj⟩

/-- When some read of the status register shows the transmission-complete flag, `UART_Init`
returns true once it is given enough reads. -/
theorem UART_Init_returns_true (d : UartDevice) (sr : Nat → Nat) (b n : Nat)
    (hn : sr n &&& USART_SR_TC ≠ 0) :
    ∃ d1, UART_Init (n + 1) d sr b = some (true, d1) ∧
      d1.cfg.BRR = UART_Init_brr b := by
  obtain ⟨j, hj⟩ := UART_Init_wait_found sr n hn (n + 1) 0 (Nat.zero_le _) (by omega)
  refine ⟨{ UART_Init_configure d b with
    drv := UART_ClearError { (UART_Init_configure d b).drv with
      hw := { (UART_Init_configure d b).drv.hw with SR := 0 } } }, ?_, rfl⟩
  simp only [UART_Init, hj]

/-- C23: `UART_Init` has no bounded wait.  When the transmission-complete flag reads as clear
at every read of the status register, the call has not returned after any number of reads:
it never returns false (nor true).  And whenever the call does return, it returns true. -/
theorem C23_init_waits_forever_without_tc :
    (∀ fuel : Nat, UART_Init fuel UartDevice.init (fun _ => 0) 115200 = none) ∧
    (∀ (fuel : Nat) (d : UartDevice) (sr : Nat → Nat) (b : Nat) (r : Bool × UartDevice),
      UART_Init fuel d sr b = some r → r.1 = true) := by
  constructor
  · intro fuel
    simp only [UART_Init, UART_Init_wait_never (fun _ => 0) (fun _ => by simp) fuel 0]
  · intro fuel d sr b r h
    simp only [UART_Init] at h
    split at h
    · cases h
    · cases h
      rfl

theorem and_15_of_lt (f : Nat) (h : f < 16) : f &&& 0x0F = f := by
  have e : f &&& (2 ^ 4 - 1) = f % 2 ^ 4 := Nat.and_pow_two_sub_one_eq_mod f 4
  have e2 : f % 2 ^ 4 = f := Nat.mod_eq_of_lt (by norm_num; exact h)
  exact e.trans e2

theorem shiftLeft_4_or (a f : Nat) (h : f < 16) : (a <<< 4) ||| f = 16 * a + f := by
  rw [Nat.shiftLeft_eq, Nat.mul_comm]
  exact (Nat.mul_add_lt_is_or (i := 4) h a).symm

/-- The baud-rate register value as a function of the truncated divisor times 100. -/
theorem UART_Init_brr_of_usartdiv (u : Nat) (hu : u ≤ 1050000000) :
    let mantissa := u / 100
    let fraction := u32 (u32 (u32 (u + (4294967296 - u32 (mantissa * 100))) * 16) + 50) / 100
    let carried : Nat × Nat :=
      if 16 ≤ fraction then (u32 (mantissa + 1), 0) else (mantissa, fraction)
    u32 (carried.1 <<< 4) ||| (carried.2 &&& 0x0F) = (16 * u + 50) / 100 ∧ carried.2 ≤ 15 := by
  intro mantissa fraction carried
  have hm : mantissa = u / 100 := rfl
  have hfr : fraction = (16 * (u % 100) + 50) / 100 := by
    show u32 (u32 (u32 (u + (4294967296 - u32 (mantissa * 100))) * 16) + 50) / 100 = _
    simp only [u32]
    omega
  have hf16 : fraction ≤ 16 := by omega
  by_cases hc : 16 ≤ fraction
  · have hcar : carried = (u32 (mantissa + 1), 0) := if_pos hc
    rw [hcar]
    have e1 : u32 (mantissa + 1) = mantissa + 1 := by
      simp only [u32]
      omega
    have e2 : u32 ((mantissa + 1) <<< 4) = 16 * (mantissa + 1) := by
      rw [Nat.shiftLeft_eq]
      simp only [u32]
      omega
    simp only [e1, e2]
    refine ⟨?_, by omega⟩
    show 16 * (mantissa + 1) ||| (0 &&& 15) = (16 * u + 50) / 100
    rw [Nat.zero_and, Nat.or_zero]
    omega
  · have hcar : carried = (mantissa, fraction) := if_neg hc
    rw [hcar]
    have hlt : fraction < 16 := by omega
    have e2 : u32 (mantissa <<< 4) = mantissa <<< 4 := by
      rw [Nat.shiftLeft_eq]
      simp only [u32]
      omega
    refine ⟨?_, by omega⟩
    show u32 (mantissa <<< 4) ||| (fraction &&& 0x0F) = _
    rw [e2, and_15_of_lt _ hlt, shiftLeft_4_or _ _ hlt]
    omega

/-- C24: for every baud rate `b` with `1 <= b < 2^30` the value `UART_Init` programs into the
baud-rate register is `(16 * u + 50) / 100` with `u = 1050000000 / (4 * b)`; it is in the
register before the wait and still when the call returns; for `b = 115200` it is `0x16C`. -/
theorem C24_baud_rate_register_value (d : UartDevice) (b : Nat) (h1 : 1 ≤ b)
    (h2 : b < 2 ^ 30) :
    (UART_Init_configure d b).cfg.BRR = (16 * (1050000000 / (4 * b)) + 50) / 100 ∧
    (∀ (sr : Nat → Nat) (n : Nat), sr n &&& USART_SR_TC ≠ 0 →
      ∃ d1, UART_Init (n + 1) d sr b = some (true, d1) ∧
        d1.cfg.BRR = (16 * (1050000000 / (4 * b)) + 50) / 100) ∧
    (UART_Init_configure d 115200).cfg.BRR = 0x16C := by
  have hdiv : u32 (APB1_CLOCK_FREQ * 25) / u32 (4 * b) = 1050000000 / (4 * b) := by
    have eb : u32 (4 * b) = 4 * b := by
      simp only [u32]
      omega
    rw [eb]
    rfl
  have hle : 1050000000 / (4 * b) ≤ 1050000000 := Nat.div_le_self _ _
  have hbrr : UART_Init_brr b = (16 * (1050000000 / (4 * b)) + 50) / 100 := by
    have := (UART_Init_brr_of_usartdiv (1050000000 / (4 * b)) hle).1
    simp only [UART_Init_brr, hdiv]
    exact this
  have h115 : UART_Init_brr 115200 = 0x16C := by decide
  refine ⟨hbrr, ?_, h115⟩
  intro sr n hn
  obtain ⟨d1, hd1, hb1⟩ := UART_Init_returns_true d sr b n hn
  exact ⟨d1, hd1, hb1.trans hbrr⟩

theorem C24_baud_rate_register_value_witness :
    (UART_Init_configure UartDevice.init 9600).cfg.BRR
      = (16 * (1050000000 / (4 * 9600)) + 50) / 100 :=
  (C24_baud_rate_register_value UartDevice.init 9600 (by decide) (by decide)).1

/-! ## CAN controller: acceptance filter and bit timing -/

theorem CAN_ConfigureFilters_regs (c : CanCtrlRegs) :
    (CAN_ConfigureFilters c).FR1 = 0x20000000 ∧ (CAN_ConfigureFilters c).FR2 = 0xFF000000 := by
  constructor <;> rfl

theorem filter_accepts_block :
    ∀ id, id < 2048 →
      (((id <<< 21) ^^^ 0x20000000) &&& 0xFF000000 = 0 ↔ (0x100 ≤ id ∧ id ≤ 0x107)) := by
  decide!

/-- C25: for every 11-bit identifier, the identifier/mask pair that `CAN_ConfigureFilters`
programs accepts it, that is `((id << 21) XOR FR1) AND FR2 = 0`, if and only if
`0x100 <= id <= 0x107`. -/
theorem C25_filter_accepts_exactly_block (c : CanCtrlRegs) (id : Nat) (hid : id < 2048) :
    ((id <<< 21) ^^^ (CAN_ConfigureFilters c).FR1) &&& (CAN_ConfigureFilters c).FR2 = 0
      ↔ (0x100 ≤ id ∧ id ≤ 0x107) := by
  rw [(CAN_ConfigureFilters_regs c).1, (CAN_ConfigureFilters_regs c).2]
  exact filter_accepts_block id hid

theorem C25_filter_accepts_exactly_block_witness :
    ((0x103 <<< 21) ^^^ (CAN_ConfigureFilters CanCtrlRegs.init).FR1) &&&
        (CAN_ConfigureFilters CanCtrlRegs.init).FR2 = 0
      ↔ (0x100 ≤ 0x103 ∧ 0x103 ≤ 0x107) :=
  C25_filter_accepts_exactly_block CanCtrlRegs.init 0x103 (by decide)

/-- C26: the bit-timing register value that `CAN_ConfigureBitTiming` programs for 500000
holds the prescaler field 5, segment-1 field 12, segment-2 field 1 and jump-width field 0;
on the 42 MHz APB1 clock that is 16 time quanta of 1/7 MHz per bit, a nominal bit rate of
437500 bit/s, not 500000 bit/s. -/
theorem C26_bit_timing_gives_437500 :
    (CAN_ConfigureBitTiming CanCtrlRegs.init 500000).BTR
      = (0 <<< 24) ||| (12 <<< 16) ||| (1 <<< 20) ||| 5 ∧
    canNominalBitRate APB1_CLOCK_FREQ (CAN_ConfigureBitTiming CanCtrlRegs.init 500000).BTR
      = 437500 ∧
    42000000 / ((5 + 1) * (1 + (12 + 1) + (1 + 1))) = 437500 := by
  decide

/-! ## Router: extraction of the raw value -/

theorem shiftLeft_or_eq_add (a b k : Nat) (hb : b < 2 ^ k) :
    (a <<< k) ||| b = a * 2 ^ k + b := by
  rw [Nat.shiftLeft_eq, Nat.mul_comm]
  exact (Nat.mul_add_lt_is_or hb a).symm

/-- C30: for a payload of 8 bytes and a rule of length 1, 2 or 4 that lies within the payload,
`ExtractSignalValue` returns the unsigned little-endian value of the field, the sum of
`d[o + i] * 256^i` over `i < L`, which fits 32 bits. -/
theorem C30_extract_is_little_endian (d : Nat → Nat) (config : SignalConfig)
    (hb : ∀ i, i < 8 → d i < 256)
    (hL : config.length = 1 ∨ config.length = 2 ∨ config.length = 4)
    (ho : config.start_byte + config.length ≤ 8) :
    ExtractSignalValue d config
      = ∑ i in Finset.range config.length, d (config.start_byte + i) * 256 ^ i ∧
    ExtractSignalValue d config < 2 ^ 32 := by
  rcases hL with h | h | h
  · have h0 := hb config.start_byte (by omega)
    simp only [ExtractSignalValue, h, if_true]
    refine ⟨by simp, by omega⟩
  · have h0 := hb config.start_byte (by omega)
    have h1 := hb (config.start_byte + 1) (by omega)
    have e : (d (config.start_byte + 1) <<< 8) ||| d config.start_byte
        = d (config.start_byte + 1) * 256 + d config.start_byte :=
      shiftLeft_or_eq_add _ _ 8 (by omega)
    have hv : ExtractSignalValue d config
        = d config.start_byte + d (config.start_byte + 1) * 256 := by
      simp only [ExtractSignalValue, h, OfNat.ofNat_ne_one, if_false, if_true, e, u32]
      omega
    rw [hv, h]
    refine ⟨by simp [Finset.sum_range_succ], by omega⟩
  · have h0 := hb config.start_byte (by omega)
    have h1 := hb (config.start_byte + 1) (by omega)
    have h2 := hb (config.start_byte + 2) (by omega)
    have h3 := hb (config.start_byte + 3) (by omega)
    have e1 : (d (config.start_byte + 1) <<< 8) ||| d config.start_byte
        = d (config.start_byte + 1) * 256 + d config.start_byte :=
      shiftLeft_or_eq_add _ _ 8 (by omega)
    have e2 : (d (config.start_byte + 2) <<< 16) |||
        (d (config.start_byte + 1) * 256 + d config.start_byte)
        = d (config.start_byte + 2) * 65536 +
          (d (config.start_byte + 1) * 256 + d config.start_byte) :=
      shiftLeft_or_eq_add _ _ 16 (by omega)
    have e3 : (d (config.start_byte + 3) <<< 24) |||
        (d (config.start_byte + 2) * 65536 +
          (d (config.start_byte + 1) * 256 + d config.start_byte))
        = d (config.start_byte + 3) * 16777216 +
          (d (config.start_byte + 2) * 65536 +
            (d (config.start_byte + 1) * 256 + d config.start_byte)) :=
      shiftLeft_or_eq_add _ _ 24 (by omega)
    have hv : ExtractSignalValue d config
        = d config.start_byte + d (config.start_byte + 1) * 256 +
          d (config.start_byte + 2) * 65536 + d (config.start_byte + 3) * 16777216 := by
      have hne1 : ¬ (4 : Nat) = 1 := by decide
      have hne2 : ¬ (4 : Nat) = 2 := by decide
      simp only [ExtractSignalValue, h, hne1, hne2, if_false, if_true, Nat.or_assoc, e1, e2, e3,
        u32]
      omega
    rw [hv, h]
    refine ⟨by simp [Finset.sum_range_succ], by omega⟩

theorem C30_extract_is_little_endian_witness :
    ExtractSignalValue (fun i => [0x40, 0x1F, 0, 0, 0xB0, 0x04, 0, 0].getD i 0) rule_speed
      = ∑ i in Finset.range rule_speed.length,
          (fun i => [0x40, 0x1F, 0, 0, 0xB0, 0x04, 0, 0].getD i 0) (rule_speed.start_byte + i)
            * 256 ^ i ∧
    ExtractSignalValue (fun i => [0x40, 0x1F, 0, 0, 0xB0, 0x04, 0, 0].getD i 0) rule_speed
      < 2 ^ 32 :=
  C30_extract_is_little_endian (fun i => [0x40, 0x1F, 0, 0, 0xB0, 0x04, 0, 0].getD i 0)
    rule_speed (by decide) (by decide) (by decide)

/-! ## Router: routed frames -/

theorem decimalAux_length_le (fuel n : Nat) : (decimalAux fuel n).length ≤ fuel := by
  induction fuel generalizing n with
  | zero => simp [decimalAux]
  | succ fuel ih =>
    unfold decimalAux
    split_ifs
    · simp
    · have := ih (n / 10)
      simp only [List.length_append, List.length_singleton]
      omega

theorem bitLengthAux_le (fuel m k : Nat) (h : m < 2 ^ k) : bitLengthAux fuel m ≤ k := by
  induction fuel generalizing m k with
  | zero => simp [bitLengthAux]
  | succ fuel ih =>
    unfold bitLengthAux
    split_ifs with h0
    · omega
    · cases k with
      | zero =>
        simp at h
        exact absurd h h0
      | succ k =>
        have : m / 2 < 2 ^ k := by
          rw [Nat.pow_succ] at h
          omega
        have := ih (m / 2) k this
        omega

/-- The text of `%d` for a 32-bit value has at most 34 characters. -/
theorem fmt_d_length_le (v : Int) (h1 : -2147483648 ≤ v) (h2 : v ≤ 2147483647) :
    (fmt_d v).length ≤ 34 := by
  have hb : bitLength v.natAbs ≤ 32 := bitLengthAux_le _ _ 32 (by norm_num; omega)
  have hd : (decimal v.natAbs).length ≤ 33 := by
    have := decimalAux_length_le (bitLength v.natAbs + 1) v.natAbs
    unfold decimal
    omega
  unfold fmt_d
  split_ifs
  · simp only [List.length_cons]
    omega
  · omega

theorem F32_toInt32_range (a : F32) :
    -2147483648 ≤ F32.toInt32 a ∧ F32.toInt32 a ≤ 2147483647 := by
  unfold F32.toInt32
  dsimp only
  omega

/-- The line `FormatAndSendSignal` builds for a rule of the table is never empty and always
shorter than the output buffer. -/
theorem table_line_length (config : SignalConfig) (hc : config ∈ signal_table) (v : Int)
    (h1 : -2147483648 ≤ v) (h2 : v ≤ 2147483647) :
    0 < (sprintf config.format_string [FmtArg.int v]).length ∧
    (sprintf config.format_string [FmtArg.int v]).length < MAX_OUTPUT_LENGTH := by
  have hl := fmt_d_length_le v h1 h2
  simp only [signal_table, List.mem_cons, List.mem_singleton, List.not_mem_nil, or_false] at hc
  rcases hc with rfl | rfl | rfl
  · have e : sprintf rule_rpm.format_string [FmtArg.int v]
        = "RPM,".toList ++ (fmt_d v ++ "\r\n".toList) := rfl
    rw [e]
    simp only [List.length_append, MAX_OUTPUT_LENGTH]
    have a : "RPM,".toList.length = 4 := rfl
    have b : "\r\n".toList.length = 2 := rfl
    omega
  · have e : sprintf rule_temp.format_string [FmtArg.int v]
        = "TEMP,".toList ++ (fmt_d v ++ "\r\n".toList) := rfl
    rw [e]
    simp only [List.length_append, MAX_OUTPUT_LENGTH]
    have a : "TEMP,".toList.length = 5 := rfl
    have b : "\r\n".toList.length = 2 := rfl
    omega
  · have e : sprintf rule_speed.format_string [FmtArg.int v]
        = "SPEED,".toList ++ (fmt_d v ++ "\r\n".toList) := rfl
    rw [e]
    simp only [List.length_append, MAX_OUTPUT_LENGTH]
    have a : "SPEED,".toList.length = 6 := rfl
    have b : "\r\n".toList.length = 2 := rfl
    omega

theorem FindSignalConfig_mem (id : Nat) (config : SignalConfig)
    (h : FindSignalConfig id = some config) : config ∈ signal_table :=
  List.mem_of_find?_eq_some h

/-- C29: for a frame whose identifier matches a rule of the table and whose DLC is at least
the rule's `start_byte + length`, `Router_ProcessCanFrame` increments `frames_processed` and
`frames_routed` by 1, leaves the three other counters and the CAN driver unchanged, and makes
exactly one call to the serial driver, with the rule's format applied to the rounded
engineering value; the counters after the call do not depend on the state of the serial
driver, in particular not on whether it accepts the line. -/
theorem C29_routed_frame_counts_and_line (w : System) (f : CanFrame) (config : SignalConfig)
    (hfind : FindSignalConfig f.id = some config)
    (hdlc : config.start_byte + config.length ≤ f.dlc) :
    (Router_ProcessCanFrame w (some f)).router_stats
      = { w.router_stats with
          frames_processed := u32 (w.router_stats.frames_processed + 1)
          frames_routed := u32 (w.router_stats.frames_routed + 1) } ∧
    (Router_ProcessCanFrame w (some f)).serial_calls
      = w.serial_calls ++ [sprintf config.format_string [FmtArg.int (F32.toInt32 (F32.add
          (F32.add (F32.mul (F32.ofUInt32 (ExtractSignalValue f.data config)) config.scale)
            config.offset) f32_0_5))]] ∧
    (Router_ProcessCanFrame w (some f)).can = w.can ∧
    (∀ u : UartState, (Router_ProcessCanFrame { w with uart := u } (some f)).router_stats
      = (Router_ProcessCanFrame w (some f)).router_stats) := by
  have hmem := FindSignalConfig_mem f.id config hfind
  have hnot : ¬ f.dlc < config.start_byte + config.length := by omega
  have key : ∀ w0 : System, Router_ProcessCanFrame w0 (some f)
      = { Router_UART_Write
            { w0 with router_stats := { w0.router_stats with
                frames_processed := u32 (w0.router_stats.frames_processed + 1) } }
            (sprintf config.format_string [FmtArg.int (F32.toInt32 (F32.add
              (F32.add (F32.mul (F32.ofUInt32 (ExtractSignalValue f.data config)) config.scale)
                config.offset) f32_0_5))]) with
          router_stats := { w0.router_stats with
            frames_processed := u32 (w0.router_stats.frames_processed + 1)
            frames_routed := u32 (w0.router_stats.frames_routed + 1) } } := by
    intro w0
    have hr := F32_toInt32_range (F32.add
      (F32.add (F32.mul (F32.ofUInt32 (ExtractSignalValue f.data config)) config.scale)
        config.offset) f32_0_5)
    have hlen := table_line_length config hmem _ hr.1 hr.2
    simp only [Router_ProcessCanFrame, hfind, hnot, if_false]
    rw [FormatAndSendSignal_calls _ config _ _ rfl hlen]
    rfl
  refine ⟨?_, ?_, ?_, ?_⟩
  · rw [key w]
  · rw [key w]
    rfl
  · rw [key w]
    rfl
  · intro u
    rw [key w, key { w with uart := u }]

theorem C29_routed_frame_counts_and_line_witness :
    (Router_ProcessCanFrame System.init (some (mkFrame 0x100 8 [0x40, 0x1F]))).router_stats
      = { System.init.router_stats with
          frames_processed := u32 (System.init.router_stats.frames_processed + 1)
          frames_routed := u32 (System.init.router_stats.frames_routed + 1) } ∧
    (Router_ProcessCanFrame System.init (some (mkFrame 0x100 8 [0x40, 0x1F]))).can
      = System.init.can :=
  have h := C29_routed_frame_counts_and_line System.init (mkFrame 0x100 8 [0x40, 0x1F])
    rule_rpm (by decide) (by decide)
  ⟨h.1, h.2.2.1⟩

/-! ## Router: polling of the error latches -/

/-- The call `SendErrorMessage` makes when the formatted text is known. -/
theorem SendErrorMessage_calls (w : System) (t d line : List Char)
    (hline : sprintf "%s,%s\r\n".toList [FmtArg.str t, FmtArg.str d] = line)
    (hlen : 0 < line.length ∧ line.length < MAX_OUTPUT_LENGTH) :
    SendErrorMessage w t d = Router_UART_Write w line := by
  simp only [SendErrorMessage, hline, hlen, and_self, if_true]

/-- The first block of `Router_Poll` when the CAN latch is set. -/
theorem Router_Poll_can_set (w : System) (h : w.can.last_error ≠ CanError.NONE) :
    Router_Poll_can w
      = { Router_UART_Write
            { w with router_stats := { w.router_stats with
                can_errors := u32 (w.router_stats.can_errors + 1) } }
            (canErrorLine w.can.last_error) with
          can := CAN_ClearError w.can } := by
  cases he : w.can.last_error with
  | NONE => exact absurd he h
  | BUS_OFF =>
    simp only [Router_Poll_can, CAN_GetLastError, he]
    rw [if_pos (by decide), SendErrorMessage_calls _ "CAN_ERR".toList "BUS_OFF".toList
      (canErrorLine CanError.BUS_OFF) (by decide) (by decide)]
    rfl
  | ERROR_PASSIVE =>
    simp only [Router_Poll_can, CAN_GetLastError, he]
    rw [if_pos (by decide),
      SendErrorMessage_calls _ "CAN_ERR".toList "ERROR_PASSIVE".toList
      (canErrorLine CanError.ERROR_PASSIVE) (by decide) (by decide)]
    rfl
  | WARNING =>
    simp only [Router_Poll_can, CAN_GetLastError, he]
    rw [if_pos (by decide), SendErrorMessage_calls _ "CAN_ERR".toList "WARNING".toList
      (canErrorLine CanError.WARNING) (by decide) (by decide)]
    rfl
  | OVERRUN =>
    simp only [Router_Poll_can, CAN_GetLastError, he]
    rw [if_pos (by decide), SendErrorMessage_calls _ "CAN_ERR".toList "OVERRUN".toList
      (canErrorLine CanError.OVERRUN) (by decide) (by decide)]
    rfl
  | TIMEOUT =>
    simp only [Router_Poll_can, CAN_GetLastError, he]
    rw [if_pos (by decide), SendErrorMessage_calls _ "CAN_ERR".toList "UNKNOWN".toList
      (canErrorLine CanError.TIMEOUT) (by decide) (by decide)]
    rfl

/-- The first block of `Router_Poll` when the CAN latch is clear. -/
theorem Router_Poll_can_clear (w : System) (h : w.can.last_error = CanError.NONE) :
    Router_Poll_can w = w := by
  simp only [Router_Poll_can, CAN_GetLastError, h, ne_eq, not_true_eq_false, if_false]

/-- The second block of `Router_Poll` when the serial latch is set. -/
theorem Router_Poll_uart_set (w : System) (h : w.uart.last_error ≠ UartError.NONE) :
    Router_Poll_uart w
      = { Router_UART_Write
            { w with router_stats := { w.router_stats with
                uart_errors := u32 (w.router_stats.uart_errors + 1) } }
            (uartErrorLine w.uart.last_error) with
          uart := UART_ClearError (Router_UART_Write
            { w with router_stats := { w.router_stats with
                uart_errors := u32 (w.router_stats.uart_errors + 1) } }
            (uartErrorLine w.uart.last_error)).uart } := by
  cases he : w.uart.last_error with
  | NONE => exact absurd he h
  | OVERRUN =>
    simp only [Router_Poll_uart, UART_GetLastError, he]
    rw [if_pos (by decide), SendErrorMessage_calls _ "UART_ERR".toList "OVERRUN".toList
      (uartErrorLine UartError.OVERRUN) (by decide) (by decide)]
  | FRAMING =>
    simp only [Router_Poll_uart, UART_GetLastError, he]
    rw [if_pos (by decide), SendErrorMessage_calls _ "UART_ERR".toList "FRAMING".toList
      (uartErrorLine UartError.FRAMING) (by decide) (by decide)]
  | PARITY =>
    simp only [Router_Poll_uart, UART_GetLastError, he]
    rw [if_pos (by decide), SendErrorMessage_calls _ "UART_ERR".toList "PARITY".toList
      (uartErrorLine UartError.PARITY) (by decide) (by decide)]
  | BUFFER_FULL =>
    simp only [Router_Poll_uart, UART_GetLastError, he]
    rw [if_pos (by decide),
      SendErrorMessage_calls _ "UART_ERR".toList "BUFFER_FULL".toList
      (uartErrorLine UartError.BUFFER_FULL) (by decide) (by decide)]

/-- The second block of `Router_Poll` when the serial latch is clear. -/
theorem Router_Poll_uart_clear (w : System) (h : w.uart.last_error = UartError.NONE) :
    Router_Poll_uart w = w := by
  simp only [Router_Poll_uart, UART_GetLastError, h, ne_eq, not_true_eq_false, if_false]

/-- C27: for every value `e` of the CAN error latch at the start of `Router_Poll`, the CAN
block hands exactly one line to the serial driver, `CAN_ERR,` followed by the name of `e`
and CR LF, when `e` is not NONE, and no line when it is NONE, and the CAN latch reads NONE
afterwards; for every value `u` of the serial latch when the second block reads it, that
block hands exactly one line `UART_ERR,` followed by the name of `u` and CR LF when `u` is
not NONE and no line when it is NONE, and the serial latch reads NONE at the end of the
poll.  The names are BUS_OFF, ERROR_PASSIVE, WARNING, OVERRUN and, for TIMEOUT, UNKNOWN on
the CAN side; OVERRUN, FRAMING, PARITY, BUFFER_FULL on the serial side. -/
theorem C27_poll_sends_one_line_per_set_latch (w : System) :
    (Router_Poll_can w).serial_calls
      = w.serial_calls ++
          (if w.can.last_error ≠ CanError.NONE then [canErrorLine w.can.last_error] else []) ∧
    (Router_Poll_can w).can.last_error = CanError.NONE ∧
    (Router_Poll w).serial_calls
      = (Router_Poll_can w).serial_calls ++
          (if (Router_Poll_can w).uart.last_error ≠ UartError.NONE
            then [uartErrorLine (Router_Poll_can w).uart.last_error] else []) ∧
    (Router_Poll w).can.last_error = CanError.NONE ∧
    (Router_Poll w).uart.last_error = UartError.NONE ∧
    (canErrorLine CanError.BUS_OFF = "CAN_ERR,BUS_OFF\r\n".toList ∧
     canErrorLine CanError.ERROR_PASSIVE = "CAN_ERR,ERROR_PASSIVE\r\n".toList ∧
     canErrorLine CanError.WARNING = "CAN_ERR,WARNING\r\n".toList ∧
     canErrorLine CanError.OVERRUN = "CAN_ERR,OVERRUN\r\n".toList ∧
     canErrorLine CanError.TIMEOUT = "CAN_ERR,UNKNOWN\r\n".toList) ∧
    (uartErrorLine UartError.OVERRUN = "UART_ERR,OVERRUN\r\n".toList ∧
     uartErrorLine UartError.FRAMING = "UART_ERR,FRAMING\r\n".toList ∧
     uartErrorLine UartError.PARITY = "UART_ERR,PARITY\r\n".toList ∧
     uartErrorLine UartError.BUFFER_FULL = "UART_ERR,BUFFER_FULL\r\n".toList) := by
  have hcan : (Router_Poll_can w).serial_calls
      = w.serial_calls ++
          (if w.can.last_error ≠ CanError.NONE then [canErrorLine w.can.last_error] else []) ∧
      (Router_Poll_can w).can.last_error = CanError.NONE := by
    by_cases h : w.can.last_error = CanError.NONE
    · rw [Router_Poll_can_clear w h]
      simp [h]
    · rw [Router_Poll_can_set w h, if_pos h]
      exact ⟨rfl, rfl⟩
  have huart : ∀ v : System, (Router_Poll_uart v).serial_calls
      = v.serial_calls ++
          (if v.uart.last_error ≠ UartError.NONE then [uartErrorLine v.uart.last_error]
            else []) ∧
      (Router_Poll_uart v).can = v.can ∧
      (Router_Poll_uart v).uart.last_error = UartError.NONE := by
    intro v
    by_cases h : v.uart.last_error = UartError.NONE
    · rw [Router_Poll_uart_clear v h]
      simp [h]
    · rw [Router_Poll_uart_set v h, if_pos h]
      exact ⟨rfl, rfl, rfl⟩
  have hu := huart (Router_Poll_can w)
  refine ⟨hcan.1, hcan.2, hu.1, ?_, hu.2.2, ?_, ?_⟩
  · show (Router_Poll_uart (Router_Poll_can w)).can.last_error = CanError.NONE
    rw [hu.2.1]
    exact hcan.2
  · decide
  · decide

/-- The error latch after `UART_Write` of a non-empty string shorter than 65536 characters:
BUFFER_FULL when the string is longer than the free outbound space, unchanged otherwise. -/
theorem UART_Write_last_error (s : UartState) (cs : List Char) (h0 : 0 < cs.length)
    (h1 : cs.length < 65536) :
    (UART_Write s (some cs)).2.last_error
      = if UART_TX_BUFFER_SIZE < s.tx_count + cs.length then UartError.BUFFER_FULL
        else s.last_error := by
  have hu : u16 cs.length = cs.length := Nat.mod_eq_of_lt h1
  simp only [UART_Write, hu]
  by_cases hfull : UART_TX_BUFFER_SIZE < s.tx_count + cs.length
  · have hI : (UART_TX_BUFFER_SIZE : Int) - (s.tx_count : Int) < (cs.length : Int) := by omega
    have hne : cs.length ≠ 0 := by omega
    simp only [UART_WriteData, hne, if_false, hI, if_true, hfull]
  · rw [if_neg hfull]
    apply UART_WriteData_last_error
    intro _
    omega

theorem canErrorLine_length (e : CanError) :
    0 < (canErrorLine e).length ∧ (canErrorLine e).length < 65536 := by
  cases e <;> decide

/-- The serial latch after the first block of `Router_Poll`. -/
theorem Router_Poll_can_uart_latch (w : System) :
    (Router_Poll_can w).uart.last_error
      = if w.can.last_error ≠ CanError.NONE ∧
            UART_TX_BUFFER_SIZE < w.uart.tx_count + (canErrorLine w.can.last_error).length
        then UartError.BUFFER_FULL else w.uart.last_error := by
  by_cases h : w.can.last_error = CanError.NONE
  · rw [Router_Poll_can_clear w h]
    simp [h]
  · rw [Router_Poll_can_set w h]
    have hl := canErrorLine_length w.can.last_error
    show (UART_Write w.uart (some (canErrorLine w.can.last_error))).2.last_error = _
    rw [UART_Write_last_error _ _ hl.1 hl.2]
    simp only [ne_eq, h, not_false_eq_true, true_and]

/-- The statistics after the first block of `Router_Poll`. -/
theorem Router_Poll_can_stats (w : System) :
    (Router_Poll_can w).router_stats
      = if w.can.last_error ≠ CanError.NONE
        then { w.router_stats with can_errors := u32 (w.router_stats.can_errors + 1) }
        else w.router_stats := by
  by_cases h : w.can.last_error = CanError.NONE
  · rw [Router_Poll_can_clear w h]
    simp [h]
  · rw [Router_Poll_can_set w h, if_pos h]
    rfl

/-- The statistics after the second block of `Router_Poll`. -/
theorem Router_Poll_uart_stats (w : System) :
    (Router_Poll_uart w).router_stats
      = if w.uart.last_error ≠ UartError.NONE
        then { w.router_stats with uart_errors := u32 (w.router_stats.uart_errors + 1) }
        else w.router_stats := by
  by_cases h : w.uart.last_error = UartError.NONE
  · rw [Router_Poll_uart_clear w h]
    simp [h]
  · rw [Router_Poll_uart_set w h, if_pos h]
    rfl

theorem Router_Poll_stats (w : System) :
    (Router_Poll w).router_stats = (Router_Poll_uart (Router_Poll_can w)).router_stats := rfl

set_option maxRecDepth 100000 in
/-- The latches and the outbound occupancy of `pollBusySample`. -/
theorem pollBusySample_entry :
    pollBusySample.can.last_error = CanError.OVERRUN ∧
    pollBusySample.uart.last_error = UartError.NONE ∧
    pollBusySample.uart.tx_count = 249 := by
  decide

/-- C28 (counterexample): in the state `pollBusySample` the CAN latch holds OVERRUN, the serial
latch holds NONE and 7 bytes of outbound space are free; `Router_Poll` takes `uart_errors` from
0 to 1, because the 17-character CAN error line is refused by `UART_Write`, which latches
BUFFER_FULL before the serial latch is read.  So a serial latch that is NONE at entry does not
leave `uart_errors` unchanged. -/
theorem C28_uart_errors_counts_refused_can_line :
    pollBusySample.can.last_error = CanError.OVERRUN ∧
    pollBusySample.uart.last_error = UartError.NONE ∧
    pollBusySample.uart.tx_count = 249 ∧
    pollBusySample.router_stats.uart_errors = 0 ∧
    (Router_Poll pollBusySample).router_stats.uart_errors = 1 ∧
    ¬ (∀ w : System, w.uart.last_error = UartError.NONE →
        (Router_Poll w).router_stats.uart_errors = w.router_stats.uart_errors) := by
  obtain ⟨h1, h2, h3⟩ := pollBusySample_entry
  have h4 : pollBusySample.router_stats.uart_errors = 0 := rfl
  have h5 : (Router_Poll pollBusySample).router_stats.uart_errors = 1 := by
    have h7 : pollBusySample.router_stats = ⟨0, 0, 0, 0, 0⟩ := rfl
    rw [Router_Poll_stats, Router_Poll_uart_stats, Router_Poll_can_uart_latch,
      Router_Poll_can_stats, h1, h2, h3, h7]
    decide
  refine ⟨h1, h2, h3, h4, h5, ?_⟩
  intro hall
  have h6 := hall pollBusySample h2
  rw [h5, h4] at h6
  exact absurd h6 (by decide)

/-- C28 (amended): for every state at entry to `Router_Poll`, `can_errors` is incremented
(as a `uint32_t`) if the CAN latch is not NONE at entry and is unchanged otherwise;
`uart_errors` is incremented if the serial latch is not NONE at entry, or if the CAN latch is
not NONE at entry and its error line is longer than the free outbound space (so that
`UART_Write` latches BUFFER_FULL before the serial latch is read), and is unchanged
otherwise; `frames_processed`, `frames_routed` and `frames_dropped` are unchanged. -/
theorem C28_poll_counts_latches_as_read (w : System) :
    (Router_Poll w).router_stats.can_errors
      = (if w.can.last_error ≠ CanError.NONE then u32 (w.router_stats.can_errors + 1)
         else w.router_stats.can_errors) ∧
    (Router_Poll w).router_stats.uart_errors
      = (if w.uart.last_error ≠ UartError.NONE ∨
            (w.can.last_error ≠ CanError.NONE ∧
              UART_TX_BUFFER_SIZE < w.uart.tx_count + (canErrorLine w.can.last_error).length)
         then u32 (w.router_stats.uart_errors + 1) else w.router_stats.uart_errors) ∧
    (Router_Poll w).router_stats.frames_processed = w.router_stats.frames_processed ∧
    (Router_Poll w).router_stats.frames_routed = w.router_stats.frames_routed ∧
    (Router_Poll w).router_stats.frames_dropped = w.router_stats.frames_dropped := by
  rw [Router_Poll_stats, Router_Poll_uart_stats, Router_Poll_can_uart_latch, Router_Poll_can_stats]
  by_cases hc : w.can.last_error = CanError.NONE
  · by_cases hu : w.uart.last_error = UartError.NONE
    · simp [hc, hu]
    · simp [hc, hu]
  · by_cases hf : UART_TX_BUFFER_SIZE < w.uart.tx_count + (canErrorLine w.can.last_error).length
    · simp [hc, hf]
    · by_cases hu : w.uart.last_error = UartError.NONE
      · simp [hc, hu, hf]
      · simp [hc, hu, hf]

/-! ## Rule table -/

/-- C31: the identifiers of the rule table are pairwise distinct; `FindSignalConfig` returns
the RPM rule (start byte 0, length 2, scale 0.25, offset 0) for 0x100, the TEMP rule (start
byte 2, length 1, scale 1.0, offset -40) for 0x101, the SPEED rule (start byte 4, length 2,
scale 0.1f, offset 0) for 0x102, and no rule for every other identifier, so it returns a rule
exactly for these three identifiers. -/
theorem C31_lookup_finds_exactly_three_rules :
    (signal_table.map SignalConfig.can_id).Nodup ∧
    signal_table.map SignalConfig.can_id = [0x100, 0x101, 0x102] ∧
    (FindSignalConfig 0x100 = some rule_rpm ∧ rule_rpm.start_byte = 0 ∧ rule_rpm.length = 2 ∧
      rule_rpm.scale = ⟨false, 1, -2⟩ ∧ rule_rpm.offset = ⟨false, 0, 0⟩ ∧
      rule_rpm.format_string = "RPM,%d\r\n".toList) ∧
    (FindSignalConfig 0x101 = some rule_temp ∧ rule_temp.start_byte = 2 ∧
      rule_temp.length = 1 ∧ rule_temp.scale = ⟨false, 1, 0⟩ ∧
      rule_temp.offset = ⟨true, 40, 0⟩ ∧ rule_temp.format_string = "TEMP,%d\r\n".toList) ∧
    (FindSignalConfig 0x102 = some rule_speed ∧ rule_speed.start_byte = 4 ∧
      rule_speed.length = 2 ∧ rule_speed.scale = ⟨false, 13421773, -27⟩ ∧
      rule_speed.offset = ⟨false, 0, 0⟩ ∧ rule_speed.format_string = "SPEED,%d\r\n".toList) ∧
    (∀ id : Nat, id ≠ 0x100 → id ≠ 0x101 → id ≠ 0x102 → FindSignalConfig id = none) ∧
    (∀ id : Nat, (FindSignalConfig id).isSome = true ↔ id = 0x100 ∨ id = 0x101 ∨ id = 0x102) := by
  refine ⟨by decide, by decide, by decide, by decide, by decide, FindSignalConfig_none, ?_⟩
  intro id
  constructor
  · intro h
    by_contra hn
    simp only [not_or] at hn
    rw [FindSignalConfig_none id hn.1 hn.2.1 hn.2.2] at h
    exact absurd h (by decide)
  · rintro (h | h | h) <;> subst h <;> decide

theorem C31_lookup_finds_exactly_three_rules_witness :
    FindSignalConfig 0x103 = none ∧ (FindSignalConfig 0x102).isSome = true :=
  ⟨C31_lookup_finds_exactly_three_rules.2.2.2.2.2.1 0x103 (by decide) (by decide) (by decide),
   (C31_lookup_finds_exactly_three_rules.2.2.2.2.2.2 0x102).mpr (Or.inr (Or.inr rfl))⟩

/-! ## Serial interrupt handler: priority of the error latch -/

theorem UART_IRQHandler_status_latch (sr : Nat) (s : UartState) :
    (UART_IRQHandler_status sr s).last_error
      = if sr &&& USART_SR_PE ≠ 0 then UartError.PARITY
        else if sr &&& USART_SR_FE ≠ 0 then UartError.FRAMING
        else if sr &&& USART_SR_ORE ≠ 0 then UartError.OVERRUN
        else s.last_error := by
  unfold UART_IRQHandler_status
  dsimp only
  split_ifs <;> rfl

theorem UART_IRQHandler_rx_latch (sr : Nat) (s : UartState) :
    (UART_IRQHandler_rx sr s).last_error
      = if sr &&& USART_SR_RXNE ≠ 0 ∧ UART_RX_BUFFER_SIZE ≤ s.rx_count then UartError.OVERRUN
        else s.last_error := by
  unfold UART_IRQHandler_rx
  by_cases hrx : sr &&& USART_SR_RXNE ≠ 0
  · by_cases hroom : s.rx_count < UART_RX_BUFFER_SIZE
    · rw [if_pos hrx, if_pos hroom, if_neg (fun h => absurd hroom (Nat.not_lt.mpr h.2))]
    · rw [if_pos hrx, if_neg hroom, if_pos ⟨hrx, Nat.le_of_not_lt hroom⟩]
  · rw [if_neg hrx, if_neg (fun h => hrx h.1)]

/-- C32: the error latch when `UART_IRQHandler` returns is PARITY if PE is set in the status
word it read; otherwise FRAMING if FE is set; otherwise OVERRUN if ORE is set, or if RXNE is
set and the inbound buffer has no room (`rx_count` not below 128); otherwise the value it had
before the invocation. -/
theorem C32_latch_priority_parity_framing_overrun (s : UartState) :
    (UART_IRQHandler s).last_error
      = if s.hw.SR &&& USART_SR_PE ≠ 0 then UartError.PARITY
        else if s.hw.SR &&& USART_SR_FE ≠ 0 then UartError.FRAMING
        else if s.hw.SR &&& USART_SR_ORE ≠ 0 ∨
            (s.hw.SR &&& USART_SR_RXNE ≠ 0 ∧ UART_RX_BUFFER_SIZE ≤ s.rx_count)
          then UartError.OVERRUN
        else s.last_error := by
  rw [UART_IRQHandler_blocks, UART_IRQHandler_status_latch,
    (UART_IRQHandler_tx_keeps _ _).2, UART_IRQHandler_rx_latch]
  by_cases hore : s.hw.SR &&& USART_SR_ORE ≠ 0
  · simp only [hore, ne_eq, not_false_eq_true, true_or, if_true]
  · by_cases hfull : s.hw.SR &&& USART_SR_RXNE ≠ 0 ∧ UART_RX_BUFFER_SIZE ≤ s.rx_count
    · simp only [hore, hfull, ne_eq, not_false_eq_true, and_self, or_true, if_true, if_false]
    · simp only [hore, hfull, or_self, if_false]

/-! ## CAN controller: requested bit rate -/

/-- C33: for every requested bit rate `b`, `CAN_ConfigureBitTiming` writes the same value to
the bit timing register as for 500000, and `CAN_Init` with `b` returns the same result and
leaves the same driver and register state as `CAN_Init` with 500000 under the same reads of
the master status register; in particular whenever it succeeds for 500000 it succeeds for
`b`. -/
theorem C33_every_bit_rate_configures_as_500000 (b : Nat) :
    (∀ c : CanCtrlRegs, CAN_ConfigureBitTiming c b = CAN_ConfigureBitTiming c 500000) ∧
    (∀ c : CanCtrlRegs, (CAN_ConfigureBitTiming c b).BTR = 0x001C0005) ∧
    (∀ (d : CanDevice) (clk : Nat) (msr : Nat → Nat),
      CAN_Init d clk msr b = CAN_Init d clk msr 500000) ∧
    (∀ (d : CanDevice) (clk : Nat) (msr : Nat → Nat),
      (CAN_Init d clk msr 500000).1 = true → (CAN_Init d clk msr b).1 = true) := by
  have h1 : ∀ c : CanCtrlRegs, CAN_ConfigureBitTiming c b = CAN_ConfigureBitTiming c 500000 := by
    intro c
    simp only [CAN_ConfigureBitTiming, ite_self]
  have h3 : ∀ (d : CanDevice) (clk : Nat) (msr : Nat → Nat),
      CAN_Init d clk msr b = CAN_Init d clk msr 500000 := by
    intro d clk msr
    simp only [CAN_Init, h1]
  refine ⟨h1, ?_, h3, ?_⟩
  · intro c
    rw [h1]
    rfl
  · intro d clk msr h
    rw [h3]
    exact h

theorem C33_every_bit_rate_configures_as_500000_witness :
    (CAN_Init CanDevice.init 168000000 (fun k => if k = 0 then CAN_MSR_INAK else 0) 250000).1
      = true :=
  (C33_every_bit_rate_configures_as_500000 250000).2.2.2 CanDevice.init 168000000
    (fun k => if k = 0 then CAN_MSR_INAK else 0) (by decide)

/-! ## Router: invariant of the frame counters -/

theorem Router_UART_Write_stats (w : System) (str : List Char) :
    (Router_UART_Write w str).router_stats = w.router_stats := rfl

theorem FormatAndSendSignal_stats (w : System) (config : SignalConfig) (raw : Nat) :
    (FormatAndSendSignal w config raw).router_stats = w.router_stats := by
  unfold FormatAndSendSignal
  dsimp only
  split_ifs <;> rfl

/-- The frame counters after `Router_ProcessCanFrame` on a frame: processed is incremented,
and exactly one of routed and dropped is incremented. -/
theorem Router_ProcessCanFrame_counters (w : System) (f : CanFrame) :
    (Router_ProcessCanFrame w (some f)).router_stats.frames_processed
      = u32 (w.router_stats.frames_processed + 1) ∧
    (((Router_ProcessCanFrame w (some f)).router_stats.frames_routed
        = u32 (w.router_stats.frames_routed + 1) ∧
      (Router_ProcessCanFrame w (some f)).router_stats.frames_dropped
        = w.router_stats.frames_dropped) ∨
     ((Router_ProcessCanFrame w (some f)).router_stats.frames_routed
        = w.router_stats.frames_routed ∧
      (Router_ProcessCanFrame w (some f)).router_stats.frames_dropped
        = u32 (w.router_stats.frames_dropped + 1))) := by
  cases hfind : FindSignalConfig f.id with
  | none =>
    simp [Router_ProcessCanFrame, hfind]
  | some config =>
    by_cases hdlc : f.dlc < config.start_byte + config.length
    · simp [Router_ProcessCanFrame, hfind, hdlc, Router_UART_Write_stats]
    · simp [Router_ProcessCanFrame, hfind, hdlc, FormatAndSendSignal_stats]

/-- The frame counters are untouched by `Router_Poll`. -/
theorem Router_Poll_frame_counters (w : System) :
    (Router_Poll w).router_stats.frames_processed = w.router_stats.frames_processed ∧
    (Router_Poll w).router_stats.frames_routed = w.router_stats.frames_routed ∧
    (Router_Poll w).router_stats.frames_dropped = w.router_stats.frames_dropped := by
  rw [Router_Poll_stats, Router_Poll_uart_stats, Router_Poll_can_stats]
  split_ifs <;> exact ⟨rfl, rfl, rfl⟩

/-- One step preserves `frames_processed = frames_routed + frames_dropped (mod 2^32)`. -/
theorem RouterOp_apply_balance (w : System) (op : RouterOp)
    (h : w.router_stats.frames_processed
      = u32 (w.router_stats.frames_routed + w.router_stats.frames_dropped)) :
    (op.apply w).router_stats.frames_processed
      = u32 ((op.apply w).router_stats.frames_routed
          + (op.apply w).router_stats.frames_dropped) := by
  cases op with
  | processCanFrame frame =>
    cases frame with
    | none => exact h
    | some f =>
      obtain ⟨hp, hrd⟩ := Router_ProcessCanFrame_counters w f
      have e : RouterOp.apply w (RouterOp.processCanFrame (some f))
          = Router_ProcessCanFrame w (some f) := rfl
      rw [e]
      rcases hrd with ⟨hr, hd⟩ | ⟨hr, hd⟩
      · rw [hp, hr, hd, h]
        simp only [u32]
        omega
      · rw [hp, hr, hd, h]
        simp only [u32]
        omega
  | poll =>
    obtain ⟨hp, hr, hd⟩ := Router_Poll_frame_counters w
    have e : RouterOp.apply w RouterOp.poll = Router_Poll w := rfl
    rw [e, hp, hr, hd]
    exact h
  | getStatistics => exact h
  | clearStatistics => rfl
  | canOp op => exact h
  | uartOp op => exact h

theorem routerRun_balance (ops : List RouterOp) (w : System)
    (h : w.router_stats.frames_processed
      = u32 (w.router_stats.frames_routed + w.router_stats.frames_dropped)) :
    (routerRun w ops).router_stats.frames_processed
      = u32 ((routerRun w ops).router_stats.frames_routed
          + (routerRun w ops).router_stats.frames_dropped) := by
  induction ops generalizing w with
  | nil => exact h
  | cons op ops ih => exact ih (op.apply w) (RouterOp_apply_balance w op h)

/-- C34: in every state reached from power-on by any sequence of calls of
`Router_ProcessCanFrame`, `Router_Poll`, `Router_GetStatistics` and
`Router_ClearStatistics`, interleaved with any operations on the two drivers,
`frames_processed` equals `frames_routed + frames_dropped` modulo `2^32`. -/
theorem C34_processed_equals_routed_plus_dropped (ops : List RouterOp) :
    (routerRun System.init ops).router_stats.frames_processed
      = ((routerRun System.init ops).router_stats.frames_routed
          + (routerRun System.init ops).router_stats.frames_dropped) % 2 ^ 32 ∧
    Router_GetStatistics (routerRun System.init ops)
      = (routerRun System.init ops).router_stats :=
  ⟨routerRun_balance ops System.init rfl, rfl⟩

/-! ## Router: both latches are clear after a poll -/

/-- The latches after the two blocks of `Router_Poll`. -/
theorem Router_Poll_latches (w : System) :
    (Router_Poll w).can.last_error = CanError.NONE ∧
    (Router_Poll w).uart.last_error = UartError.NONE := by
  have hcan : (Router_Poll_can w).can.last_error = CanError.NONE := by
    by_cases h : w.can.last_error = CanError.NONE
    · rw [Router_Poll_can_clear w h]
      exact h
    · rw [Router_Poll_can_set w h]
      rfl
  have huart : ∀ v : System, (Router_Poll_uart v).can = v.can ∧
      (Router_Poll_uart v).uart.last_error = UartError.NONE := by
    intro v
    by_cases h : v.uart.last_error = UartError.NONE
    · rw [Router_Poll_uart_clear v h]
      exact ⟨rfl, h⟩
    · rw [Router_Poll_uart_set v h]
      exact ⟨rfl, rfl⟩
  have hu := huart (Router_Poll_can w)
  constructor
  · show (Router_Poll_uart (Router_Poll_can w)).can.last_error = CanError.NONE
    rw [hu.1]
    exact hcan
  · exact hu.2

theorem CAN_GetLastError_fst (s : CanState) : (CAN_GetLastError s).1 = s.last_error := rfl

theorem UART_GetLastError_fst (s : UartState) : (UART_GetLastError s).1 = s.last_error := rfl

/-- C35: for every state at entry, after `Router_Poll` both `CAN_GetLastError` and
`UART_GetLastError` return NONE.  This includes the polls in which an error line is itself
refused by `UART_Write`: in the state `pollBusySample` the CAN error line latches BUFFER_FULL
during the first block, the second block reads it, and both latches are NONE at the end. -/
theorem C35_poll_leaves_both_latches_clear (w : System) :
    (CAN_GetLastError (Router_Poll w).can).1 = CanError.NONE ∧
    (UART_GetLastError (Router_Poll w).uart).1 = UartError.NONE ∧
    (Router_Poll_can pollBusySample).uart.last_error = UartError.BUFFER_FULL ∧
    (UART_GetLastError (Router_Poll pollBusySample).uart).1 = UartError.NONE := by
  obtain ⟨h1, h2, h3⟩ := pollBusySample_entry
  have hw := Router_Poll_latches w
  have hp := Router_Poll_latches pollBusySample
  refine ⟨?_, ?_, ?_, ?_⟩
  · rw [CAN_GetLastError_fst]
    exact hw.1
  · rw [UART_GetLastError_fst]
    exact hw.2
  · rw [Router_Poll_can_uart_latch, h1, h2, h3]
    decide
  · rw [UART_GetLastError_fst]
    exact hp.2

/-! ## Router: payload bytes read -/

theorem ExtractSignalValue_congr (d e : Nat → Nat) (config : SignalConfig)
    (h : ∀ i ∈ ExtractSignalValue_reads config, d i = e i) :
    ExtractSignalValue d config = ExtractSignalValue e config := by
  unfold ExtractSignalValue_reads at h
  unfold ExtractSignalValue
  by_cases h1 : config.length = 1
  · simp only [h1, if_true] at h ⊢
    exact h _ (List.mem_singleton.mpr rfl)
  · by_cases h2 : config.length = 2
    · simp only [h1, h2, if_true, if_false] at h ⊢
      rw [h _ (List.mem_cons_self _ _), h _ (List.mem_cons_of_mem _ (List.mem_singleton.mpr rfl))]
    · by_cases h4 : config.length = 4
      · simp only [h1, h2, h4, if_true, if_false] at h ⊢
        rw [h (config.start_byte + 3) (by simp), h (config.start_byte + 2) (by simp),
          h (config.start_byte + 1) (by simp), h config.start_byte (by simp)]
      · simp only [h1, h2, h4, if_false]

theorem ExtractSignalValue_reads_lt (config : SignalConfig) (i : Nat)
    (h : i ∈ ExtractSignalValue_reads config) : i < config.start_byte + config.length := by
  unfold ExtractSignalValue_reads at h
  split_ifs at h with h1 h2 h4
  · simp only [List.mem_singleton] at h
    omega
  · simp only [List.mem_cons, List.mem_singleton, List.not_mem_nil, or_false] at h
    omega
  · simp only [List.mem_cons, List.mem_singleton, List.not_mem_nil, or_false] at h
    omega
  · exact absurd h (List.not_mem_nil _)

theorem table_rule_within_payload (config : SignalConfig) (h : config ∈ signal_table) :
    config.start_byte + config.length ≤ 8 := by
  simp only [signal_table, List.mem_cons, List.mem_singleton, List.not_mem_nil, or_false] at h
  rcases h with rfl | rfl | rfl <;> decide

/-- Every index `Router_ProcessCanFrame` reads is below 8 and below the frame's DLC. -/
theorem Router_ProcessCanFrame_reads_bound (f : CanFrame) (i : Nat)
    (h : i ∈ Router_ProcessCanFrame_reads f) : i < 8 ∧ i < f.dlc := by
  unfold Router_ProcessCanFrame_reads at h
  cases hfind : FindSignalConfig f.id with
  | none =>
    rw [hfind] at h
    exact absurd h (List.not_mem_nil _)
  | some config =>
    rw [hfind] at h
    dsimp only at h
    by_cases hdlc : f.dlc < config.start_byte + config.length
    · rw [if_pos hdlc] at h
      exact absurd h (List.not_mem_nil _)
    · rw [if_neg hdlc] at h
      have h1 := ExtractSignalValue_reads_lt config i h
      have h2 := table_rule_within_payload config (FindSignalConfig_mem f.id config hfind)
      omega

/-- The result of `Router_ProcessCanFrame` depends on the payload only through the bytes at
the indices it reads. -/
theorem Router_ProcessCanFrame_congr (w : System) (f g : CanFrame) (hid : f.id = g.id)
    (hdlc : f.dlc = g.dlc) (h : ∀ i ∈ Router_ProcessCanFrame_reads f, f.data i = g.data i) :
    Router_ProcessCanFrame w (some f) = Router_ProcessCanFrame w (some g) := by
  unfold Router_ProcessCanFrame_reads at h
  cases hfind : FindSignalConfig f.id with
  | none =>
    have hg : FindSignalConfig g.id = none := by rw [← hid]; exact hfind
    simp only [Router_ProcessCanFrame, hfind, hg]
  | some config =>
    have hg : FindSignalConfig g.id = some config := by rw [← hid]; exact hfind
    rw [hfind] at h
    dsimp only at h
    by_cases hshort : f.dlc < config.start_byte + config.length
    · have hshort2 : g.dlc < config.start_byte + config.length := by rw [← hdlc]; exact hshort
      simp only [Router_ProcessCanFrame, hfind, hg, hshort, hshort2, if_true, hid]
    · have hshort2 : ¬ g.dlc < config.start_byte + config.length := by
        rw [← hdlc]; exact hshort
      rw [if_neg hshort] at h
      have he := ExtractSignalValue_congr f.data g.data config h
      simp only [Router_ProcessCanFrame, hfind, hg, hshort, hshort2, if_false, he]

/-- C36: every index of `data[]` that `Router_ProcessCanFrame` reads is below 8 and below the
frame's DLC, and the result depends on the payload only through the bytes read; so two
frames with the same identifier and DLC whose payloads agree on the first `min(DLC, 8)` bytes
(they may differ in the bytes beyond the DLC and in the timestamp) lead from the same state
to the same state: the same line handed to the serial driver and the same counters. -/
theorem C36_only_valid_payload_bytes_are_read (w : System) (f g : CanFrame)
    (hid : f.id = g.id) (hdlc : f.dlc = g.dlc)
    (hdata : ∀ i, i < min f.dlc 8 → f.data i = g.data i) :
    (∀ i ∈ Router_ProcessCanFrame_reads f, i < 8 ∧ i < f.dlc) ∧
    (∀ h : CanFrame, h.id = f.id → h.dlc = f.dlc →
      (∀ i ∈ Router_ProcessCanFrame_reads f, f.data i = h.data i) →
      Router_ProcessCanFrame w (some f) = Router_ProcessCanFrame w (some h)) ∧
    Router_ProcessCanFrame w (some f) = Router_ProcessCanFrame w (some g) ∧
    (Router_ProcessCanFrame w (some f)).serial_calls
      = (Router_ProcessCanFrame w (some g)).serial_calls ∧
    (Router_ProcessCanFrame w (some f)).router_stats
      = (Router_ProcessCanFrame w (some g)).router_stats := by
  have hb := Router_ProcessCanFrame_reads_bound f
  have heq : Router_ProcessCanFrame w (some f) = Router_ProcessCanFrame w (some g) := by
    apply Router_ProcessCanFrame_congr w f g hid hdlc
    intro i hi
    have := hb i hi
    exact hdata i (by omega)
  refine ⟨hb, ?_, heq, by rw [heq], by rw [heq]⟩
  intro h hid2 hdlc2 hh
  exact Router_ProcessCanFrame_congr w f h hid2.symm hdlc2.symm hh

theorem C36_only_valid_payload_bytes_are_read_witness :
    Router_ProcessCanFrame_reads (mkFrame 0x101 3 [0, 0, 130]) = [2] ∧
    Router_ProcessCanFrame System.init (some (mkFrame 0x101 3 [0, 0, 130]))
      = Router_ProcessCanFrame System.init
          (some ⟨0x101, 3, fun i => [0, 0, 130, 0xAA, 0xBB, 0xCC, 0xDD, 0xEE].getD i 0, 77⟩) :=
  ⟨by decide,
   (C36_only_valid_payload_bytes_are_read System.init (mkFrame 0x101 3 [0, 0, 130])
      ⟨0x101, 3, fun i => [0, 0, 130, 0xAA, 0xBB, 0xCC, 0xDD, 0xEE].getD i 0, 77⟩ rfl rfl
      (fun i hi => by
        have h3 : i < 3 := lt_of_lt_of_le hi (min_le_left _ _)
        interval_cases i <;> rfl)).2.2.1⟩

/-! ## Serial driver: transmission flag and transmit-empty interrupt -/

theorem and_not32_txeie (x : Nat) : (x &&& not32 USART_CR1_TXEIE) &&& USART_CR1_TXEIE = 0 := by
  have h : not32 USART_CR1_TXEIE &&& USART_CR1_TXEIE = 0 := by decide
  rw [Nat.and_assoc, h, Nat.and_zero]

theorem UART_StartTransmission_link (s : UartState)
    (h : s.tx_in_progress = true ↔ s.hw.CR1 &&& USART_CR1_TXEIE ≠ 0) :
    (UART_StartTransmission s).tx_in_progress = true ↔
      (UART_StartTransmission s).hw.CR1 &&& USART_CR1_TXEIE ≠ 0 := by
  unfold UART_StartTransmission
  split_ifs
  · exact ⟨fun _ => or_and_self_ne_zero _ _ (by decide), fun _ => rfl⟩
  · exact h

theorem UART_WriteData_copy_foldl_hw (d : Nat → Nat) (l : List Nat) (s : UartState) :
    (l.foldl (UART_WriteData_copy d) s).tx_in_progress = s.tx_in_progress ∧
    (l.foldl (UART_WriteData_copy d) s).hw = s.hw := by
  induction l generalizing s with
  | nil => exact ⟨rfl, rfl⟩
  | cons i l ih =>
    rw [List.foldl_cons]
    exact ih (UART_WriteData_copy d s i)

theorem UART_WriteData_link (s : UartState) (data : Option (Nat → Nat)) (length : Nat)
    (h : s.tx_in_progress = true ↔ s.hw.CR1 &&& USART_CR1_TXEIE ≠ 0) :
    (UART_WriteData s data length).2.tx_in_progress = true ↔
      (UART_WriteData s data length).2.hw.CR1 &&& USART_CR1_TXEIE ≠ 0 := by
  cases data with
  | none => exact h
  | some d =>
    unfold UART_WriteData
    dsimp only
    split_ifs with h0 hfull hidle
    · exact h
    · exact h
    · apply UART_StartTransmission_link
      obtain ⟨e1, e2⟩ := UART_WriteData_copy_foldl_hw d (List.range length) s
      rw [e1, e2]
      exact h
    · obtain ⟨e1, e2⟩ := UART_WriteData_copy_foldl_hw d (List.range length) s
      rw [e1, e2]
      exact h

theorem UART_IRQHandler_tx_link (sr : Nat) (s : UartState)
    (h : s.tx_in_progress = true ↔ s.hw.CR1 &&& USART_CR1_TXEIE ≠ 0) :
    (UART_IRQHandler_tx sr s).tx_in_progress = true ↔
      (UART_IRQHandler_tx sr s).hw.CR1 &&& USART_CR1_TXEIE ≠ 0 := by
  unfold UART_IRQHandler_tx
  split_ifs
  · exact h
  · constructor
    · intro hf
      exact absurd hf (by decide)
    · intro hne
      exact absurd (and_not32_txeie s.hw.CR1) hne
  · exact h

theorem UartOp_apply_link (s : UartState) (op : UartOp)
    (h : s.tx_in_progress = true ↔ s.hw.CR1 &&& USART_CR1_TXEIE ≠ 0) :
    (op.apply s).tx_in_progress = true ↔ (op.apply s).hw.CR1 &&& USART_CR1_TXEIE ≠ 0 := by
  cases op with
  | irq sr dr =>
    show (UART_IRQHandler { s with hw := { s.hw with SR := sr, DR := dr } }).tx_in_progress
        = true ↔
      (UART_IRQHandler { s with hw := { s.hw with SR := sr, DR := dr } }).hw.CR1
        &&& USART_CR1_TXEIE ≠ 0
    rw [UART_IRQHandler_blocks]
    obtain ⟨_, _, _, _, _, c6, c7, _, _, _⟩ := UART_IRQHandler_status_tx sr
      (UART_IRQHandler_tx sr
        (UART_IRQHandler_rx sr { s with hw := { s.hw with SR := sr, DR := dr } }))
    rw [c6, c7]
    apply UART_IRQHandler_tx_link
    obtain ⟨_, _, _, _, r5, r6⟩ := UART_IRQHandler_rx_tx sr
      { s with hw := { s.hw with SR := sr, DR := dr } }
    rw [r5, r6]
    exact h
  | writeData data length => exact UART_WriteData_link s data length h
  | write str =>
    cases str with
    | none => exact h
    | some cs => exact UART_WriteData_link s _ _ h
  | read data length =>
    obtain ⟨_, _, _, _, r5, r6⟩ := UART_Read_tx s data length
    show (UART_Read s data length).2.1.tx_in_progress = true ↔
      (UART_Read s data length).2.1.hw.CR1 &&& USART_CR1_TXEIE ≠ 0
    rw [r5, r6]
    exact h
  | getTxFreeSpace => exact h
  | getRxCount => exact h
  | getLastError => exact h

/-- The invariant of the outbound path together with the agreement of `tx_in_progress` and
the transmit-empty interrupt enable is kept by every operation. -/
theorem UartCall_apply_inv (s : UartState) (op : UartCall)
    (h : (∃ acc, UartTxInv s acc) ∧
      (s.tx_in_progress = true ↔ s.hw.CR1 &&& USART_CR1_TXEIE ≠ 0)) :
    (∃ acc, UartTxInv (op.apply s) acc) ∧
      ((op.apply s).tx_in_progress = true ↔ (op.apply s).hw.CR1 &&& USART_CR1_TXEIE ≠ 0) := by
  obtain ⟨⟨acc, hacc⟩, hl⟩ := h
  cases op with
  | driver o => exact ⟨⟨_, UartTxInv_apply s o acc hacc⟩, UartOp_apply_link s o hl⟩
  | clearError =>
    exact ⟨⟨acc, UartTxInv_congr s (UART_ClearError s) acc hacc rfl rfl rfl rfl rfl rfl⟩, hl⟩

theorem uartCallRun_inv (ops : List UartCall) (s : UartState)
    (h : (∃ acc, UartTxInv s acc) ∧
      (s.tx_in_progress = true ↔ s.hw.CR1 &&& USART_CR1_TXEIE ≠ 0)) :
    (∃ acc, UartTxInv (uartCallRun s ops) acc) ∧
      ((uartCallRun s ops).tx_in_progress = true ↔
        (uartCallRun s ops).hw.CR1 &&& USART_CR1_TXEIE ≠ 0) := by
  induction ops generalizing s with
  | nil => exact h
  | cons op ops ih => exact ih (op.apply s) (UartCall_apply_inv s op h)

/-- C39: in every state of the serial driver reached from a power-on state (empty buffers,
transmission inactive, transmit-empty interrupt disabled in CR1, the other bits of CR1
arbitrary) by any sequence of `UART_WriteData`, `UART_Write`, `UART_Read`, `UART_ClearError`
calls (and the three getters) and interrupt-handler invocations, `tx_in_progress` is true
exactly when the transmit-empty interrupt is enabled in CR1, and `tx_count > 0` implies
`tx_in_progress`. -/
theorem C39_buffered_bytes_have_active_transmission (cr1 : Nat)
    (hcr : cr1 &&& USART_CR1_TXEIE = 0) (ops : List UartCall) :
    ((uartCallRun { UartState.init with hw := ⟨0, 0, cr1, []⟩ } ops).tx_in_progress = true ↔
      (uartCallRun { UartState.init with hw := ⟨0, 0, cr1, []⟩ } ops).hw.CR1
        &&& USART_CR1_TXEIE ≠ 0) ∧
    (0 < (uartCallRun { UartState.init with hw := ⟨0, 0, cr1, []⟩ } ops).tx_count →
      (uartCallRun { UartState.init with hw := ⟨0, 0, cr1, []⟩ } ops).tx_in_progress
        = true) := by
  have hinit : (∃ acc, UartTxInv { UartState.init with hw := ⟨0, 0, cr1, []⟩ } acc) ∧
      (({ UartState.init with hw := ⟨0, 0, cr1, []⟩ } : UartState).tx_in_progress = true ↔
        ({ UartState.init with hw := ⟨0, 0, cr1, []⟩ } : UartState).hw.CR1
          &&& USART_CR1_TXEIE ≠ 0) :=
    ⟨⟨[], UartTxInv_congr UartState.init _ [] UartTxInv_init rfl rfl rfl rfl rfl rfl⟩,
     ⟨fun h => Bool.noConfusion h, fun h => absurd hcr h⟩⟩
  obtain ⟨⟨acc, q, _, hq, hidle⟩, hl⟩ := uartCallRun_inv ops _ hinit
  refine ⟨hl, ?_⟩
  intro hpos
  by_contra hne
  have hf : (uartCallRun { UartState.init with hw := ⟨0, 0, cr1, []⟩ } ops).tx_in_progress
      = false := by
    cases hb : (uartCallRun { UartState.init with hw := ⟨0, 0, cr1, []⟩ } ops).tx_in_progress
      with
    | false => rfl
    | true => exact absurd hb hne
  have hnil := hidle hf
  rw [hq.1, hnil] at hpos
  exact absurd hpos (by decide)

theorem C39_buffered_bytes_have_active_transmission_witness :
    (uartCallRun { UartState.init with hw := ⟨0, 0, 0x202C, []⟩ }
      [UartCall.driver (UartOp.write (some "RPM,2000\r\n".toList)), UartCall.clearError,
       UartCall.driver (UartOp.irq USART_SR_TXE 0)]).tx_in_progress = true :=
  (C39_buffered_bytes_have_active_transmission 0x202C (by decide)
    [UartCall.driver (UartOp.write (some "RPM,2000\r\n".toList)), UartCall.clearError,
     UartCall.driver (UartOp.irq USART_SR_TXE 0)]).2 (by decide)

/-! ## CAN controller: the wait for a transmit mailbox -/

theorem pollWhile_first_ready (busy : Nat → Bool) (n t k : Nat) (hn : n ≤ t)
    (hb : ∀ j, j < n → busy (k + j) = true) (hr : busy (k + n) = false) :
    pollWhile busy t k = (t - n, k + n + 1) := by
  induction n generalizing t k with
  | zero => exact pollWhile_ready busy t k hr
  | succ n ih =>
    obtain ⟨t1, rfl⟩ : ∃ t1, t = t1 + 1 := ⟨t - 1, by omega⟩
    have h0 : busy k = true := hb 0 (Nat.succ_pos _)
    rw [pollWhile]
    simp only [h0, if_true]
    rw [ih t1 (k + 1) (by omega) (fun j hj => by
      have := hb (j + 1) (by omega)
      rw [show k + 1 + j = k + (j + 1) by omega]
      exact this) (by
      rw [show k + 1 + n = k + (n + 1) by omega]
      exact hr)]
    congr 1
    · omega
    · omega

/-- The result of `CAN_WaitForTxMailbox` when a mailbox-empty flag first reads as set at the
poll with index `n` (counting from 0) and the counter starts at `n` or more: true exactly
when the counter has not yet reached 0 at that poll. -/
theorem CAN_WaitForTxMailbox_first_set (clk : Nat) (tsr : Nat → Nat) (n : Nat)
    (hn : n ≤ u32 (CAN_TIMEOUT_MS * (clk / 1000000)))
    (hb : ∀ j, j < n → tsr j &&& (CAN_TSR_TME0 ||| CAN_TSR_TME1 ||| CAN_TSR_TME2) = 0)
    (hr : tsr n &&& (CAN_TSR_TME0 ||| CAN_TSR_TME1 ||| CAN_TSR_TME2) ≠ 0) :
    (CAN_WaitForTxMailbox clk tsr).1
      = decide (n < u32 (CAN_TIMEOUT_MS * (clk / 1000000))) := by
  simp only [CAN_WaitForTxMailbox]
  rw [pollWhile_first_ready _ n _ 0 hn (fun j hj => by
    rw [Nat.zero_add]
    exact decide_eq_true (hb j hj)) (by
    rw [Nat.zero_add]
    exact decide_eq_false hr)]
  congr 1
  exact propext ⟨fun h => by omega, fun h => by omega⟩

/-- C40: at the core clock of 168 MHz the down-counter of `CAN_WaitForTxMailbox` starts at
16800.  When no mailbox-empty flag reads as set at any poll, the function returns true (the
counter expires and wraps to `0xFFFFFFFF`); when a flag first reads as set at the poll made
with the counter at 0 (the 16801st), it returns false although a flag was observed; when a
flag reads as set at an earlier poll, it returns true. -/
theorem C40_wait_returns_true_after_expiry :
    u32 (CAN_TIMEOUT_MS * (168000000 / 1000000)) = 16800 ∧
    (CAN_WaitForTxMailbox 168000000 (fun _ => 0)).1 = true ∧
    (CAN_WaitForTxMailbox 168000000 (fun k => if k = 16800 then CAN_TSR_TME0 else 0)).1
      = false ∧
    (CAN_WaitForTxMailbox 168000000 (fun k => if k = 16799 then CAN_TSR_TME0 else 0)).1
      = true := by
  have hc : u32 (CAN_TIMEOUT_MS * (168000000 / 1000000)) = 16800 := by decide
  refine ⟨hc, CAN_WaitForTxMailbox_never_empty _ _ (fun _ => by decide), ?_, ?_⟩
  · rw [CAN_WaitForTxMailbox_first_set 168000000 _ 16800 (by rw [hc])
      (fun j hj => by
        have hne : j ≠ 16800 := by omega
        simp [hne])
      (by decide), hc]
    decide
  · rw [CAN_WaitForTxMailbox_first_set 168000000 _ 16799 (by rw [hc]; decide)
      (fun j hj => by
        have hne : j ≠ 16799 := by omega
        simp [hne])
      (by decide), hc]
    decide

/-! ## The conversion `%d` and the decimal numerals of `toString` -/

theorem digitChar_eq_ofNat (d : Nat) (h : d < 10) : Nat.digitChar d = Char.ofNat (48 + d) := by
  interval_cases d <;> rfl

theorem toDigitsCore_eq_decimalAux (f1 : Nat) :
    ∀ (n f2 : Nat) (ds : List Char), n < f1 → n < 10 ^ f2 → 0 < f2 →
      Nat.toDigitsCore 10 f1 n ds = decimalAux f2 n ++ ds := by
  induction f1 with
  | zero =>
    intro n f2 ds h
    exact absurd h (Nat.not_lt_zero _)
  | succ f1 ih =>
    intro n f2 ds h1 h2 h3
    obtain ⟨f2, rfl⟩ : ∃ k, f2 = k + 1 := ⟨f2 - 1, by omega⟩
    by_cases hn : n < 10
    · have hq : n / 10 = 0 := Nat.div_eq_of_lt hn
      have hm : n % 10 = n := Nat.mod_eq_of_lt hn
      simp only [Nat.toDigitsCore, decimalAux, hq, hn, if_true, hm, digitChar_eq_ofNat n hn,
        List.singleton_append]
    · have hq : n / 10 ≠ 0 := by omega
      have hlt : n / 10 < 10 ^ f2 := by
        rw [Nat.pow_succ] at h2
        omega
      have hpos : 0 < f2 := by
        rcases Nat.eq_zero_or_pos f2 with h0 | h0
        · subst h0
          simp at hlt
          omega
        · exact h0
      simp only [Nat.toDigitsCore, decimalAux, hq, hn, if_false]
      rw [ih (n / 10) f2 _ (by omega) hlt hpos,
        digitChar_eq_ofNat (n % 10) (Nat.mod_lt _ (by decide)), List.append_assoc,
        List.singleton_append]

theorem lt_two_pow_bitLengthAux (fuel : Nat) :
    ∀ m, m ≤ fuel → m < 2 ^ bitLengthAux fuel m := by
  induction fuel with
  | zero =>
    intro m h
    have : m = 0 := by omega
    subst this
    simp [bitLengthAux]
  | succ fuel ih =>
    intro m h
    unfold bitLengthAux
    split_ifs with h0
    · subst h0
      simp
    · have := ih (m / 2) (by omega)
      rw [Nat.pow_succ]
      omega

/-- The model of `%d` for a non-negative value writes the decimal numeral given by `toString`. -/
theorem decimal_eq_toString (n : Nat) : decimal n = (toString n).toList := by
  show decimal n = Nat.toDigitsCore 10 (n + 1) n []
  have h2 : n < 2 ^ bitLength n := lt_two_pow_bitLengthAux n n (Nat.le_refl _)
  have h10 : n < 10 ^ (bitLength n + 1) := by
    have a : 2 ^ bitLength n ≤ 10 ^ bitLength n := Nat.pow_le_pow_left (by decide) _
    have b : 10 ^ bitLength n ≤ 10 ^ (bitLength n + 1) :=
      Nat.pow_le_pow_right (by decide) (Nat.le_succ _)
    omega
  rw [toDigitsCore_eq_decimalAux (n + 1) n (bitLength n + 1) [] (Nat.lt_succ_self _) h10
    (Nat.succ_pos _), List.append_nil]
  rfl

theorem fmt_d_ofNat (n : Nat) : fmt_d (n : Int) = (toString n).toList := by
  unfold fmt_d
  rw [if_neg (by omega), Int.natAbs_ofNat, decimal_eq_toString]

/-! ## Test generator: the generated values come back -/

/-- A dyadic value with at most 24 significant bits and exponent at least `-149` is a
binary32 value: rounding leaves it unchanged. -/
theorem F32_round_exact (n : Bool) (m : Nat) (e : Int) (hm : m < 2 ^ 24) (he : -149 ≤ e) :
    F32.round ⟨n, m, e⟩ = ⟨n, m, e⟩ := by
  have hb : bitLength m ≤ 24 := bitLengthAux_le m m 24 hm
  unfold F32.round
  dsimp only
  rw [if_pos (by omega)]

/-- The integer printed for the RPM rule: a quarter of the raw value, rounded half up. -/
theorem rpm_rounded_value (r : Nat) (h : r < 2 ^ 23) :
    F32.toInt32 (F32.add (F32.add (F32.mul (F32.ofUInt32 r) rule_rpm.scale) rule_rpm.offset)
      f32_0_5) = ((r + 2) / 4 : Nat) := by
  have h24 : r < 2 ^ 24 := by omega
  have e1 : F32.ofUInt32 r = ⟨false, r, 0⟩ := F32_round_exact false r 0 h24 (by decide)
  have e2 : F32.mul ⟨false, r, 0⟩ rule_rpm.scale = ⟨false, r, -2⟩ := by
    have := F32_round_exact false r (-2) h24 (by decide)
    simpa [F32.mul, rule_rpm, f32_0_25] using this
  have e3 : F32.add ⟨false, r, -2⟩ rule_rpm.offset = ⟨false, r, -2⟩ := by
    have := F32_round_exact false r (-2) h24 (by decide)
    simpa [F32.add, F32.scaled, rule_rpm, f32_0_0] using this
  have e4 : F32.add ⟨false, r, -2⟩ f32_0_5 = ⟨false, r + 2, -2⟩ := by
    have := F32_round_exact false (r + 2) (-2) (by omega) (by decide)
    have hs : ((r : Int) + 2).natAbs = r + 2 := by omega
    have hn : ¬ ((r : Int) + 2 < 0) := by omega
    simp [F32.add, F32.scaled, f32_0_5, hs, hn]
    exact this
  have hp : (2 : Nat) ^ (-(-2 : Int)).toNat = 4 := by decide
  rw [e1, e2, e3, e4]
  have hc : ¬ ((0 : Int) ≤ -2) := by decide
  simp only [F32.toInt32, hc, if_false, hp, Bool.false_eq_true]
  omega

/-- The integer printed for the SPEED rule for the raw values the generator sends. -/
theorem speed_rounded_value :
    ∀ s < 121, F32.toInt32 (F32.add (F32.add (F32.mul (F32.ofUInt32 (s * 10))
      rule_speed.scale) rule_speed.offset) f32_0_5) = (s : Int) := by
  decide!

theorem and_255_eq_mod (x : Nat) : x &&& 0xFF = x % 256 :=
  Nat.and_pow_two_sub_one_eq_mod x 8

theorem shiftRight_8_eq_div (x : Nat) : x >>> 8 = x / 256 := Nat.shiftRight_eq_div_pow x 8

/-- The two bytes the generator writes for a 16-bit raw value are recombined by the
shift-and-or expression of `ExtractSignalValue`. -/
theorem two_bytes_recombine (raw : Nat) (h : raw < 65536) :
    u32 ((u8 ((raw >>> 8) &&& 0xFF) <<< 8) ||| u8 (raw &&& 0xFF)) = raw := by
  rw [shiftRight_8_eq_div, and_255_eq_mod, and_255_eq_mod]
  have h1 : u8 (raw / 256 % 256) = raw / 256 := by
    simp only [u8]
    omega
  have h0 : u8 (raw % 256) = raw % 256 := by
    simp only [u8]
    omega
  have hs : (raw / 256) <<< 8 ||| raw % 256 = raw / 256 * 256 + raw % 256 :=
    (shiftLeft_or_eq_add _ _ 8 (by omega)).trans (by norm_num)
  rw [h1, h0, hs]
  simp only [u32]
  omega

theorem ExtractSignalValue_rpm_payload (v : Nat) (h : v ≤ 6000) :
    ExtractSignalValue (GenerateEngineRpmFrame_data v) rule_rpm = v * 4 := by
  have hu : u16 (v * 4) = v * 4 := Nat.mod_eq_of_lt (by omega)
  have e : ExtractSignalValue (GenerateEngineRpmFrame_data v) rule_rpm
      = u32 ((u8 ((u16 (v * 4) >>> 8) &&& 0xFF) <<< 8) ||| u8 (u16 (v * 4) &&& 0xFF)) := by
    simp [ExtractSignalValue, rule_rpm, GenerateEngineRpmFrame_data, Function.update]
  rw [e, hu]
  exact two_bytes_recombine _ (by omega)

theorem ExtractSignalValue_speed_payload (s : Nat) (h : s ≤ 120) :
    ExtractSignalValue (GenerateVehicleSpeedFrame_data s) rule_speed = s * 10 := by
  have hu : u16 (s * 10) = s * 10 := Nat.mod_eq_of_lt (by omega)
  have e : ExtractSignalValue (GenerateVehicleSpeedFrame_data s) rule_speed
      = u32 ((u8 ((u16 (s * 10) >>> 8) &&& 0xFF) <<< 8) ||| u8 (u16 (s * 10) &&& 0xFF)) := by
    simp [ExtractSignalValue, rule_speed, GenerateVehicleSpeedFrame_data, Function.update]
  rw [e, hu]
  exact two_bytes_recombine _ (by omega)

theorem ExtractSignalValue_temp_payload (t : Nat) :
    ExtractSignalValue (GenerateEngineTempFrame_data t) rule_temp = t := by
  simp [ExtractSignalValue, rule_temp, GenerateEngineTempFrame_data, Function.update]

/-- The record of serial calls after `Router_ProcessCanFrame` on a frame that matches a rule
and is long enough for it. -/
theorem Router_ProcessCanFrame_routed_calls (w : System) (f : CanFrame) (config : SignalConfig)
    (hfind : FindSignalConfig f.id = some config)
    (hdlc : config.start_byte + config.length ≤ f.dlc) :
    (Router_ProcessCanFrame w (some f)).serial_calls
      = w.serial_calls ++ [sprintf config.format_string [FmtArg.int (F32.toInt32 (F32.add
          (F32.add (F32.mul (F32.ofUInt32 (ExtractSignalValue f.data config)) config.scale)
            config.offset) f32_0_5))]] := by
  have hmem := FindSignalConfig_mem f.id config hfind
  have hnot : ¬ f.dlc < config.start_byte + config.length := by omega
  have hr := F32_toInt32_range (F32.add
    (F32.add (F32.mul (F32.ofUInt32 (ExtractSignalValue f.data config)) config.scale)
      config.offset) f32_0_5)
  have hlen := table_line_length config hmem _ hr.1 hr.2
  simp only [Router_ProcessCanFrame, hfind, hnot, if_false]
  rw [FormatAndSendSignal_calls _ config _ _ rfl hlen]
  rfl

/-- The line for a frame with DLC 8 that carries a generated payload in the bytes the rule
reads. -/
theorem generated_frame_line (w : System) (f : CanFrame) (config : SignalConfig)
    (d : Nat → Nat) (hfind : FindSignalConfig f.id = some config) (hdlc : f.dlc = 8)
    (hdata : ∀ i, i < 8 → f.data i = d i) :
    (Router_ProcessCanFrame w (some f)).serial_calls
      = w.serial_calls ++ [sprintf config.format_string [FmtArg.int (F32.toInt32 (F32.add
          (F32.add (F32.mul (F32.ofUInt32 (ExtractSignalValue d config)) config.scale)
            config.offset) f32_0_5))]] := by
  have h8 := table_rule_within_payload config (FindSignalConfig_mem f.id config hfind)
  rw [Router_ProcessCanFrame_routed_calls w f config hfind (by omega),
    ExtractSignalValue_congr f.data d config (fun i hi =>
      hdata i (by have := ExtractSignalValue_reads_lt config i hi; omega))]

/-- C38: a frame with DLC 8 that carries the payload built by `GenerateEngineRpmFrame` for
`rpm_value = v`, `800 <= v <= 6000`, under identifier 0x100 is routed to the line `RPM,v`;
one that carries the payload built by `GenerateEngineTempFrame` for `temp_value = t`,
`70 <= t <= 130`, under 0x101 is routed to `TEMP,(t - 40)`; one that carries the payload
built by `GenerateVehicleSpeedFrame` for `speed_value = s <= 120` under 0x102 is routed to
`SPEED,s`; each line ends with CR LF and the number is written in decimal.  The three
generator functions send these payloads with the identifiers 0x100, 0x101, 0x102 and DLC 8. -/
theorem C38_generated_values_are_decoded_back (w : System) (f : CanFrame) (hdlc : f.dlc = 8) :
    (∀ v, 800 ≤ v → v ≤ 6000 → f.id = 0x100 →
      (∀ i, i < 8 → f.data i = GenerateEngineRpmFrame_data v i) →
      (Router_ProcessCanFrame w (some f)).serial_calls
        = w.serial_calls ++ [("RPM," ++ toString v ++ "\r\n").toList]) ∧
    (∀ t, 70 ≤ t → t ≤ 130 → f.id = 0x101 →
      (∀ i, i < 8 → f.data i = GenerateEngineTempFrame_data t i) →
      (Router_ProcessCanFrame w (some f)).serial_calls
        = w.serial_calls ++ [("TEMP," ++ toString (t - 40) ++ "\r\n").toList]) ∧
    (∀ s, s ≤ 120 → f.id = 0x102 →
      (∀ i, i < 8 → f.data i = GenerateVehicleSpeedFrame_data s i) →
      (Router_ProcessCanFrame w (some f)).serial_calls
        = w.serial_calls ++ [("SPEED," ++ toString s ++ "\r\n").toList]) ∧
    (∀ (g : GenState) (d : CanDevice) (clk : Nat) (tsr : Nat → Nat),
      (GenerateEngineRpmFrame g d clk tsr).2
        = CAN_Send d clk tsr 0x100 (some (GenerateEngineRpmFrame_data g.rpm_value)) 8 ∧
      (GenerateEngineTempFrame g d clk tsr).2
        = CAN_Send d clk tsr 0x101 (some (GenerateEngineTempFrame_data g.temp_value)) 8 ∧
      (GenerateVehicleSpeedFrame g d clk tsr).2
        = CAN_Send d clk tsr 0x102 (some (GenerateVehicleSpeedFrame_data g.speed_value)) 8) := by
  refine ⟨?_, ?_, ?_, fun _ _ _ _ => ⟨rfl, rfl, rfl⟩⟩
  · intro v h1 h2 hid hdata
    have hfind : FindSignalConfig f.id = some rule_rpm := by rw [hid]; exact FindSignalConfig_rpm
    rw [generated_frame_line w f rule_rpm _ hfind hdlc hdata,
      ExtractSignalValue_rpm_payload v h2, rpm_rounded_value (v * 4) (by omega)]
    have hq : (v * 4 + 2) / 4 = v := by omega
    have e : sprintf rule_rpm.format_string [FmtArg.int ((v : Nat) : Int)]
        = "RPM,".toList ++ (fmt_d ((v : Nat) : Int) ++ "\r\n".toList) := rfl
    rw [hq, e, fmt_d_ofNat]
    simp only [String.toList, String.data_append, List.append_assoc]
  · intro t h1 h2 hid hdata
    have hfind : FindSignalConfig f.id = some rule_temp := by
      rw [hid]; exact FindSignalConfig_temp
    have hr := temp_rounded_value t (by omega)
    rw [if_neg (by omega)] at hr
    have hi : (t : Int) - 40 = ((t - 40 : Nat) : Int) := by omega
    rw [generated_frame_line w f rule_temp _ hfind hdlc hdata,
      ExtractSignalValue_temp_payload t, hr, hi]
    have e : sprintf rule_temp.format_string [FmtArg.int ((t - 40 : Nat) : Int)]
        = "TEMP,".toList ++ (fmt_d ((t - 40 : Nat) : Int) ++ "\r\n".toList) := rfl
    rw [e, fmt_d_ofNat]
    simp only [String.toList, String.data_append, List.append_assoc]
  · intro s h2 hid hdata
    have hfind : FindSignalConfig f.id = some rule_speed := by
      rw [hid]; exact FindSignalConfig_speed
    rw [generated_frame_line w f rule_speed _ hfind hdlc hdata,
      ExtractSignalValue_speed_payload s h2, speed_rounded_value s (by omega)]
    have e : sprintf rule_speed.format_string [FmtArg.int ((s : Nat) : Int)]
        = "SPEED,".toList ++ (fmt_d ((s : Nat) : Int) ++ "\r\n".toList) := rfl
    rw [e, fmt_d_ofNat]
    simp only [String.toList, String.data_append, List.append_assoc]

theorem C38_generated_values_are_decoded_back_witness :
    (Router_ProcessCanFrame System.init
      (some ⟨0x100, 8, GenerateEngineRpmFrame_data 2000, 0⟩)).serial_calls
      = System.init.serial_calls ++ [("RPM," ++ toString 2000 ++ "\r\n").toList] ∧
    GenerateEngineRpmFrame_data 2000 0 = 0x40 ∧ GenerateEngineRpmFrame_data 2000 1 = 0x1F ∧
    ("RPM," ++ toString 2000 ++ "\r\n") = "RPM,2000\r\n" :=
  ⟨(C38_generated_values_are_decoded_back System.init
      ⟨0x100, 8, GenerateEngineRpmFrame_data 2000, 0⟩ rfl).1 2000 (by decide) (by decide) rfl
      (fun _ _ => rfl),
   by decide, by decide, by decide⟩

/-! ## CAN controller: loopback round trip -/

/-- The identifier field written by `CAN_Send` is read back by the handler. -/
theorem loopback_identifier :
    ∀ id, id < 2048 →
      ((u32 (id <<< CAN_TI0R_STID_Pos) ||| CAN_TI0R_TXRQ) >>> CAN_RI0R_STID_Pos) &&& 0x7FF
        = id := by
  decide!

theorem loopback_dlc (dlc : Nat) (h : dlc ≤ 8) : u8 (dlc &&& CAN_RDT0R_DLC) = dlc := by
  interval_cases dlc <;> rfl

/-- The four bytes of a little-endian sum are recovered by shifting and masking. -/
theorem byte_of_sum (b0 b1 b2 b3 : Nat) (h0 : b0 < 256) (h1 : b1 < 256) (h2 : b2 < 256)
    (h3 : b3 < 256) :
    ((b0 + b1 * 256 + b2 * 65536 + b3 * 16777216) >>> (8 * 0)) &&& 0xFF = b0 ∧
    ((b0 + b1 * 256 + b2 * 65536 + b3 * 16777216) >>> (8 * 1)) &&& 0xFF = b1 ∧
    ((b0 + b1 * 256 + b2 * 65536 + b3 * 16777216) >>> (8 * 2)) &&& 0xFF = b2 ∧
    ((b0 + b1 * 256 + b2 * 65536 + b3 * 16777216) >>> (8 * 3)) &&& 0xFF = b3 := by
  simp only [and_255_eq_mod, Nat.shiftRight_eq_div_pow]
  norm_num
  omega

/-- The low data word built by `CAN_Send`, with the bytes at or beyond `dlc` replaced by 0. -/
theorem CAN_Send_data_low_masked (bytes : Nat → Nat) (dlc : Nat) (hb : ∀ i, bytes i < 256) :
    CAN_Send_data_low bytes dlc
      = (if 0 < dlc then bytes 0 else 0) + (if 1 < dlc then bytes 1 else 0) * 256
        + (if 2 < dlc then bytes 2 else 0) * 65536
        + (if 3 < dlc then bytes 3 else 0) * 16777216 := by
  obtain ⟨p1, p2, p3, p4⟩ := pack_four_bytes (bytes 0) (bytes 1) (bytes 2) (bytes 3)
    (hb 0) (hb 1) (hb 2) (hb 3)
  rcases Nat.lt_or_ge dlc 4 with hlt | hge
  · interval_cases dlc
    · simp only [CAN_Send_data_low, List.foldl]
      norm_num
    · simp only [CAN_Send_data_low, List.foldl]
      norm_num [p1]
    · simp only [CAN_Send_data_low, List.foldl]
      norm_num [p1, p2]
    · simp only [CAN_Send_data_low, List.foldl]
      norm_num [p1, p2, p3]
  · have c0 : 0 < dlc := by omega
    have c1 : 1 < dlc := by omega
    have c2 : 2 < dlc := by omega
    have c3 : 3 < dlc := by omega
    simp only [CAN_Send_data_low, List.foldl, c0, c1, c2, c3, if_true]
    norm_num [p1, p2, p3, p4]

/-- The high data word built by `CAN_Send`, with the bytes at or beyond `dlc` replaced by 0. -/
theorem CAN_Send_data_high_masked (bytes : Nat → Nat) (dlc : Nat) (hb : ∀ i, bytes i < 256)
    (hdlc : dlc ≤ 8) :
    CAN_Send_data_high bytes dlc
      = (if 4 < dlc then bytes 4 else 0) + (if 5 < dlc then bytes 5 else 0) * 256
        + (if 6 < dlc then bytes 6 else 0) * 65536
        + (if 7 < dlc then bytes 7 else 0) * 16777216 := by
  obtain ⟨p1, p2, p3, p4⟩ := pack_four_bytes (bytes 4) (bytes 5) (bytes 6) (bytes 7)
    (hb 4) (hb 5) (hb 6) (hb 7)
  interval_cases dlc <;> simp only [CAN_Send_data_high, List.foldl] <;>
    norm_num [p1, p2, p3, p4]

/-- The mailbox registers `CAN_Send_load` writes. -/
theorem CAN_Send_load_mailbox (c : CanCtrlRegs) (m id : Nat) (bytes : Nat → Nat) (dlc : Nat) :
    (CAN_Send_load c m id bytes dlc).sTxMailBox m
      = { TIR := u32 (id <<< CAN_TI0R_STID_Pos) ||| CAN_TI0R_TXRQ
          TDTR := dlc
          TDLR := CAN_Send_data_low bytes dlc
          TDHR := CAN_Send_data_high bytes dlc } := by
  simp [CAN_Send_load]

/-- A successful `CAN_Send` loads one of the three mailboxes by `CAN_Send_load`. -/
theorem CAN_Send_loads_one_mailbox (d : CanDevice) (clk : Nat) (tsr : Nat → Nat) (id : Nat)
    (bytes : Nat → Nat) (dlc : Nat)
    (hok : (CAN_Send d clk tsr id (some bytes) dlc).1 = true) :
    ∃ m, m < 3 ∧
      (CAN_Send d clk tsr id (some bytes) dlc).2.ctrl = CAN_Send_load d.ctrl m id bytes dlc := by
  unfold CAN_Send at hok ⊢
  dsimp only at hok ⊢
  split_ifs at hok ⊢
  · exact ⟨0, by decide, rfl⟩
  · exact ⟨1, by decide, rfl⟩
  · exact ⟨2, by decide, rfl⟩

/-- C37: loopback round trip.  For an identifier `id <= 0x7FF`, a length code `dlc <= 8` and
payload bytes below 256, when the values `CAN_Send` loads into the identifier, length and
two data registers of a transmit mailbox are presented unchanged as the receive identifier,
length and data registers, with a frame pending and room in the frame buffer, the handler
stores at the old head a frame with identifier `id`, DLC `dlc` and `data[i] = d[i]` for every
`i < dlc`.  A successful `CAN_Send` loads exactly these values into one of the three
mailboxes. -/
theorem C37_loopback_round_trip (c : CanCtrlRegs) (m id : Nat) (bytes : Nat → Nat) (dlc : Nat)
    (s : CanState) (hid : id ≤ 0x7FF) (hdlc : dlc ≤ 8) (hb : ∀ i, bytes i < 256)
    (hpend : s.hw.RF0R &&& CAN_RF0R_FMP0 ≠ 0) (hroom : s.rx_count < CAN_RX_BUFFER_SIZE)
    (hRIR : s.hw.RIR = ((CAN_Send_load c m id bytes dlc).sTxMailBox m).TIR)
    (hRDTR : s.hw.RDTR = ((CAN_Send_load c m id bytes dlc).sTxMailBox m).TDTR)
    (hRDLR : s.hw.RDLR = ((CAN_Send_load c m id bytes dlc).sTxMailBox m).TDLR)
    (hRDHR : s.hw.RDHR = ((CAN_Send_load c m id bytes dlc).sTxMailBox m).TDHR) :
    ((CAN_IRQHandler s).rx_buffer s.rx_head).id = id ∧
    ((CAN_IRQHandler s).rx_buffer s.rx_head).dlc = dlc ∧
    (∀ i, i < dlc → ((CAN_IRQHandler s).rx_buffer s.rx_head).data i = bytes i) ∧
    (CAN_IRQHandler s).rx_count = s.rx_count + 1 ∧
    (∀ (d : CanDevice) (clk : Nat) (tsr : Nat → Nat), d.ctrl = c →
      (CAN_Send d clk tsr id (some bytes) dlc).1 = true →
      ∃ m1, m1 < 3 ∧
        (CAN_Send d clk tsr id (some bytes) dlc).2.ctrl = CAN_Send_load c m1 id bytes dlc) := by
  rw [CAN_Send_load_mailbox] at hRIR hRDTR hRDLR hRDHR
  dsimp only at hRIR hRDTR hRDLR hRDHR
  obtain ⟨hbuf, _, _, hcount⟩ := CAN_IRQHandler_flags_buffer (CAN_IRQHandler_store s)
  have hslot : (CAN_IRQHandler_store s).rx_buffer s.rx_head = CAN_IRQHandler_frame s := by
    simp [CAN_IRQHandler_store]
  have hd : u8 (s.hw.RDTR &&& CAN_RDT0R_DLC) = dlc := by
    rw [hRDTR]
    exact loopback_dlc dlc hdlc
  rw [CAN_IRQHandler_when_room s hpend hroom, hbuf, hcount, hslot]
  refine ⟨?_, hd, ?_, ?_, ?_⟩
  · show (s.hw.RIR >>> CAN_RI0R_STID_Pos) &&& 0x7FF = id
    rw [hRIR]
    exact loopback_identifier id (by omega)
  · intro i hi
    show CAN_IRQHandler_payload (s.rx_buffer s.rx_head).data (u8 (s.hw.RDTR &&& CAN_RDT0R_DLC))
      s.hw.RDLR s.hw.RDHR i = bytes i
    rw [hd, CAN_IRQHandler_payload_eq _ _ _ _ _ (by omega) hi, hRDLR, hRDHR,
      CAN_Send_data_low_masked bytes dlc hb, CAN_Send_data_high_masked bytes dlc hb hdlc]
    have ifb : ∀ j, (if j < dlc then bytes j else 0) < 256 := by
      intro j
      split_ifs
      · exact hb j
      · decide
    obtain ⟨l0, l1, l2, l3⟩ := byte_of_sum _ _ _ _ (ifb 0) (ifb 1) (ifb 2) (ifb 3)
    obtain ⟨g0, g1, g2, g3⟩ := byte_of_sum _ _ _ _ (ifb 4) (ifb 5) (ifb 6) (ifb 7)
    have hi8 : i < 8 := by omega
    interval_cases i
    · rw [if_pos (by decide), l0, if_pos hi]
    · rw [if_pos (by decide), l1, if_pos hi]
    · rw [if_pos (by decide), l2, if_pos hi]
    · rw [if_pos (by decide), l3, if_pos hi]
    · rw [if_neg (by decide), g0, if_pos hi]
    · rw [if_neg (by decide), g1, if_pos hi]
    · rw [if_neg (by decide), g2, if_pos hi]
    · rw [if_neg (by decide), g3, if_pos hi]
  · simp only [CAN_IRQHandler_store, u16, CAN_RX_BUFFER_SIZE] at hroom ⊢
    omega
  · intro d clk tsr hc hok
    rw [← hc]
    exact CAN_Send_loads_one_mailbox d clk tsr id bytes dlc hok

theorem C37_loopback_round_trip_witness :
    ((CAN_IRQHandler { CanState.init with
        hw := loopbackRegs ((CAN_Send_load CanCtrlRegs.init 0 0x100
          (fun i => (i + 0x40) % 256) 8).sTxMailBox 0) 7 }).rx_buffer 0).id = 0x100 ∧
    ((CAN_IRQHandler { CanState.init with
        hw := loopbackRegs ((CAN_Send_load CanCtrlRegs.init 0 0x100
          (fun i => (i + 0x40) % 256) 8).sTxMailBox 0) 7 }).rx_buffer 0).dlc = 8 ∧
    ((CAN_IRQHandler { CanState.init with
        hw := loopbackRegs ((CAN_Send_load CanCtrlRegs.init 0 0x100
          (fun i => (i + 0x40) % 256) 8).sTxMailBox 0) 7 }).rx_buffer 0).data 5 = 0x45 :=
  have h := C37_loopback_round_trip CanCtrlRegs.init 0 0x100 (fun i => (i + 0x40) % 256) 8
    { CanState.init with
      hw := loopbackRegs ((CAN_Send_load CanCtrlRegs.init 0 0x100
        (fun i => (i + 0x40) % 256) 8).sTxMailBox 0) 7 }
    (by decide) (by decide) (fun i => Nat.mod_lt _ (by decide)) (by decide) (by decide)
    rfl rfl rfl rfl
  ⟨h.1, h.2.1, h.2.2.1 5 (by decide)⟩

end Gateway
